import Mathlib

/-!
Transmission core: completion accounting, request wishlist and tracker announcer.

A shallow embedding of `libtransmission/completion.cc` and of the queue, scrape and
back-off logic of `libtransmission/announcer.cc`, with the properties the specification
states about them.

Conventions of the embedding:

* `uint64_t` / `uint32_t` values are natural numbers; every arithmetic step of the source
  on them is written with an explicit wrap (`u64_add`, `u64_sub`, `u64_mul`, `u32_sub`).
* `int` and `time_t` values are integers; the announcer only adds small constants to them.
* a memoised `std::optional` field is an `Option`, and a `const` query that fills the
  memo returns the new state next to the value.
-/

namespace Transmission

/-! ## Machine arithmetic -/

/-- Number of values of a `uint64_t`. -/
def U64 : Nat := 2 ^ 64

/-- Number of values of a `uint32_t`. -/
def U32 : Nat := 2 ^ 32

/-- Addition of two `uint64_t`. -/
def u64_add (a b : Nat) : Nat := (a + b) % U64

/-- Subtraction of two `uint64_t`: wraps around below zero. -/
def u64_sub (a b : Nat) : Nat := (a % U64 + U64 - b % U64) % U64

/-- Multiplication of two `uint64_t`. -/
def u64_mul (a b : Nat) : Nat := (a * b) % U64

/-- Subtraction of two `uint32_t`: wraps around below zero. -/
def u32_sub (a b : Nat) : Nat := (a % U32 + U32 - b % U32) % U32

/-- Addition of two `uint32_t`. -/
def u32_add (a b : Nat) : Nat := (a + b) % U32

/-! ## Bitfield and block arithmetic -/

/-- Modelled from the spec: `tr_bitfield` (bitfield.h is not among the sources). §3 gives it
as a set of indices in `[0, n)`; here it is the list of its `n` flags. -/
structure tr_bitfield where
  flags : List Bool
deriving DecidableEq, Repr

namespace tr_bitfield

/-- Modelled from the spec: `std::size(bitfield)`, the number `n` of indices. -/
def size (b : tr_bitfield) : Nat := b.flags.length

/-- Modelled from the spec: `has(i)`; an index outside `[0, n)` is not in the set. -/
def test (b : tr_bitfield) (i : Nat) : Bool := b.flags.getD i false

/-- Modelled from the spec: `count(begin, end)`, the number of set bits in `[begin, end)`
(§8.9). -/
def count (b : tr_bitfield) (begin_ end_ : Nat) : Nat :=
  ((List.range' begin_ (end_ - begin_)).filter b.test).length

/-- Modelled from the spec: `set(i)`. -/
def set (b : tr_bitfield) (i : Nat) : tr_bitfield := ⟨b.flags.set i true⟩

/-- Modelled from the spec: `unset_span(b, e)` clears the indices in `[b, e)`. -/
def unsetSpan (b : tr_bitfield) (begin_ end_ : Nat) : tr_bitfield :=
  ⟨(List.range b.flags.length).map (fun i => !(decide (begin_ ≤ i) && decide (i < end_)) && b.test i)⟩

/-- Modelled from the spec: `set_has_all()`. -/
def setHasAll (b : tr_bitfield) : tr_bitfield := ⟨List.replicate b.flags.length true⟩

/-- Modelled from the spec: `set_has_none()`. -/
def setHasNone (b : tr_bitfield) : tr_bitfield := ⟨List.replicate b.flags.length false⟩

/-- Modelled from the spec: `has_all`, every index of `[0, n)` is set. -/
def hasAll (b : tr_bitfield) : Bool := b.flags.all id

/-- Modelled from the spec: a bitfield of `n` indices, none set. -/
def ofSize (n : Nat) : tr_bitfield := ⟨List.replicate n false⟩

end tr_bitfield

/-- The `{ begin, end }` pair of block indices `tr_block_span_t`. -/
structure tr_block_span_t where
  begin_ : Nat
  end_ : Nat
deriving DecidableEq, Repr

/-- The `{ begin, end }` pair of byte offsets `tr_byte_span_t`. -/
structure tr_byte_span_t where
  begin_ : Nat
  end_ : Nat
deriving DecidableEq, Repr

/-- Modelled from the spec: `tr_block_info` (block-info.h is not among the sources). §4.A:
the block size is fixed except for the final block, which may be shorter, and
`piece_size(p)` is the metainfo piece length except for the last piece. -/
structure tr_block_info where
  total_size : Nat
  piece_size : Nat
  n_pieces : Nat
  n_blocks : Nat
  block_size : Nat
  final_block_size : Nat
  final_piece_size : Nat
deriving DecidableEq, Repr

namespace tr_block_info

/-- Modelled from the spec: `totalSize()`. -/
def totalSize (bi : tr_block_info) : Nat := bi.total_size

/-- Modelled from the spec: `blockSize(block)`, the final block may be shorter. -/
def blockSize (bi : tr_block_info) (block : Nat) : Nat :=
  if block + 1 = bi.n_blocks then bi.final_block_size else bi.block_size

/-- Modelled from the spec: `pieceSize(piece)`, the last piece may be shorter. -/
def pieceSize (bi : tr_block_info) (piece : Nat) : Nat :=
  if piece + 1 = bi.n_pieces then bi.final_piece_size else bi.piece_size

/-- Modelled from the spec: `byteLoc(byte).block`, the block that holds byte offset `byte`
(piece↔block↔byte coordinate arithmetic of §4.A). -/
def byteLocBlock (bi : tr_block_info) (byte : Nat) : Nat := byte / bi.block_size

/-- Modelled from the spec: `blockSpanForPiece(piece)`, the blocks that hold the bytes of
`piece`, from the block of its first byte to the block of its last byte. -/
def blockSpanForPiece (bi : tr_block_info) (piece : Nat) : tr_block_span_t :=
  if bi.block_size = 0 then ⟨0, 0⟩
  else
    ⟨bi.byteLocBlock (piece * bi.piece_size),
     bi.byteLocBlock (piece * bi.piece_size + bi.pieceSize piece - 1) + 1⟩

end tr_block_info

/-! ## Completion (`completion.cc`) -/

/-- The mutable fields of `tr_completion`: the block bitfield, the cached `size_now_` and
the two memos. The `block_info_` and `tor_` pointers are passed to the operations. -/
structure tr_completion where
  blocks_ : tr_bitfield
  size_now_ : Nat
  size_when_done_ : Option Nat
  has_valid_ : Option Nat
deriving DecidableEq, Repr

namespace tr_completion

/-- Modelled from the spec: the constructor of completion.h (not among the sources): a
bitfield of `n_blocks` indices with none set, nothing possessed, both memos empty. -/
def init (bi : tr_block_info) : tr_completion :=
  { blocks_ := tr_bitfield.ofSize bi.n_blocks, size_now_ := 0,
    size_when_done_ := none, has_valid_ := none }

/-- Modelled from the spec: `hasMetainfo()` of completion.h, the bitfield is not empty. -/
def hasMetainfo (c : tr_completion) : Bool := decide (c.blocks_.size ≠ 0)

/-- Modelled from the spec: `hasAll()` of completion.h, every block is possessed. -/
def hasAll (c : tr_completion) : Bool := c.hasMetainfo && c.blocks_.hasAll

/-- Modelled from the spec: `hasBlock(block)` of completion.h. -/
def hasBlock (c : tr_completion) (block : Nat) : Bool := c.blocks_.test block

/-- Modelled from the spec: `hasTotal()` of completion.h returns the cached `size_now_`
("bytes possessed", §3). -/
def hasTotal (c : tr_completion) : Nat := c.size_now_

/-- The source's `countHasBytesInBlocks(span)`. -/
def countHasBytesInBlocks (bi : tr_block_info) (c : tr_completion) (span : tr_block_span_t) : Nat :=
  let n := c.blocks_.count span.begin_ span.end_
  let n := u64_mul n bi.block_size
  if span.end_ = bi.n_blocks ∧ c.blocks_.test (u32_sub span.end_ 1) = true then
    u64_sub n (u32_sub bi.block_size bi.final_block_size)
  else n

/-- The source's `computeSizeWhenDone()`; `pieceIsWanted` is `tor_->pieceIsWanted`. -/
def computeSizeWhenDone (bi : tr_block_info) (pieceIsWanted : Nat → Bool) (c : tr_completion) : Nat :=
  if c.hasAll then bi.total_size
  else
    (List.range bi.n_pieces).foldl
      (fun size piece =>
        if pieceIsWanted piece then u64_add size (bi.pieceSize piece)
        else u64_add size (countHasBytesInBlocks bi c (bi.blockSpanForPiece piece)))
      0

/-- The source's `sizeWhenDone()`: fills the memo when it is empty and returns it. -/
def sizeWhenDone (bi : tr_block_info) (pieceIsWanted : Nat → Bool) (c : tr_completion) :
    tr_completion × Nat :=
  match c.size_when_done_ with
  | some v => (c, v)
  | none =>
    let v := computeSizeWhenDone bi pieceIsWanted c
    ({ c with size_when_done_ := some v }, v)

/-- The source's `leftUntilDone()`. -/
def leftUntilDone (bi : tr_block_info) (pieceIsWanted : Nat → Bool) (c : tr_completion) :
    tr_completion × Nat :=
  let (c1, size_when_done) := sizeWhenDone bi pieceIsWanted c
  let has_total := c1.hasTotal
  (c1, u64_sub size_when_done has_total)

/-- The source's `addBlock(block)`. -/
def addBlock (bi : tr_block_info) (c : tr_completion) (block : Nat) : tr_completion :=
  if c.hasBlock block then c
  else
    { c with
      blocks_ := c.blocks_.set block
      size_now_ := u64_add c.size_now_ (bi.blockSize block)
      has_valid_ := none }

/-- The source's `setBlocks(blocks)`. -/
def setBlocks (bi : tr_block_info) (c : tr_completion) (blocks : tr_bitfield) : tr_completion :=
  let c1 := { c with blocks_ := blocks }
  { c1 with
    size_now_ := countHasBytesInBlocks bi c1 ⟨0, c1.blocks_.size % U32⟩
    size_when_done_ := none
    has_valid_ := none }

/-- The source's `setHasAll()`. -/
def setHasAll (bi : tr_block_info) (c : tr_completion) : tr_completion :=
  let total_size := bi.totalSize
  { blocks_ := c.blocks_.setHasAll
    size_now_ := total_size
    size_when_done_ := some total_size
    has_valid_ := some total_size }

/-- The source's `addPiece(piece)`: `addBlock` over the piece's block span. -/
def addPiece (bi : tr_block_info) (c : tr_completion) (piece : Nat) : tr_completion :=
  let span := bi.blockSpanForPiece piece
  (List.range' span.begin_ (span.end_ - span.begin_)).foldl (fun c block => addBlock bi c block) c

/-- The source's `removePiece(piece)`. -/
def removePiece (bi : tr_block_info) (c : tr_completion) (piece : Nat) : tr_completion :=
  let span := bi.blockSpanForPiece piece
  { c with
    size_now_ := u64_sub c.size_now_ (countHasBytesInBlocks bi c (bi.blockSpanForPiece piece))
    has_valid_ := none
    blocks_ := c.blocks_.unsetSpan span.begin_ span.end_ }

/-- The source's `countHasBytesInSpan(span)`. -/
def countHasBytesInSpan (bi : tr_block_info) (c : tr_completion) (span : tr_byte_span_t) : Nat :=
  -- confirm the span is valid
  let begin_byte := min (max span.begin_ 0) bi.total_size
  let end_byte := min (max span.end_ 0) bi.total_size
  if begin_byte ≥ end_byte then 0
  else
    -- get the block span of the byte span
    let begin_block := bi.byteLocBlock begin_byte
    let final_block := bi.byteLocBlock (u64_sub end_byte 1)
    -- if the entire span is in a single block
    if begin_block = final_block then
      if c.hasBlock begin_block then u64_sub end_byte begin_byte else 0
    else
      let total := 0
      -- the first block
      let total :=
        if c.hasBlock begin_block then
          let u := u32_add begin_block 1
          let u := u64_mul u bi.block_size
          let u := u64_sub u begin_byte
          u64_add total u
        else total
      -- the middle blocks
      let total :=
        if u32_add begin_block 1 < final_block then
          let u := c.blocks_.count (u32_add begin_block 1) final_block
          let u := u64_mul u bi.block_size
          u64_add total u
        else total
      -- the last block
      let total :=
        if c.hasBlock final_block then
          let u := final_block
          let u := u64_mul u bi.block_size
          u64_add total (u64_sub end_byte u)
        else total
      total

/-- One call on a `tr_completion`: the five mutators and the three queries. -/
inductive CompletionOp where
  | addBlock (block : Nat)
  | addPiece (piece : Nat)
  | removePiece (piece : Nat)
  | setBlocks (blocks : tr_bitfield)
  | setHasAll
  | hasTotal
  | sizeWhenDone
  | leftUntilDone
deriving DecidableEq, Repr

/-- The state after one call. -/
def step (bi : tr_block_info) (pieceIsWanted : Nat → Bool) (c : tr_completion) :
    CompletionOp → tr_completion
  | .addBlock block => addBlock bi c block
  | .addPiece piece => addPiece bi c piece
  | .removePiece piece => removePiece bi c piece
  | .setBlocks blocks => setBlocks bi c blocks
  | .setHasAll => setHasAll bi c
  | .hasTotal => c
  | .sizeWhenDone => (sizeWhenDone bi pieceIsWanted c).1
  | .leftUntilDone => (leftUntilDone bi pieceIsWanted c).1

/-- The state after a sequence of calls, first call first. -/
def run (bi : tr_block_info) (pieceIsWanted : Nat → Bool) (c : tr_completion)
    (ops : List CompletionOp) : tr_completion :=
  ops.foldl (step bi pieceIsWanted) c

end tr_completion

/-! ## Request wishlist -/

/-- The capability `Wishlist::PeerInfo` that the wishlist reads, as the test's
`MockPeerInfo` implements it. -/
structure PeerInfo where
  clientCanRequestBlock : Nat → Bool
  clientCanRequestPiece : Nat → Bool
  isEndgame : Bool
  countActiveRequests : Nat → Nat
  countMissingBlocks : Nat → Nat
  blockSpan : Nat → tr_block_span_t
  countAllPieces : Nat
  priority : Nat → Int

namespace Wishlist

/-- Modelled from the spec: peer-mgr-wishlist.cc is not among the sources (only its test
is). §4.E: "enumerate candidate pieces where `client_can_request_piece` is true". -/
def getCandidates (peer_info : PeerInfo) : List Nat :=
  (List.range peer_info.countAllPieces).filter peer_info.clientCanRequestPiece

/-- Modelled from the spec: the sort key of §4.E, "(priority desc, missing_block_count asc,
tiebreak random)"; `salt` is the random tiebreak drawn for each piece. -/
def candidateLe (peer_info : PeerInfo) (salt : Nat → Nat) (a b : Nat) : Bool :=
  if peer_info.priority a ≠ peer_info.priority b then
    decide (peer_info.priority a > peer_info.priority b)
  else if peer_info.countMissingBlocks a ≠ peer_info.countMissingBlocks b then
    decide (peer_info.countMissingBlocks a < peer_info.countMissingBlocks b)
  else decide (salt a ≤ salt b)

/-- Modelled from the spec: the candidates in the order of the sort key of §4.E. -/
def sortedCandidates (peer_info : PeerInfo) (salt : Nat → Nat) : List Nat :=
  (getCandidates peer_info).insertionSort (fun a b => candidateLe peer_info salt a b = true)

/-- Modelled from the spec: the test of §4.E on one block, "`client_can_request_block(b)`
and (`is_endgame` OR `count_active_requests(b) == 0`)". -/
def blockIsRequestable (peer_info : PeerInfo) (block : Nat) : Bool :=
  peer_info.clientCanRequestBlock block
    && (peer_info.isEndgame || decide (peer_info.countActiveRequests block = 0))

/-- Modelled from the spec: the blocks of one piece that are appended, "block indices
`b ∈ block_span(piece)`" that pass the test, in ascending order. -/
def pieceBlocks (peer_info : PeerInfo) (piece : Nat) : List Nat :=
  let span := peer_info.blockSpan piece
  (List.range' span.begin_ (span.end_ - span.begin_)).filter (blockIsRequestable peer_info)

/-- Modelled from the spec: "Walk pieces in that order, appending block indices ... Stop
when `n` blocks are queued." -/
def queuedBlocks (peer_info : PeerInfo) (salt : Nat → Nat) (n : Nat) : List Nat :=
  ((sortedCandidates peer_info salt).flatMap (pieceBlocks peer_info)).take n

/-- Modelled from the spec: "Coalesce consecutive block indices into `{begin, end}`
spans." -/
def makeSpans : List Nat → List tr_block_span_t
  | [] => []
  | block :: rest =>
    match makeSpans rest with
    | [] => [⟨block, block + 1⟩]
    | span :: spans =>
      if span.begin_ = block + 1 then ⟨block, span.end_⟩ :: spans
      else ⟨block, block + 1⟩ :: span :: spans

/-- Modelled from the spec: `Wishlist::next(peer_info, n)` of §4.E. -/
def next (peer_info : PeerInfo) (salt : Nat → Nat) (n : Nat) : List tr_block_span_t :=
  makeSpans (queuedBlocks peer_info salt n)

/-- The number of blocks a list of spans covers, as the test's `n_got` counts them. -/
def spanBlockCount (spans : List tr_block_span_t) : Nat :=
  (spans.map (fun span => span.end_ - span.begin_)).sum

/-- A block lies in a span. -/
def inSpan (span : tr_block_span_t) (block : Nat) : Prop :=
  span.begin_ ≤ block ∧ block < span.end_

instance (span : tr_block_span_t) (block : Nat) : Decidable (inSpan span block) :=
  inferInstanceAs (Decidable (_ ∧ _))

end Wishlist

/-! ## Announcer (`announcer.cc`) -/

/-- The constant `MaxScrapesPerUpkeep`. -/
def MaxScrapesPerUpkeep : Nat := 20

/-- The constant `TrMultiscrapeStep`: how many infohashes to remove when we get a
scrape-too-long error. -/
def TrMultiscrapeStep : Int := 5

/-- The constant `DefaultScrapeIntervalSec`. -/
def DefaultScrapeIntervalSec : Int := 60 * 30

/-- The constant `DefaultAnnounceIntervalSec`. -/
def DefaultAnnounceIntervalSec : Int := 60 * 10

/-- The constant `DefaultAnnounceMinIntervalSec`. -/
def DefaultAnnounceMinIntervalSec : Int := 60 * 2

/-- Modelled from the spec: the enum `tr_announce_event` of announcer-common.h (not among
the sources); §3 names its four values, and the queue priority is "derived from the max
event in queue". -/
inductive tr_announce_event where
  | NONE
  | COMPLETED
  | STARTED
  | STOPPED
deriving DecidableEq, Repr

/-- Modelled from the spec: the integer value `int{ event }` of an event. -/
def tr_announce_event.toInt : tr_announce_event → Int
  | .NONE => 0
  | .COMPLETED => 1
  | .STARTED => 2
  | .STOPPED => 3

/-- The source's `tr_scrape_info`. -/
structure tr_scrape_info where
  scrape_url : String
  multiscrape_max : Int
deriving DecidableEq, Repr

/-- Modelled from the spec: the fields of `tr_announce_request` (announcer-common.h, not
among the sources) that `announce_request_new` fills from the tier and that `StopsCompare`
reads. The info-hash is a number, compared as the digest is. -/
structure tr_announce_request where
  event : tr_announce_event := .NONE
  numwant : Int := 0
  up : Nat := 0
  down : Nat := 0
  corrupt : Nat := 0
  announce_url : String := ""
  tracker_id : String := ""
  info_hash : Nat := 0
deriving DecidableEq, Repr

/-- The source's `StopsCompare::compare(a, b)`, a three-way comparison. -/
def StopsCompare.compare (a b : tr_announce_request) : Int :=
  -- primary key: volume of data transferred
  let ax := u64_add a.up a.down
  let bx := u64_add b.up b.down
  if ax < bx then -1
  else if ax > bx then 1
  -- secondary key: the torrent's info_hash
  else if a.info_hash < b.info_hash then -1
  else if a.info_hash > b.info_hash then 1
  -- tertiary key: the tracker's announce url
  else if a.announce_url < b.announce_url then -1
  else if a.announce_url > b.announce_url then 1
  else 0

/-- The source's `StopsCompare::operator()`, the "less than" of the `stops` set. -/
def StopsCompare.less (a b : tr_announce_request) : Bool :=
  decide (StopsCompare.compare a b < 0)

/-- The fields of `tr_announcer` the announce and scrape logic uses: the `stops` set, as
the list of its elements in iteration order, and the `scrape_info` map, keyed by scrape
URL. -/
structure tr_announcer where
  stops : List tr_announce_request := []
  scrape_info : String → Option tr_scrape_info

/-- The source's `tr_announcerGetScrapeInfo`: `try_emplace(url, url, TR_MULTISCRAPE_MAX)`
and the entry found or made; `none` is the null pointer. `TR_MULTISCRAPE_MAX` is a
constant of announcer-common.h, which is not among the sources. -/
def tr_announcerGetScrapeInfo (TR_MULTISCRAPE_MAX : Int) (announcer : tr_announcer) (url : String) :
    tr_announcer × Option tr_scrape_info :=
  if url = "" then (announcer, none)
  else
    match announcer.scrape_info url with
    | some info => (announcer, some info)
    | none =>
      let info : tr_scrape_info := ⟨url, TR_MULTISCRAPE_MAX⟩
      ({ announcer with scrape_info := fun u => if u = url then some info else announcer.scrape_info u },
        some info)

/-- The source's `tr_tracker`, a row in a tier's list of trackers. The pointer
`scrape_info` into the announcer's map is the key of the entry, `none` for null. -/
structure tr_tracker where
  host : String := ""
  announce_url : String := ""
  sitename : String := ""
  scrape_info : Option String := none
  tracker_id : String := ""
  seeder_count : Int := -1
  leecher_count : Int := -1
  download_count : Int := -1
  downloader_count : Int := -1
  consecutive_failures : Int := 0
  id : Nat := 0
deriving DecidableEq, Repr

/-- The source's `tr_tracker::getRetryInterval`; `tr_rand_int_weak` is the random source of
crypto-utils.h. -/
def tr_tracker.getRetryInterval (tr_rand_int_weak : Int → Int) (tracker : tr_tracker) : Int :=
  match tracker.consecutive_failures with
  | 0 => 0
  | 1 => 20
  | 2 => tr_rand_int_weak 60 + 60 * 5
  | 3 => tr_rand_int_weak 60 + 60 * 15
  | 4 => tr_rand_int_weak 60 + 60 * 30
  | 5 => tr_rand_int_weak 60 + 60 * 60
  | _ => tr_rand_int_weak 60 + 60 * 120

/-- The fields of `tr_torrent` that the tier code reads through its `tor` pointer and
that `resume.cc` loads. -/
structure tr_torrent where
  info_hash : Nat := 0
  /-- The value of `tor->isDone()`. -/
  isDone : Bool := false
  /-- The field `tor->isRunning`. -/
  isRunning : Bool := false
  /-- The value of `tor->trackerCount()`. -/
  trackerCount : Nat := 1
  /-- The field `tor->maxConnectedPeers`, a `uint16_t`. -/
  maxConnectedPeers : Nat := 0
  /-- The field `tor->download_dir`. -/
  download_dir : String := ""
  /-- The field `tor->incomplete_dir`. -/
  incomplete_dir : String := ""
  /-- The field `tor->current_dir`. -/
  current_dir : String := ""
deriving DecidableEq, Repr

/-- The fields of `tr_session` the tier code reads. -/
structure tr_session where
  scrapePausedTorrents : Bool := true
deriving DecidableEq, Repr

/-- The source's `tr_tier`, a group of trackers in a single tier. -/
structure tr_tier where
  tor : tr_torrent := {}
  byteCounts : Nat × Nat × Nat := (0, 0, 0)
  trackers : List tr_tracker := []
  current_tracker_index_ : Option Nat := none
  scrapeAt : Int := 0
  lastScrapeStartTime : Int := 0
  lastScrapeTime : Int := 0
  lastScrapeSucceeded : Bool := false
  lastScrapeTimedOut : Bool := false
  announceAt : Int := 0
  manualAnnounceAllowedAt : Int := 0
  lastAnnounceStartTime : Int := 0
  lastAnnounceTime : Int := 0
  lastAnnounceSucceeded : Bool := false
  lastAnnounceTimedOut : Bool := false
  announce_events : List tr_announce_event := []
  announce_event_priority : Int := 0
  id : Int := 0
  scrapeIntervalSec : Int := DefaultScrapeIntervalSec
  announceIntervalSec : Int := DefaultAnnounceIntervalSec
  announceMinIntervalSec : Int := DefaultAnnounceMinIntervalSec
  lastAnnouncePeerCount : Int := 0
  isRunning : Bool := false
  isAnnouncing : Bool := false
  isScraping : Bool := false
  last_announce_str : String := ""
  last_scrape_str : String := ""
deriving DecidableEq, Repr

namespace tr_tier

/-- The source's `currentTracker()`; `none` is the null pointer. -/
def currentTracker (tier : tr_tier) : Option tr_tracker :=
  match tier.current_tracker_index_ with
  | none => none
  | some i => tier.trackers[i]?

/-- The rounding loop of `getNextScrapeTime`: `while (ret % 10 != 0) ++ret;`. -/
def roundUpLoop (ret : Int) : Int :=
  if ret.tmod 10 ≠ 0 then roundUpLoop (ret + 1) else ret
termination_by ((-ret) % 10).toNat
decreasing_by
  rename_i h
  have h2 : ret % 10 ≠ 0 := by
    intro h0
    exact h (Int.tmod_eq_zero_of_dvd (Int.dvd_of_emod_eq_zero h0))
  omega

/-- The source's `getNextScrapeTime(session, tier, interval)`; `now` is `tr_time()`. -/
def getNextScrapeTime (now : Int) (session : tr_session) (tier : tr_tier) (interval : Int) : Int :=
  -- Maybe don't scrape paused torrents
  if !tier.isRunning && !session.scrapePausedTorrents then 0
  else
    let ret := now + interval
    roundUpLoop ret

/-- The source's `scheduleNextScrape(interval)`. -/
def scheduleNextScrape (now : Int) (session : tr_session) (tier : tr_tier) (interval : Int) : tr_tier :=
  { tier with scrapeAt := getNextScrapeTime now session tier interval }

end tr_tier

/-- The source's `tier_update_announce_priority`. -/
def tier_update_announce_priority (tier : tr_tier) : tr_tier :=
  { tier with
    announce_event_priority := tier.announce_events.foldl (fun priority event => max priority event.toInt) (-1) }

/-- The loop of `tier_announce_remove_trailing` on the queue: while the queue is not empty
and its back is `e`, shrink it by one. -/
def remove_trailing_loop (e : tr_announce_event) (events : List tr_announce_event) :
    List tr_announce_event :=
  if events ≠ [] ∧ events.getLast? = some e then remove_trailing_loop e events.dropLast else events
termination_by events.length
decreasing_by
  rename_i h
  have := List.length_pos.mpr h.1
  simp only [List.length_dropLast]
  omega

/-- The source's `tier_announce_remove_trailing`. -/
def tier_announce_remove_trailing (tier : tr_tier) (e : tr_announce_event) : tr_tier :=
  tier_update_announce_priority { tier with announce_events := remove_trailing_loop e tier.announce_events }

/-- The source's `tier_announce_event_push`. -/
def tier_announce_event_push (tier : tr_tier) (e : tr_announce_event) (announceAt : Int) : tr_tier :=
  let tier :=
    if tier.announce_events ≠ [] then
      /- special case #1: if we're adding a "stopped" event,
         dump everything leading up to it except "completed" -/
      let tier :=
        if e = .STOPPED then
          let has_completed := tier.announce_events.count .COMPLETED ≠ 0
          if has_completed then { tier with announce_events := [.COMPLETED] }
          else { tier with announce_events := [] }
        else tier
      /- special case #2: dump all empty strings leading up to this event -/
      let tier := tier_announce_remove_trailing tier .NONE
      /- special case #3: no consecutive duplicates -/
      tier_announce_remove_trailing tier e
    else tier
  /- add it -/
  tier_update_announce_priority
    { tier with announce_events := tier.announce_events ++ [e], announceAt := announceAt }

/-- The source's `tier_announce_event_pull`; `none` on an empty queue, where the source
reads the front of an empty deque. -/
def tier_announce_event_pull (tier : tr_tier) : Option (tr_tier × tr_announce_event) :=
  match tier.announce_events with
  | [] => none
  | e :: rest => some (tier_update_announce_priority { tier with announce_events := rest }, e)

/-- Modelled from the spec: `tr_strvContains(sv, key)` of utils.h (not among the sources),
`key` occurs in `sv` as a substring. -/
def tr_strvContains : List Char → List Char → Bool
  | [], key => key.isEmpty
  | c :: cs, key => key.isPrefixOf (c :: cs) || tr_strvContains cs key

/-- The source's `multiscrape_too_big`. -/
def multiscrape_too_big (errmsg : String) : Bool :=
  ["Bad Request", "GET string too long", "Request-URI Too Long"].any
    (fun substr => tr_strvContains errmsg.toList substr.toList)

/-- Modelled from the spec: the fields of `tr_scrape_response` (announcer-common.h, not
among the sources) that `checkMultiscrapeMax` reads. -/
structure tr_scrape_response where
  scrape_url : String := ""
  errmsg : String := ""
  row_count : Int := 0
deriving DecidableEq, Repr

/-- The source's `checkMultiscrapeMax`. -/
def checkMultiscrapeMax (TR_MULTISCRAPE_MAX : Int) (announcer : tr_announcer)
    (response : tr_scrape_response) : tr_announcer :=
  if !multiscrape_too_big response.errmsg then announcer
  else
    let url := response.scrape_url
    match tr_announcerGetScrapeInfo TR_MULTISCRAPE_MAX announcer url with
    | (announcer, none) => announcer
    | (announcer, some scrape_info) =>
      /- Lower the max only if it hasn't already lowered for a similar error. -/
      let multiscrape_max := scrape_info.multiscrape_max
      if multiscrape_max < response.row_count then announcer
      else
        let n := max 1 (multiscrape_max - TrMultiscrapeStep)
        if multiscrape_max ≠ n then
          { announcer with
            scrape_info := fun u =>
              if u = url then some { scrape_info with multiscrape_max := n }
              else announcer.scrape_info u }
        else announcer

/-- Modelled from the spec: the fields of `tr_scrape_request` (announcer-common.h, not
among the sources) that `multiscrape` fills: the URL and the info-hashes
`info_hash[0 .. info_hash_count)`. -/
structure tr_scrape_request where
  scrape_url : String := ""
  info_hash : List Nat := []
deriving DecidableEq, Repr

/-- The `info_hash_count` of a request. -/
def tr_scrape_request.info_hash_count (req : tr_scrape_request) : Int := req.info_hash.length

/-- The inner loop of `multiscrape`: "if there's a request with this scrape URL and a free
slot, use it"; `none` when no request takes the info-hash (`found` stays false). -/
def multiscrape_use_slot (scrape_info : tr_scrape_info) (info_hash : Nat) :
    List tr_scrape_request → Option (List tr_scrape_request)
  | [] => none
  | req :: rest =>
    if req.info_hash_count ≥ scrape_info.multiscrape_max then
      (multiscrape_use_slot scrape_info info_hash rest).map (req :: ·)
    else if scrape_info.scrape_url ≠ req.scrape_url then
      (multiscrape_use_slot scrape_info info_hash rest).map (req :: ·)
    else some ({ req with info_hash := req.info_hash ++ [info_hash] } :: rest)

/-- The pointer chain `tier->currentTracker()->scrape_info` of `multiscrape`, read from the
announcer's map; `none` where the source dereferences a null current tracker or a null
scrape info. -/
def tr_tier.currentScrapeInfo (announcer : tr_announcer) (tier : tr_tier) : Option tr_scrape_info :=
  match tier.currentTracker with
  | none => none
  | some tracker =>
    match tracker.scrape_info with
    | none => none
    | some key => announcer.scrape_info key

/-- One round of the outer loop of `multiscrape`: the tiers handled so far and the
requests built so far, then one more tier. -/
def multiscrape_tier (announcer : tr_announcer) (now : Int)
    (acc : List tr_tier × List tr_scrape_request) (tier : tr_tier) :
    Option (List tr_tier × List tr_scrape_request) :=
  match tier.currentScrapeInfo announcer with
  | none => none
  | some scrape_info =>
    let scraping : tr_tier := { tier with isScraping := true, lastScrapeStartTime := now }
    /- if there's a request with this scrape URL and a free slot, use it -/
    match multiscrape_use_slot scrape_info tier.tor.info_hash acc.2 with
    | some requests => some (acc.1 ++ [scraping], requests)
    | none =>
      /- otherwise, if there's room for another request, build a new one -/
      if acc.2.length < MaxScrapesPerUpkeep then
        some (acc.1 ++ [scraping],
          acc.2 ++ [{ scrape_url := scrape_info.scrape_url, info_hash := [tier.tor.info_hash] }])
      else some (acc.1 ++ [tier], acc.2)

/-- The source's `multiscrape`: the tiers after the call and the requests handed to
`scrape_request_delegate`, in order. -/
def multiscrape (announcer : tr_announcer) (now : Int) (tiers : List tr_tier) :
    Option (List tr_tier × List tr_scrape_request) :=
  tiers.foldlM (multiscrape_tier announcer now) ([], [])

/-- Two pieces of one 16 KiB block each. -/
def twoPieceInfo : tr_block_info :=
  { total_size := 32768, piece_size := 16384, n_pieces := 2, n_blocks := 2,
    block_size := 16384, final_block_size := 16384, final_piece_size := 16384 }

/-- Only piece 0 is wanted. -/
def wantFirstOnly (piece : Nat) : Bool := decide (piece = 0)

/-- The layout of the byte-span example: three blocks of 4, 4 and 2 bytes. -/
def tenByteInfo : tr_block_info :=
  { total_size := 10, piece_size := 4, n_pieces := 3, n_blocks := 3,
    block_size := 4, final_block_size := 2, final_piece_size := 2 }

/-- A completion over `tenByteInfo` that owns blocks 0 and 2. -/
def tenByteCompletion : tr_completion :=
  { blocks_ := ⟨[true, false, true]⟩, size_now_ := 6, size_when_done_ := none, has_valid_ := none }

/-! ### The specification's reading of `count_has_bytes_in_span` -/

/-- Number of `x < n` that satisfy `p`. -/
def countBelow (p : Nat → Bool) (n : Nat) : Nat := ((List.range n).filter p).length

/-- Whether byte offset `x` lies in an owned block. -/
def byteOwned (bi : tr_block_info) (c : tr_completion) (x : Nat) : Bool :=
  c.hasBlock (x / bi.block_size)

/-- The specification's reading of `count_has_bytes_in_span`: the number of byte offsets
`x` with `begin ≤ x < end` and `x < total_size` whose block `x / block_size` is owned. -/
def ownedBytesInSpan (bi : tr_block_info) (c : tr_completion) (span : tr_byte_span_t) : Nat :=
  ((List.range' span.begin_ (span.end_ - span.begin_)).filter
    (fun x => decide (x < bi.total_size) && c.hasBlock (x / bi.block_size))).length

/-! ### Example data for the announcer -/

/-- The queue after a push, computed from the queue before with list functions only. -/
def pushedQueue (events : List tr_announce_event) (e : tr_announce_event) : List tr_announce_event :=
  if events = [] then [e]
  else if e = .STOPPED then
    (if tr_announce_event.COMPLETED ∈ events then [.COMPLETED, .STOPPED] else [.STOPPED])
  else ((events.rdropWhile (fun x => decide (x = .NONE))).rdropWhile (fun x => decide (x = e))) ++ [e]

/-- The start of a tier's life: an empty queue. -/
def freshTier : tr_tier := {}

/-- A tier whose queue holds `Started, Completed, None`. -/
def busyTier : tr_tier := { announce_events := [.STARTED, .COMPLETED, .NONE] }

/-- A scrape map with one URL, whose limit is 20. -/
def announcerWithMax20 : tr_announcer :=
  { scrape_info := fun u => if u = "http://t/scrape" then some ⟨"http://t/scrape", 20⟩ else none }

/-- A failed multiscrape of 20 rows. -/
def tooLongResponse : tr_scrape_response :=
  { scrape_url := "http://t/scrape", errmsg := "Request-URI Too Long", row_count := 20 }

/-- A tier of torrent `info_hash` whose only tracker scrapes at `http://t/scrape`. -/
def scrapingTier (info_hash : Nat) : tr_tier :=
  { tor := { info_hash := info_hash }
    trackers := [{ scrape_info := some "http://t/scrape" }]
    current_tracker_index_ := some 0 }

/-- A tracker that has failed `n` times in a row. -/
def failedTracker (n : Int) : tr_tracker := { consecutive_failures := n }

/-- What `multiscrape` keeps true of the requests built so far, for tiers taken from
`src`: at most `MaxScrapesPerUpkeep` requests; each request's URL is a key of the scrape
map and the request holds no more info-hashes than that entry's `multiscrape_max`; each
info-hash in it is of a tier of `src` whose scrape URL is the request's. -/
def MultiscrapeInv (announcer : tr_announcer) (src : List tr_tier)
    (requests : List tr_scrape_request) : Prop :=
  requests.length ≤ MaxScrapesPerUpkeep
    ∧ ∀ req ∈ requests,
        (∃ info, announcer.scrape_info req.scrape_url = some info
            ∧ req.info_hash_count ≤ info.multiscrape_max)
          ∧ ∀ h ∈ req.info_hash, ∃ tier ∈ src, tier.tor.info_hash = h
              ∧ ∃ info, tier.currentScrapeInfo announcer = some info
                  ∧ info.scrape_url = req.scrape_url

/-- A tier that `multiscrape` may be given: its current tracker has a scrape info, held in
the announcer's map under its own URL, with a limit of at least 1. -/
def ScrapeReady (announcer : tr_announcer) (tier : tr_tier) : Prop :=
  ∃ info, tier.currentScrapeInfo announcer = some info
    ∧ announcer.scrape_info info.scrape_url = some info
    ∧ 1 ≤ info.multiscrape_max

/-! ### Example data for the wishlist -/

/-- The setting of the test `onlyRequestsDupesDuringEndgame`, scaled down: three pieces of
four blocks, every block requestable, blocks `[0, 6)` already requested. -/
def dupesPeerInfo (is_endgame : Bool) : PeerInfo :=
  { clientCanRequestBlock := fun block => decide (block < 12)
    clientCanRequestPiece := fun piece => decide (piece < 3)
    isEndgame := is_endgame
    countActiveRequests := fun block => if block < 6 then 1 else 0
    countMissingBlocks := fun _ => 4
    blockSpan := fun piece => ⟨4 * piece, 4 * piece + 4⟩
    countAllPieces := 3
    priority := fun _ => 0 }

/-! ## Announcer: announce responses, tier ordering and the `stops` set -/

/-- The index `TR_ANN_UP` into `byteCounts`. -/
def tr_tier.up (tier : tr_tier) : Nat := tier.byteCounts.1

/-- The index `TR_ANN_DOWN` into `byteCounts`. -/
def tr_tier.down (tier : tr_tier) : Nat := tier.byteCounts.2.1

/-- The index `TR_ANN_CORRUPT` into `byteCounts`. -/
def tr_tier.corrupt (tier : tr_tier) : Nat := tier.byteCounts.2.2

/-- The source's `tr_tier::needsToAnnounce(now)`. -/
def tr_tier.needsToAnnounce (tier : tr_tier) (now : Int) : Bool :=
  !tier.isAnnouncing && !tier.isScraping && decide (tier.announceAt ≠ 0)
    && decide (tier.announceAt ≤ now) && !tier.announce_events.isEmpty

/-- The source's `tr_tier::countDownloaders()`. -/
def tr_tier.countDownloaders (tier : tr_tier) : Int :=
  match tier.currentTracker with
  | none => 0
  | some tracker => tracker.downloader_count + tracker.leecher_count

/-- The source's `tr_tier::useNextTracker()`: the tier after the call; its return value is
`currentTracker` of that tier. -/
def tr_tier.useNextTracker (tier : tr_tier) : tr_tier :=
  { tier with
    -- move our index to the next tracker in the tier
    current_tracker_index_ :=
      if tier.trackers = [] then none
      else match tier.current_tracker_index_ with
        | none => some 0
        | some i => some ((i + 1) % tier.trackers.length)
    -- reset some of the tier's fields
    scrapeIntervalSec := DefaultScrapeIntervalSec
    announceIntervalSec := DefaultAnnounceIntervalSec
    announceMinIntervalSec := DefaultAnnounceMinIntervalSec
    isAnnouncing := false
    isScraping := false
    lastAnnounceStartTime := 0
    lastScrapeStartTime := 0 }

/-- The constructor of `tr_tier`: the default fields, the trackers of the tier, then
`useNextTracker()` and `scrapeSoon()`. -/
def tr_tier.build (now : Int) (session : tr_session) (tor : tr_torrent) (id : Int)
    (trackers : List tr_tracker) : tr_tier :=
  let tier : tr_tier := { tor := tor, id := id, trackers := trackers }
  let tier := tier.useNextTracker
  tier.scheduleNextScrape now session 0

/-- A write through the pointer `tier->currentTracker()`: the tier with its current
tracker replaced, unchanged when there is none. -/
def tr_tier.setCurrentTracker (tier : tr_tier) (tracker : tr_tracker) : tr_tier :=
  match tier.current_tracker_index_ with
  | none => tier
  | some i => { tier with trackers := tier.trackers.set i tracker }

/-- Modelled from the spec: the fields of `tr_announce_response` (announcer-common.h, not
among the sources) that `on_announce_done` reads; a peer of a `pex` list is a number. -/
structure tr_announce_response where
  info_hash : Nat := 0
  did_connect : Bool := false
  did_timeout : Bool := false
  seeders : Int := -1
  leechers : Int := -1
  downloads : Int := -1
  interval : Int := 0
  min_interval : Int := 0
  tracker_id : String := ""
  pex : List Nat := []
  pex6 : List Nat := []
  errmsg : String := ""
  warning : String := ""
deriving DecidableEq, Repr

/-- The source's `announce_data`, the callback data of an announce. -/
structure announce_data where
  tier_id : Int := 0
  time_sent : Int := 0
  event : tr_announce_event := .NONE
  is_running_on_success : Bool := false
deriving DecidableEq, Repr

/-- One call of a publish function of `announcer.cc`, with its arguments. -/
inductive PublishCall where
  | publishErrorClear
  | publishWarning (msg : String)
  | publishError (msg : String)
  | publishPeerCounts (seeders leechers : Int)
  | publishPeersPex (seeders leechers : Int) (pex : List Nat)
deriving DecidableEq, Repr

/-- The first step of `on_announce_error` and of `on_scrape_error`, "increment the error
count": `++current_tracker->consecutive_failures` when there is a current tracker. -/
def tr_tier.countFailure (tier : tr_tier) : tr_tier :=
  match tier.currentTracker with
  | some current_tracker =>
    tier.setCurrentTracker
      { current_tracker with consecutive_failures := current_tracker.consecutive_failures + 1 }
  | none => tier

/-- The source's `on_announce_error(tier, err, e)`; `none` where the source dereferences
the null tracker that `useNextTracker()` returns for a tier without trackers. -/
def on_announce_error (tr_rand_int_weak : Int → Int) (now : Int) (tier : tr_tier) (err : String)
    (e : tr_announce_event) : Option tr_tier :=
  /- increment the error count, set the error message, switch to the next tracker -/
  match ({ tier.countFailure with last_announce_str := err } : tr_tier).useNextTracker.currentTracker with
  | none => none
  | some current_tracker =>
    /- schedule a reannounce -/
    let interval := current_tracker.getRetryInterval tr_rand_int_weak
    some (tier_announce_event_push
      ({ tier.countFailure with last_announce_str := err } : tr_tier).useNextTracker e
      (now + interval))

/-- The writes of the success branch of `on_announce_done` through a non-null `tracker`:
the tracker afterwards, with the locals `seeders`, `leechers` and `scrape_fields`. -/
def announce_success_tracker (tracker : tr_tracker) (response : tr_announce_response) :
    tr_tracker × Int × Int × Int :=
  let tracker := { tracker with consecutive_failures := 0 }
  let seeders : Int := if response.seeders ≥ 0 then response.seeders else 0
  let leechers : Int := if response.leechers ≥ 0 then response.leechers else 0
  let scrape_fields : Int :=
    (if response.seeders ≥ 0 then 1 else 0) + (if response.leechers ≥ 0 then 1 else 0)
      + (if response.downloads ≥ 0 then 1 else 0)
  let tracker :=
    if response.seeders ≥ 0 then { tracker with seeder_count := response.seeders } else tracker
  let tracker :=
    if response.leechers ≥ 0 then { tracker with leecher_count := response.leechers } else tracker
  let tracker :=
    if response.downloads ≥ 0 then { tracker with download_count := response.downloads }
    else tracker
  let tracker :=
    if response.tracker_id ≠ "" then { tracker with tracker_id := response.tracker_id }
    else tracker
  (tracker, seeders, leechers, scrape_fields)

/-- The block `if (tracker != nullptr) { ... }` of the success branch: the tier with its
current tracker written, and the locals `seeders`, `leechers`, `scrape_fields`, which stay
0 when there is no current tracker. -/
def announce_success_counts (tier : tr_tier) (response : tr_announce_response) :
    tr_tier × Int × Int × Int :=
  match tier.currentTracker with
  | none => (tier, 0, 0, 0)
  | some tracker =>
    let r := announce_success_tracker tracker response
    (tier.setCurrentTracker r.1, r.2.1, r.2.2.1, r.2.2.2)

/-- The publish calls of the success branch, in the order of the source. -/
def announce_success_log (response : tr_announce_response) (seeders leechers : Int) :
    List PublishCall :=
  [PublishCall.publishErrorClear]
    ++ (if response.warning ≠ "" then [PublishCall.publishWarning response.warning] else [])
    ++ (if response.pex ≠ [] then [PublishCall.publishPeersPex seeders leechers response.pex]
        else [])
    ++ (if response.pex6 ≠ [] then [PublishCall.publishPeersPex seeders leechers response.pex6]
        else [])
    ++ [PublishCall.publishPeerCounts seeders leechers]

/-- The success branch from the warning to `tier->isRunning = data->is_running_on_success`:
the message, the two intervals and the running flag. -/
def announce_success_intervals (tier : tr_tier) (response : tr_announce_response)
    (data : announce_data) : tr_tier :=
  let tier :=
    { tier with
      last_announce_str := if response.warning ≠ "" then response.warning else "Success" }
  let tier :=
    if response.min_interval ≠ 0 then { tier with announceMinIntervalSec := response.min_interval }
    else tier
  let tier :=
    if response.interval ≠ 0 then { tier with announceIntervalSec := response.interval }
    else tier
  { tier with isRunning := data.is_running_on_success }

/-- The success branch on scrape fields: "if the tracker included scrape fields in its
announce response, then a separate scrape isn't needed". -/
def announce_success_scrape (now : Int) (session : tr_session) (tier : tr_tier)
    (scrape_fields : Int) : tr_tier :=
  let no_scrape_url :=
    match tier.currentTracker with
    | none => false
    | some tracker => tracker.scrape_info.isNone
  if scrape_fields ≥ 3 ∨ (scrape_fields ≥ 1 ∧ no_scrape_url = true) then
    let tier := tier.scheduleNextScrape now session tier.scrapeIntervalSec
    { tier with lastScrapeTime := now, lastScrapeSucceeded := true }
  else if tier.lastScrapeTime + tier.scrapeIntervalSec ≤ now then
    tier.scheduleNextScrape now session 0
  else tier

/-- The end of the success branch: the success flag and peer count, the reset of the byte
counters after a "stopped", and the periodic re-announce. -/
def announce_success_finish (now : Int) (tier : tr_tier) (response : tr_announce_response)
    (data : announce_data) : tr_tier :=
  let isStopped := data.event = .STOPPED
  let tier :=
    { tier with
      lastAnnounceSucceeded := true
      lastAnnouncePeerCount := (response.pex.length + response.pex6.length : Nat) }
  let tier :=
    if isStopped then
      /- now that we've successfully stopped the torrent, we can reset the
         up/down/corrupt count we've kept for this tracker -/
      { tier with byteCounts := (0, 0, 0) }
    else tier
  if ¬ isStopped ∧ tier.announce_events = [] then
    /- the queue is empty, so enqueue a perodic update -/
    let i := tier.announceIntervalSec
    tier_announce_event_push tier .NONE (now + i)
  else tier

/-- The success branch of `on_announce_done`: the tier and the publish calls, in order. -/
def on_announce_done_success (now : Int) (session : tr_session) (tier : tr_tier)
    (response : tr_announce_response) (data : announce_data) : tr_tier × List PublishCall :=
  let counts := announce_success_counts tier response
  let tier := announce_success_intervals counts.1 response data
  let tier := announce_success_scrape now session tier counts.2.2.2
  (announce_success_finish now tier response data,
    announce_success_log response counts.2.1 counts.2.2.1)

/-- The first writes of `on_announce_done`, before it looks at the response's outcome. -/
def announce_response_received (now : Int) (tier : tr_tier) (response : tr_announce_response) :
    tr_tier :=
  { tier with
    lastAnnounceTime := now
    lastAnnounceTimedOut := response.did_timeout
    lastAnnounceSucceeded := false
    isAnnouncing := false
    manualAnnounceAllowedAt := now + tier.announceMinIntervalSec }

/-- The source's `on_announce_done` for a tier that `getTier` finds: the tier after the
call and the publish calls made, in order; `none` as in `on_announce_error`. -/
def on_announce_done (tr_rand_int_weak : Int → Int) (now : Int) (session : tr_session)
    (tier : tr_tier) (response : tr_announce_response) (data : announce_data) :
    Option (tr_tier × List PublishCall) :=
  let event := data.event
  let tier := announce_response_received now tier response
  if !response.did_connect then
    (on_announce_error tr_rand_int_weak now tier "Could not connect to tracker" event).map
      (fun t => (t, []))
  else if response.did_timeout then
    (on_announce_error tr_rand_int_weak now tier "Tracker did not respond" event).map
      (fun t => (t, []))
  else if response.errmsg ≠ "" then
    /- If the torrent's only tracker returned an error, publish it.
       Don't bother publishing if there are other trackers -/
    let log := if tier.tor.trackerCount < 2 then [PublishCall.publishError response.errmsg] else []
    (on_announce_error tr_rand_int_weak now tier response.errmsg event).map (fun t => (t, log))
  else some (on_announce_done_success now session tier response data)

/-- The constant `Numwant`, the value of the 'numwant' argument of tracker requests. -/
def Numwant : Int := 80

/-- The source's `announce_request_new`; `none` where it dereferences a null current
tracker. -/
def announce_request_new (tor : tr_torrent) (tier : tr_tier) (event : tr_announce_event) :
    Option tr_announce_request :=
  match tier.currentTracker with
  | none => none
  | some tracker =>
    some
      { announce_url := tracker.announce_url
        tracker_id := tracker.tracker_id
        info_hash := tor.info_hash
        up := tier.up
        down := tier.down
        corrupt := tier.corrupt
        event := event
        numwant := if event = .STOPPED then 0 else Numwant }

/-- The source's `tierAnnounce`: the tier after the call, the request handed to
`announce_request_delegate` and the callback data; `none` on an empty queue or a null
current tracker. -/
def tierAnnounce (now : Int) (tier : tr_tier) :
    Option (tr_tier × tr_announce_request × announce_data) :=
  let tor := tier.tor
  match tier_announce_event_pull tier with
  | none => none
  | some (tier, announce_event) =>
    match announce_request_new tor tier announce_event with
    | none => none
    | some req =>
      let data : announce_data :=
        { tier_id := tier.id, time_sent := now, event := announce_event,
          is_running_on_success := tor.isRunning }
      some ({ tier with isAnnouncing := true, lastAnnounceStartTime := now }, req, data)

/-- The source's `compareAnnounceTiers(a, b)`; `addr_a` and `addr_b` are the addresses of
the two tiers, which the last comparison uses. -/
def compareAnnounceTiers (a : tr_tier) (addr_a : Nat) (b : tr_tier) (addr_b : Nat) : Int :=
  /- prefer higher-priority events -/
  if a.announce_event_priority ≠ b.announce_event_priority then
    (if a.announce_event_priority > b.announce_event_priority then -1 else 1)
  /- prefer swarms where we might upload -/
  else if a.countDownloaders ≠ b.countDownloaders then
    (if a.countDownloaders > b.countDownloaders then -1 else 1)
  /- prefer swarms where we might download -/
  else if a.tor.isDone ≠ b.tor.isDone then
    (if a.tor.isDone then 1 else -1)
  /- prefer larger stats, to help ensure stats get recorded when stopping on shutdown -/
  else if u64_add a.up a.down ≠ u64_add b.up b.down then
    (if u64_add a.up a.down > u64_add b.up b.down then -1 else 1)
  -- announcements that have been waiting longer go first
  else if a.announceAt ≠ b.announceAt then
    (if a.announceAt < b.announceAt then -1 else 1)
  -- the tiers are effectively equal priority, but add an arbitrary differentiation
  else (if addr_a < addr_b then -1 else 1)

/-- The `insert` of the `std::set` `stops`: the request goes before the first element it
is less than, and is dropped when an equivalent element is already there. -/
def stops_insert (req : tr_announce_request) : List tr_announce_request → List tr_announce_request
  | [] => [req]
  | stop :: rest =>
    if StopsCompare.less req stop then req :: stop :: rest
    else if StopsCompare.less stop req then stop :: stops_insert req rest
    else stop :: rest

/-- The source's `flushCloseMessages`: the announcer with `stops` cleared, and the
requests handed to `announce_request_delegate`, in order. -/
def flushCloseMessages (announcer : tr_announcer) : tr_announcer × List tr_announce_request :=
  ({ announcer with stops := [] }, announcer.stops)

/-- Whether a publish call is one of `publishError`, `publishPeersPex`,
`publishPeerCounts`. -/
def PublishCall.isResponseData : PublishCall → Bool
  | .publishError _ => true
  | .publishPeersPex _ _ _ => true
  | .publishPeerCounts _ _ => true
  | _ => false

/-- The tier states the announcer's steps reach from a freshly built tier, each with the
number of announces in flight and the tracker responses that `on_announce_done` has
handled so far, latest first: a response is handled only for an announce that
`tierAnnounce` sent, at a positive clock `now`. The pushes of the step `push` are at a
non-zero time; the pushes inside `on_announce_done` and `on_announce_error` are wherever
the code puts them. -/
inductive TierReachable (tr_rand_int_weak : Int → Int) (session : tr_session) :
    tr_tier → Nat → List tr_announce_response → Prop where
  | build (now : Int) (tor : tr_torrent) (id : Int) (trackers : List tr_tracker) :
      TierReachable tr_rand_int_weak session (tr_tier.build now session tor id trackers) 0 []
  | push (tier : tr_tier) (pending : Nat) (responses : List tr_announce_response)
      (e : tr_announce_event) (announceAt : Int) :
      TierReachable tr_rand_int_weak session tier pending responses → announceAt ≠ 0 →
      TierReachable tr_rand_int_weak session (tier_announce_event_push tier e announceAt) pending
        responses
  | announce (tier : tr_tier) (pending : Nat) (responses : List tr_announce_response)
      (now : Int) (tier' : tr_tier) (req : tr_announce_request) (data : announce_data) :
      TierReachable tr_rand_int_weak session tier pending responses →
      tier.needsToAnnounce now = true → tierAnnounce now tier = some (tier', req, data) →
      TierReachable tr_rand_int_weak session tier' (pending + 1) responses
  | done (tier : tr_tier) (pending : Nat) (responses : List tr_announce_response) (now : Int)
      (response : tr_announce_response) (data : announce_data) (tier' : tr_tier)
      (log : List PublishCall) :
      TierReachable tr_rand_int_weak session tier (pending + 1) responses → 0 < now →
      on_announce_done tr_rand_int_weak now session tier response data = some (tier', log) →
      TierReachable tr_rand_int_weak session tier' pending (response :: responses)
  | error (tier : tr_tier) (pending : Nat) (responses : List tr_announce_response) (now : Int)
      (err : String) (e : tr_announce_event) (tier' : tr_tier) :
      TierReachable tr_rand_int_weak session tier pending responses → 0 < now →
      on_announce_error tr_rand_int_weak now tier err e = some tier' →
      TierReachable tr_rand_int_weak session tier' pending responses
  | nextTracker (tier : tr_tier) (pending : Nat) (responses : List tr_announce_response) :
      TierReachable tr_rand_int_weak session tier pending responses →
      TierReachable tr_rand_int_weak session tier.useNextTracker pending responses

/-- The `leecher_count` of the current tracker, 0 when there is none. -/
def tr_tier.leecherCount (tier : tr_tier) : Int :=
  match tier.currentTracker with
  | none => 0
  | some tracker => tracker.leecher_count

/-- The lexicographic order of the specification on (announce event priority descending,
`leechers` descending, torrent is-done ascending, up+down descending, announceAt
ascending), the tier address deciding only when all five keys are equal. -/
@[reducible] def announceTierBefore (leechers : tr_tier → Int) (a : tr_tier) (addr_a : Nat)
    (b : tr_tier) (addr_b : Nat) : Prop :=
  a.announce_event_priority > b.announce_event_priority
    ∨ (a.announce_event_priority = b.announce_event_priority
      ∧ (leechers a > leechers b
        ∨ (leechers a = leechers b
          ∧ ((a.tor.isDone = false ∧ b.tor.isDone = true)
            ∨ (a.tor.isDone = b.tor.isDone
              ∧ (u64_add a.up a.down > u64_add b.up b.down
                ∨ (u64_add a.up a.down = u64_add b.up b.down
                  ∧ (a.announceAt < b.announceAt
                    ∨ (a.announceAt = b.announceAt ∧ addr_a < addr_b)))))))))

/-- A tracker with a scrape URL and the given swarm counts. -/
def swarmTracker (leecher_count downloader_count : Int) : tr_tracker :=
  { announce_url := "http://t/announce", scrape_info := some "http://t/scrape",
    leecher_count := leecher_count, downloader_count := downloader_count }

/-- A tier on one tracker with the given swarm counts. -/
def swarmTier (leecher_count downloader_count : Int) : tr_tier :=
  { trackers := [swarmTracker leecher_count downloader_count], current_tracker_index_ := some 0 }

/-- A tier on one tracker that has moved 4096 bytes up and 8192 down, with an empty queue. -/
def loadedTier : tr_tier :=
  { trackers := [swarmTracker 3 0], current_tracker_index_ := some 0,
    byteCounts := (4096, 8192, 16), isAnnouncing := true, announceAt := 100 }

/-- A successful announce response with two peers. -/
def peersResponse : tr_announce_response :=
  { did_connect := true, seeders := 5, leechers := 7, interval := 1800, pex := [1, 2] }

/-- A successful announce response whose `interval` is -101. -/
def negativeIntervalResponse : tr_announce_response :=
  { did_connect := true, seeders := 5, leechers := 7, interval := -101 }

/-- An announce response of a tracker that could not be reached. -/
def noConnectResponse : tr_announce_response := { did_connect := false }

/-- A "stopped" request of a torrent that moved `up` bytes. -/
def stoppedRequest (info_hash up : Nat) : tr_announce_request :=
  { event := .STOPPED, up := up, info_hash := info_hash, announce_url := "http://t/announce" }

/-- A running torrent. -/
def runningTorrent : tr_torrent := { info_hash := 7, isRunning := true }

/-- A freshly built tier of a running torrent on one tracker. -/
def builtTier : tr_tier := tr_tier.build 100 { } runningTorrent 0 [swarmTracker 0 0]

/-- What the announcer's steps keep true of a tier with `pending` announces in flight. -/
def TierInv (tier : tr_tier) (pending : Nat) : Prop :=
  (tier.isRunning = true ∨ 0 < pending → tier.announceAt ≠ 0) ∧ 0 ≤ tier.announceIntervalSec

/-- A freshly built tier with `Started` pushed at time 100. -/
def startedTier : tr_tier := tier_announce_event_push builtTier .STARTED 100

/-- The callback data of the announce of `startedTier` at time 100. -/
def startedData : announce_data :=
  { tier_id := startedTier.id, time_sent := 100, event := .STARTED,
    is_running_on_success := startedTier.tor.isRunning }

/-- A successful announce callback for the event "stopped". -/
def stoppedData : announce_data := { event := .STOPPED }

/-! ## NAT-PMP port mapper (`natpmp.cc`) -/

/-- The constant `LifetimeSecs`. -/
def LifetimeSecs : Nat := 3600

/-- The constant `CommandWaitSecs`. -/
def CommandWaitSecs : Int := 8

/-- The value `NATPMP_TRYAGAIN` of libnatpmp. -/
def NATPMP_TRYAGAIN : Int := -100

/-- Modelled from the spec: the states of `tr_natpmp` (natpmp_local.h is not among the
sources), as §4.G lists them and `tr_natpmpPulse` names them. -/
inductive tr_natpmp_state where
  | TR_NATPMP_IDLE
  | TR_NATPMP_ERR
  | TR_NATPMP_DISCOVER
  | TR_NATPMP_RECV_PUB
  | TR_NATPMP_SEND_MAP
  | TR_NATPMP_RECV_MAP
  | TR_NATPMP_SEND_UNMAP
  | TR_NATPMP_RECV_UNMAP
deriving DecidableEq, Repr

/-- Modelled from the spec: the return values of `tr_natpmpPulse` (port-forwarding.h is not
among the sources), "{Unmapped, Mapping, Mapped, Unmapping, Error}" of §4.G. -/
inductive tr_port_forwarding where
  | TR_PORT_ERROR
  | TR_PORT_UNMAPPED
  | TR_PORT_UNMAPPING
  | TR_PORT_MAPPING
  | TR_PORT_MAPPED
deriving DecidableEq, Repr

/-- Modelled from the spec: the fields of `struct tr_natpmp` (natpmp_local.h is not among
the sources) that `tr_natpmpPulse` reads and writes. -/
structure tr_natpmp where
  has_discovered : Bool := false
  is_mapped : Bool := false
  public_port : Nat := 0
  private_port : Nat := 0
  renew_time : Int := 0
  command_time : Int := 0
  state : tr_natpmp_state := .TR_NATPMP_DISCOVER
deriving DecidableEq, Repr

/-- The source's `tr_natpmpInit`: zeroed memory, state `Discover`. -/
def tr_natpmpInit : tr_natpmp :=
  { state := .TR_NATPMP_DISCOVER, public_port := 0, private_port := 0 }

/-- A command sent to the router through libnatpmp. -/
inductive NatpmpCommand where
  | sendpublicaddressrequest
  | sendnewportmappingrequest (privateport publicport lifetime : Nat)
deriving DecidableEq, Repr

/-- The port mapping response `resp.pnu.newportmapping` of libnatpmp. -/
structure newportmapping where
  privateport : Nat := 0
  mappedpublicport : Nat := 0
  lifetime : Nat := 0
deriving DecidableEq, Repr

/-- What libnatpmp answers during one pulse, one value for each call site of
`tr_natpmpPulse`: the return values of the sends, and of `readnatpmpresponseorretry` with
the response it fills. -/
structure NatpmpResults where
  initnatpmp : Int := 0
  sendpublicaddressrequest : Int := 2
  read_public : Int := 0
  send_unmap : Int := 12
  read_unmap : Int := 0
  unmap_response : newportmapping := {}
  send_map : Int := 12
  read_map : Int := 0
  map_response : newportmapping := {}
deriving DecidableEq, Repr

/-- The mapper during a pulse: the `tr_natpmp`, the commands sent so far in this pulse and
the states `nat->state` was set to, in order. -/
structure NatpmpPulse where
  nat : tr_natpmp
  sent : List NatpmpCommand := []
  visited : List tr_natpmp_state := []
deriving DecidableEq, Repr

/-- The source's `canSendCommand`; `now` is `tr_time()`. -/
def canSendCommand (now : Int) (nat : tr_natpmp) : Bool := decide (now ≥ nat.command_time)

/-- The source's `setCommandTime`. -/
def setCommandTime (now : Int) (nat : tr_natpmp) : tr_natpmp :=
  { nat with command_time := now + CommandWaitSecs }

/-- An assignment `nat->state = s`. -/
def NatpmpPulse.setState (p : NatpmpPulse) (s : tr_natpmp_state) : NatpmpPulse :=
  { p with nat := { p.nat with state := s }, visited := p.visited ++ [s] }

/-- The block `if (is_enabled && nat->state == TR_NATPMP_DISCOVER)` of `tr_natpmpPulse`. -/
def pulse_discover (now : Int) (is_enabled : Bool) (io : NatpmpResults) (p : NatpmpPulse) :
    NatpmpPulse :=
  if is_enabled = true ∧ p.nat.state = .TR_NATPMP_DISCOVER then
    let val := io.sendpublicaddressrequest
    let p := { p with sent := p.sent ++ [NatpmpCommand.sendpublicaddressrequest] }
    let p := p.setState (if val < 0 then .TR_NATPMP_ERR else .TR_NATPMP_RECV_PUB)
    { p with nat := setCommandTime now { p.nat with has_discovered := true } }
  else p

/-- The block `if (nat->state == TR_NATPMP_RECV_PUB && canSendCommand(nat))`. -/
def pulse_recv_pub (now : Int) (io : NatpmpResults) (p : NatpmpPulse) : NatpmpPulse :=
  if p.nat.state = .TR_NATPMP_RECV_PUB ∧ canSendCommand now p.nat = true then
    let val := io.read_public
    if val ≥ 0 then p.setState .TR_NATPMP_IDLE
    else if val ≠ NATPMP_TRYAGAIN then p.setState .TR_NATPMP_ERR
    else p
  else p

/-- The block that turns a mapped `Idle` or `Err` mapper towards `SendUnmap`. -/
def pulse_want_unmap (private_port : Nat) (is_enabled : Bool) (p : NatpmpPulse) : NatpmpPulse :=
  if (p.nat.state = .TR_NATPMP_IDLE ∨ p.nat.state = .TR_NATPMP_ERR) ∧ p.nat.is_mapped = true
      ∧ (is_enabled = false ∨ p.nat.private_port ≠ private_port) then
    p.setState .TR_NATPMP_SEND_UNMAP
  else p

/-- The block `if (nat->state == TR_NATPMP_SEND_UNMAP && canSendCommand(nat))`. -/
def pulse_send_unmap (now : Int) (io : NatpmpResults) (p : NatpmpPulse) : NatpmpPulse :=
  if p.nat.state = .TR_NATPMP_SEND_UNMAP ∧ canSendCommand now p.nat = true then
    let val := io.send_unmap
    let p :=
      { p with
        sent := p.sent
          ++ [NatpmpCommand.sendnewportmappingrequest p.nat.private_port p.nat.public_port 0] }
    let p := p.setState (if val < 0 then .TR_NATPMP_ERR else .TR_NATPMP_RECV_UNMAP)
    { p with nat := setCommandTime now p.nat }
  else p

/-- The block `if (nat->state == TR_NATPMP_RECV_UNMAP)`. -/
def pulse_recv_unmap (io : NatpmpResults) (p : NatpmpPulse) : NatpmpPulse :=
  if p.nat.state = .TR_NATPMP_RECV_UNMAP then
    let val := io.read_unmap
    if val ≥ 0 then
      let unmapped_port := io.unmap_response.privateport
      if p.nat.private_port = unmapped_port then
        let p := { p with nat := { p.nat with private_port := 0, public_port := 0 } }
        let p := p.setState .TR_NATPMP_IDLE
        { p with nat := { p.nat with is_mapped := false } }
      else p
    else if val ≠ NATPMP_TRYAGAIN then p.setState .TR_NATPMP_ERR
    else p
  else p

/-- The block `if (nat->state == TR_NATPMP_IDLE)`. -/
def pulse_idle (now : Int) (is_enabled : Bool) (p : NatpmpPulse) : NatpmpPulse :=
  if p.nat.state = .TR_NATPMP_IDLE then
    if is_enabled = true ∧ p.nat.is_mapped = false ∧ p.nat.has_discovered = true then
      p.setState .TR_NATPMP_SEND_MAP
    else if p.nat.is_mapped = true ∧ now ≥ p.nat.renew_time then
      p.setState .TR_NATPMP_SEND_MAP
    else p
  else p

/-- The block `if (nat->state == TR_NATPMP_SEND_MAP && canSendCommand(nat))`. -/
def pulse_send_map (now : Int) (private_port : Nat) (io : NatpmpResults) (p : NatpmpPulse) :
    NatpmpPulse :=
  if p.nat.state = .TR_NATPMP_SEND_MAP ∧ canSendCommand now p.nat = true then
    let val := io.send_map
    let p :=
      { p with
        sent := p.sent
          ++ [NatpmpCommand.sendnewportmappingrequest private_port private_port LifetimeSecs] }
    let p := p.setState (if val < 0 then .TR_NATPMP_ERR else .TR_NATPMP_RECV_MAP)
    { p with nat := setCommandTime now p.nat }
  else p

/-- The block `if (nat->state == TR_NATPMP_RECV_MAP)`. -/
def pulse_recv_map (now : Int) (io : NatpmpResults) (p : NatpmpPulse) : NatpmpPulse :=
  if p.nat.state = .TR_NATPMP_RECV_MAP then
    let val := io.read_map
    if val ≥ 0 then
      let p := p.setState .TR_NATPMP_IDLE
      { p with
        nat :=
          { p.nat with
            is_mapped := true
            renew_time := now + (io.map_response.lifetime / 2 : Nat)
            private_port := io.map_response.privateport
            public_port := io.map_response.mappedpublicport } }
    else if val ≠ NATPMP_TRYAGAIN then p.setState .TR_NATPMP_ERR
    else p
  else p

/-- The final `switch (nat->state)` of `tr_natpmpPulse`: the returned status. -/
def pulse_status (nat : tr_natpmp) : tr_port_forwarding :=
  match nat.state with
  | .TR_NATPMP_IDLE => if nat.is_mapped then .TR_PORT_MAPPED else .TR_PORT_UNMAPPED
  | .TR_NATPMP_DISCOVER => .TR_PORT_UNMAPPED
  | .TR_NATPMP_RECV_PUB => .TR_PORT_MAPPING
  | .TR_NATPMP_SEND_MAP => .TR_PORT_MAPPING
  | .TR_NATPMP_RECV_MAP => .TR_PORT_MAPPING
  | .TR_NATPMP_SEND_UNMAP => .TR_PORT_UNMAPPING
  | .TR_NATPMP_RECV_UNMAP => .TR_PORT_UNMAPPING
  | _ => .TR_PORT_ERROR

/-- The source's `tr_natpmpPulse(nat, private_port, is_enabled, ..)` at clock `now`: the
mapper after the pulse with the commands sent and the states set during it, and the
returned status. -/
def tr_natpmpPulse (now : Int) (nat : tr_natpmp) (private_port : Nat) (is_enabled : Bool)
    (io : NatpmpResults) : NatpmpPulse × tr_port_forwarding :=
  let p : NatpmpPulse := { nat := nat }
  let p := pulse_discover now is_enabled io p
  let p := pulse_recv_pub now io p
  let p := pulse_want_unmap private_port is_enabled p
  let p := pulse_send_unmap now io p
  let p := pulse_recv_unmap io p
  let p := pulse_idle now is_enabled p
  let p := pulse_send_map now private_port io p
  let p := pulse_recv_map now io p
  (p, pulse_status p.nat)

/-- The arguments of one pulse: the clock, the two parameters and libnatpmp's answers. -/
structure PulseInput where
  now : Int
  private_port : Nat
  is_enabled : Bool
  io : NatpmpResults

/-- A series of pulses on one `tr_natpmp`: every command sent, with the clock of its
pulse, in order. -/
def natpmpCommands : tr_natpmp → List PulseInput → List (Int × NatpmpCommand)
  | _, [] => []
  | nat, i :: rest =>
    let p := (tr_natpmpPulse i.now nat i.private_port i.is_enabled i.io).1
    p.sent.map (fun c => (i.now, c)) ++ natpmpCommands p.nat rest

/-- Answers of a router that accepts everything and maps `private_port` to `public_port`
for `lifetime` seconds. -/
def routerAccepts (private_port public_port lifetime : Nat) : NatpmpResults :=
  { map_response :=
      { privateport := private_port, mappedpublicport := public_port, lifetime := lifetime } }

/-- The mapper after the first pulse at clock `t1`. -/
def awaitingPublicAddress (t1 : Int) : tr_natpmp :=
  { state := .TR_NATPMP_RECV_PUB, has_discovered := true, command_time := t1 + 8 }

/-- What holds of the mapper inside a pulse at clock `now` that started from `nat0`: either
nothing was sent yet and `command_time` is still that of `nat0`, or exactly one command was
sent, `command_time` is `now + 8`, and the gate `canSendCommand` was open unless the
mapper started in `Discover`. -/
def PulseInv (now : Int) (nat0 : tr_natpmp) (p : NatpmpPulse) : Prop :=
  (p.sent = [] ∧ p.nat.command_time = nat0.command_time
      ∧ (nat0.state ≠ .TR_NATPMP_DISCOVER → p.nat.state ≠ .TR_NATPMP_DISCOVER))
    ∨ (∃ c, p.sent = [c] ∧ p.nat.command_time = now + 8
        ∧ p.nat.state ≠ .TR_NATPMP_DISCOVER
        ∧ (nat0.state ≠ .TR_NATPMP_DISCOVER → nat0.command_time ≤ now))

/-- The constant `TR_RPC_SESSION_ID_HEADER`. -/
def TR_RPC_SESSION_ID_HEADER : String := "X-Transmission-Session-Id"

/-- The constant `MY_REALM`. -/
def MY_REALM : String := "Transmission"

/-- Library functions that `handle_request` calls and that are not among the sources:
`tr_wildmat`, `tr_base64_decode`, `tr_ssha1_matches`, libevent's
`evutil_parse_sockaddr_port(..) != -1` and libevent's `evhttp_find_header`. -/
structure RpcLib where
  tr_wildmat : String → String → Bool
  tr_base64_decode : String → String
  tr_ssha1_matches : String → String → Bool
  isIPAddressWithOptionalPort : String → Bool
  evhttp_find_header : List (String × String) → String → Option String

/-- The request methods `handle_request` tells apart. -/
inductive evhttp_cmd_type where
  | EVHTTP_REQ_GET
  | EVHTTP_REQ_POST
  | EVHTTP_REQ_OPTIONS
  | EVHTTP_REQ_OTHER
deriving DecidableEq, Repr

/-- The fields of `struct evhttp_request` that `handle_request` reads; `has_evcon` is
`req->evcon != nullptr`. -/
structure evhttp_request where
  has_evcon : Bool := true
  type : evhttp_cmd_type := .EVHTTP_REQ_POST
  uri : String := ""
  remote_host : String := ""
  input_headers : List (String × String) := []
deriving DecidableEq, Repr

/-- The fields of `tr_rpc_server` that `handle_request` reads and writes; `session_id` is
what `get_current_session_id(server)` answers while the request is handled. -/
structure tr_rpc_server where
  isPasswordEnabled : Bool := false
  isWhitelistEnabled : Bool := false
  isHostWhitelistEnabled : Bool := false
  isAntiBruteForceEnabled : Bool := false
  loginattempts : Int := 0
  antiBruteForceThreshold : Int := 100
  whitelist : List String := []
  hostWhitelist : List String := []
  username : String := ""
  salted_password : String := ""
  url : String := "/transmission/"
  session_id : String := ""
deriving DecidableEq, Repr

/-- What `handle_request` ends with: nothing at all, `send_simple_response(req, code, ..)`,
`handle_web_client` or `handle_rpc`. -/
inductive RpcAction where
  | ignored
  | send_simple_response (code : Nat)
  | handle_web_client
  | handle_rpc
deriving DecidableEq, Repr

/-- The effect of one `handle_request`: the server afterwards, the headers added to
`req->output_headers` in order, and the final action. -/
structure RpcHandled where
  server : tr_rpc_server
  output_headers : List (String × String) := []
  action : RpcAction := .ignored
deriving DecidableEq, Repr

/-- The source's `tr_strvStartsWith`. -/
def tr_strvStartsWith (sv pre : String) : Bool := pre.data.isPrefixOf sv.data

/-- The call `uri.substr(n)`. -/
def string_view_substr (sv : String) (n : Nat) : String := String.mk (sv.data.drop n)

/-- The source's `tr_strvSep(&sv, delim)`: the part before the first `delim` and what is
left after it. -/
def tr_strvSep (sv : String) (delim : Char) : String × String :=
  (String.mk (sv.data.takeWhile (fun c => c != delim)),
   String.mk ((sv.data.dropWhile (fun c => c != delim)).drop 1))

/-- The source's `get_current_session_id`. -/
def get_current_session_id (server : tr_rpc_server) : String := server.session_id

/-- The source's `isAddressAllowed`. -/
def isAddressAllowed (lib : RpcLib) (server : tr_rpc_server) (address : String) : Bool :=
  !server.isWhitelistEnabled || server.whitelist.any (fun s => lib.tr_wildmat address s)

/-- The source's `isHostnameAllowed`. -/
def isHostnameAllowed (lib : RpcLib) (server : tr_rpc_server) (req : evhttp_request) : Bool :=
  if server.isPasswordEnabled then true
  else if !server.isHostWhitelistEnabled then true
  else
    match lib.evhttp_find_header req.input_headers "Host" with
    | none => false
    | some host =>
      if lib.isIPAddressWithOptionalPort host then true
      else
        let hostname := String.mk (host.data.takeWhile (fun c => c != ':'))
        if hostname = "localhost" ∨ hostname = "localhost." then true
        else server.hostWhitelist.any (fun str => lib.tr_wildmat hostname str)

/-- The source's `test_session_id`. -/
def test_session_id (lib : RpcLib) (server : tr_rpc_server) (req : evhttp_request) : Bool :=
  let ours := get_current_session_id server
  match lib.evhttp_find_header req.input_headers TR_RPC_SESSION_ID_HEADER with
  | none => false
  | some theirs => decide (theirs = ours)

/-- The source's `isAuthorized`; `auth_header` is `none` for a null pointer. -/
def isAuthorized (lib : RpcLib) (server : tr_rpc_server) (auth_header : Option String) : Bool :=
  if !server.isPasswordEnabled then true
  else
    let auth := auth_header.getD ""
    if !tr_strvStartsWith auth "Basic " then false
    else
      let auth := string_view_substr auth "Basic ".length
      let decoded := lib.tr_base64_decode auth
      let sep := tr_strvSep decoded ':'
      let username := sep.1
      let password := sep.2
      decide (server.username = username) && lib.tr_ssha1_matches server.salted_password password

/-- The value `location` of `handle_request`: the part of the URI after the configured
`server->url`, empty when the URI does not start with it. -/
def requestLocation (server : tr_rpc_server) (req : evhttp_request) : String :=
  if tr_strvStartsWith req.uri server.url then string_view_substr req.uri server.url.length
  else ""

/-- The routing part of `handle_request`, after `server->loginattempts = 0`. -/
def handle_request_route (lib : RpcLib) (server : tr_rpc_server) (req : evhttp_request)
    (h : RpcHandled) : RpcHandled :=
  let location := requestLocation server req
  if location = "" ∨ location = "web" then
    { h with
      output_headers := h.output_headers ++ [("Location", server.url ++ "web/")]
      action := .send_simple_response 301 }
  else if tr_strvStartsWith location "web/" then
    { h with action := .handle_web_client }
  else if !isHostnameAllowed lib server req then
    { h with action := .send_simple_response 421 }
  else if !test_session_id lib server req then
    let sessionId := get_current_session_id server
    { h with
      output_headers := h.output_headers
        ++ [(TR_RPC_SESSION_ID_HEADER, sessionId),
            ("Access-Control-Expose-Headers", TR_RPC_SESSION_ID_HEADER)]
      action := .send_simple_response 409 }
  else if tr_strvStartsWith location "rpc" then
    { h with action := .handle_rpc }
  else
    { h with action := .send_simple_response 404 }

/-- The source's `handle_request(req, server)`; `req` is `none` for a null pointer. The
bodies of the responses are left out. -/
def handle_request (lib : RpcLib) (server : tr_rpc_server) (req : Option evhttp_request) :
    RpcHandled :=
  match req with
  | none => { server := server }
  | some req =>
    if !req.has_evcon then { server := server }
    else
      let h : RpcHandled := { server := server, output_headers := [("Server", MY_REALM)] }
      if server.isAntiBruteForceEnabled ∧ server.loginattempts ≥ server.antiBruteForceThreshold
      then { h with action := .send_simple_response 403 }
      else if !isAddressAllowed lib server req.remote_host then
        { h with action := .send_simple_response 403 }
      else
        let h := { h with
          output_headers := h.output_headers ++ [("Access-Control-Allow-Origin", "*")] }
        if req.type = .EVHTTP_REQ_OPTIONS then
          let h :=
            match lib.evhttp_find_header req.input_headers "Access-Control-Request-Headers" with
            | some headers =>
              { h with
                output_headers := h.output_headers ++ [("Access-Control-Allow-Headers", headers)] }
            | none => h
          { h with
            output_headers := h.output_headers
              ++ [("Access-Control-Allow-Methods", "GET, POST, OPTIONS")]
            action := .send_simple_response 200 }
        else if !isAuthorized lib server
            (lib.evhttp_find_header req.input_headers "Authorization") then
          let h := { h with
            output_headers := h.output_headers
              ++ [("WWW-Authenticate",
                  "Basic realm=" ++ String.singleton (Char.ofNat 34) ++ MY_REALM
                    ++ String.singleton (Char.ofNat 34))] }
          let server :=
            if server.isAntiBruteForceEnabled then
              { server with loginattempts := server.loginattempts + 1 }
            else server
          { h with server := server, action := .send_simple_response 401 }
        else
          let server := { server with loginattempts := 0 }
          handle_request_route lib server req { h with server := server }

/-- A library whose header lookup is an exact match and whose other answers are fixed. -/
def plainLib : RpcLib :=
  { tr_wildmat := fun a b => a == b
    tr_base64_decode := fun s => s
    tr_ssha1_matches := fun a b => a == b
    isIPAddressWithOptionalPort := fun _ => false
    evhttp_find_header := fun hs k => hs.lookup k }

/-- A server with password authentication and anti-brute-force protection, threshold 3,
after `n` failed logins. -/
def guardedServer (n : Int) : tr_rpc_server :=
  { isPasswordEnabled := true, isAntiBruteForceEnabled := true, antiBruteForceThreshold := 3
    loginattempts := n, username := "admin", salted_password := "secret"
    session_id := "token-1" }

/-- A POST to the RPC endpoint with the given headers. -/
def rpcPost (headers : List (String × String)) : evhttp_request :=
  { type := .EVHTTP_REQ_POST, uri := "/transmission/rpc", remote_host := "127.0.0.1"
    input_headers := headers }

/-- The source's `struct tr_datatype` without its `next` pointer: the FIFO
`io->outbuf_datatypes` is the list of these. -/
structure tr_datatype where
  length : Nat
  isPieceData : Bool
deriving DecidableEq, Repr

/-- The directions `TR_UP` and `TR_DOWN`. -/
inductive tr_direction where
  | TR_UP
  | TR_DOWN
deriving DecidableEq, Repr

/-- The socket types of `io->socket.type`. -/
inductive tr_peer_socket_type where
  | TR_PEER_SOCKET_TYPE_NONE
  | TR_PEER_SOCKET_TYPE_TCP
  | TR_PEER_SOCKET_TYPE_UTP
deriving DecidableEq, Repr

/-- The encryption types of `io->encryption_type`. -/
inductive tr_encryption_type where
  | PEER_ENCRYPTION_NONE
  | PEER_ENCRYPTION_RC4
deriving DecidableEq, Repr

/-- The RC4 state of `io->crypto` (crypto.cc is not among the sources): a key stream for
each direction and the number of bytes already processed in it; a byte is combined with
the next key stream byte by exclusive or. -/
structure tr_crypto where
  enc_key : Nat → Nat := fun _ => 0
  enc_pos : Nat := 0
  dec_key : Nat → Nat := fun _ => 0
  dec_pos : Nat := 0

/-- The call `tr_cryptoEncrypt(crypto, n, bytes, out)`. -/
def tr_cryptoEncrypt (crypto : tr_crypto) (bytes : List Nat) : tr_crypto × List Nat :=
  ({ crypto with enc_pos := crypto.enc_pos + bytes.length },
   bytes.enum.map (fun ib => (ib.2 ^^^ crypto.enc_key (crypto.enc_pos + ib.1)) % 256))

/-- The call `tr_cryptoDecrypt(crypto, n, bytes, out)`. -/
def tr_cryptoDecrypt (crypto : tr_crypto) (bytes : List Nat) : tr_crypto × List Nat :=
  ({ crypto with dec_pos := crypto.dec_pos + bytes.length },
   bytes.enum.map (fun ib => (ib.2 ^^^ crypto.dec_key (crypto.dec_pos + ib.1)) % 256))

/-- What a peer io calls or invokes, in order: bandwidth accounting, the callbacks
`didWrite`, `gotError` and (through `canReadWrapper`) `canRead`, and libevent's
`event_add` / `event_del` on the read or write event. -/
inductive IoCall where
  | notifyBandwidthConsumed (dir : tr_direction) (byte_count : Nat) (is_piece_data : Bool)
  | didWrite (bytes : Nat) (isPieceData : Bool)
  | gotError (what : Nat)
  | canReadWrapper
  | event_add (dir : tr_direction)
  | event_del (dir : tr_direction)
  | UTP_RBDrained
  | UTP_Write (howmuch : Nat)
deriving DecidableEq, Repr

/-- The fields of `tr_peerIo` used here. Buffers are lists of bytes; `hasDidWrite` and
`hasGotError` say whether the callbacks are set; `pendingRead` and `pendingWrite` are the
bits `EV_READ` and `EV_WRITE` of `pendingEvents`. -/
structure tr_peerIo where
  socket_type : tr_peer_socket_type := .TR_PEER_SOCKET_TYPE_TCP
  encryption_type : tr_encryption_type := .PEER_ENCRYPTION_NONE
  crypto : tr_crypto := {}
  inbuf : List Nat := []
  outbuf : List Nat := []
  outbuf_datatypes : List tr_datatype := []
  hasDidWrite : Bool := true
  hasGotError : Bool := true
  pendingRead : Bool := false
  pendingWrite : Bool := false

/-- The source's `peer_io_pull_datatype`. -/
def peer_io_pull_datatype (io : tr_peerIo) : tr_peerIo :=
  match io.outbuf_datatypes with
  | [] => io
  | _ :: next => { io with outbuf_datatypes := next }

/-- The source's `peer_io_push_datatype`: the segment goes to the tail. -/
def peer_io_push_datatype (io : tr_peerIo) (datatype : tr_datatype) : tr_peerIo :=
  { io with outbuf_datatypes := io.outbuf_datatypes ++ [datatype] }

/-- One pass of the loop body of `didWriteWrapper` up to the `didWrite` callback: the
bandwidth is told of the payload, of the overhead when there is one, and `didWrite` is
invoked when it is set. -/
def didWriteStep (overhead : Nat → Nat) (hasDidWrite : Bool) (payload : Nat)
    (isPieceData : Bool) : List IoCall :=
  [IoCall.notifyBandwidthConsumed .TR_UP payload isPieceData]
    ++ (if overhead payload > 0 then
          [IoCall.notifyBandwidthConsumed .TR_UP (overhead payload) false]
        else [])
    ++ (if hasDidWrite then [IoCall.didWrite payload isPieceData] else [])

/-- The loop of `didWriteWrapper` on the FIFO, the io staying valid throughout:
`overhead` is `guessPacketOverhead` on a TCP socket and zero otherwise. Returns the calls
made and the FIFO left. -/
def didWriteLoop (overhead : Nat → Nat) (hasDidWrite : Bool) (bytes_transferred : Nat)
    (fifo : List tr_datatype) : List IoCall × List tr_datatype :=
  match fifo with
  | [] => ([], [])
  | next :: rest =>
    if _hb : bytes_transferred = 0 then ([], next :: rest)
    else
      let payload := min next.length bytes_transferred
      let calls := didWriteStep overhead hasDidWrite payload next.isPieceData
      if _hl : next.length - payload = 0 then
        let r := didWriteLoop overhead hasDidWrite (bytes_transferred - payload) rest
        (calls ++ r.1, r.2)
      else
        let r := didWriteLoop overhead hasDidWrite (bytes_transferred - payload)
          ({ next with length := next.length - payload } :: rest)
        (calls ++ r.1, r.2)
termination_by bytes_transferred + fifo.length
decreasing_by
  all_goals simp_wf
  · omega
  · omega

/-- The source's `didWriteWrapper(io, bytes_transferred)`; the argument is an
`unsigned int`. `guessPacketOverhead` computes in floating point and is a parameter. -/
def didWriteWrapper (guessPacketOverhead : Nat → Nat) (io : tr_peerIo)
    (bytes_transferred : Nat) : tr_peerIo × List IoCall :=
  let overhead :=
    if io.socket_type = .TR_PEER_SOCKET_TYPE_TCP then guessPacketOverhead else fun _ => 0
  let r := didWriteLoop overhead io.hasDidWrite (bytes_transferred % 2 ^ 32) io.outbuf_datatypes
  ({ io with outbuf_datatypes := r.2 }, r.1)

/-- The `didWrite` invocations among a list of calls: amount and piece-data flag. -/
def didWriteCalls : List IoCall → List (Nat × Bool)
  | [] => []
  | .didWrite n p :: cs => (n, p) :: didWriteCalls cs
  | _ :: cs => didWriteCalls cs

/-- The total of the segment lengths of a FIFO. -/
def fifoBytes (fifo : List tr_datatype) : Nat := (fifo.map (fun d => d.length)).sum

/-- An io whose FIFO holds a piece-data segment of 3 bytes, an empty segment and a
segment of 5 bytes, the 8 bytes being in `outbuf`. -/
def threeSegments : tr_peerIo :=
  { outbuf := [1, 2, 3, 4, 5, 6, 7, 8]
    outbuf_datatypes :=
      [{ length := 3, isPieceData := true }, { length := 0, isPieceData := false },
       { length := 5, isPieceData := false }] }

/-- The source's `addDatatype`. -/
def addDatatype (io : tr_peerIo) (byteCount : Nat) (isPieceData : Bool) : tr_peerIo :=
  peer_io_push_datatype io { length := byteCount, isPieceData := isPieceData }

/-- The source's `tr_peerIoWriteBuf(io, buf, isPieceData)`: the bytes of `buf`, encrypted
in place when the io uses RC4, go to the end of `outbuf`. -/
def tr_peerIoWriteBuf (io : tr_peerIo) (buf : List Nat) (isPieceData : Bool) : tr_peerIo :=
  let byteCount := buf.length
  let enc :=
    if io.encryption_type = .PEER_ENCRYPTION_RC4 then tr_cryptoEncrypt io.crypto buf
    else (io.crypto, buf)
  let io := { io with crypto := enc.1, outbuf := io.outbuf ++ enc.2 }
  addDatatype io byteCount isPieceData

/-- The source's `tr_peerIoWriteBytes(io, bytes, byteCount, isPieceData)`. -/
def tr_peerIoWriteBytes (io : tr_peerIo) (bytes : List Nat) (isPieceData : Bool) : tr_peerIo :=
  let byteCount := bytes.length
  let enc :=
    if io.encryption_type = .PEER_ENCRYPTION_RC4 then tr_cryptoEncrypt io.crypto bytes
    else (io.crypto, bytes)
  let io := { io with crypto := enc.1, outbuf := io.outbuf ++ enc.2 }
  addDatatype io byteCount isPieceData

/-- The source's `utp_on_write(io, buf, buflen)`: `buflen` bytes leave `outbuf`, then
`didWriteWrapper(io, buflen)`. -/
def utp_on_write (guess : Nat → Nat) (io : tr_peerIo) (buflen : Nat) : tr_peerIo × List IoCall :=
  let io := { io with outbuf := io.outbuf.drop buflen }
  didWriteWrapper guess io buflen

/-- The ios reachable from one with an empty `outbuf` and an empty FIFO by writes and by
drains of `k` bytes, `k` an `unsigned int` no larger than `outbuf`. -/
inductive OutboundReachable (guess : Nat → Nat) : tr_peerIo → Prop where
  | init (io : tr_peerIo) (hbuf : io.outbuf = []) (hfifo : io.outbuf_datatypes = []) :
      OutboundReachable guess io
  | writeBuf (io : tr_peerIo) (buf : List Nat) (p : Bool) (h : OutboundReachable guess io) :
      OutboundReachable guess (tr_peerIoWriteBuf io buf p)
  | writeBytes (io : tr_peerIo) (bytes : List Nat) (p : Bool)
      (h : OutboundReachable guess io) :
      OutboundReachable guess (tr_peerIoWriteBytes io bytes p)
  | drain (io : tr_peerIo) (k : Nat) (h : OutboundReachable guess io)
      (hk : k ≤ io.outbuf.length) (h32 : k < 2 ^ 32) :
      OutboundReachable guess (utp_on_write guess io k).1

/-- The call `evbuffer_add(buf, data, n)`: the bytes go to the end. -/
def evbuffer_add (buf data : List Nat) : List Nat := buf ++ data

/-- The call `evbuffer_remove(buf, data, n)`: up to `n` bytes leave the front; returns
those bytes and the buffer left. -/
def evbuffer_remove (buf : List Nat) (n : Nat) : List Nat × List Nat := (buf.take n, buf.drop n)

/-- The bytes in memory of `htons(hs)`: network order is most significant byte first. -/
def htons (hs : Nat) : List Nat := [hs / 2 ^ 8 % 256, hs % 256]

/-- The bytes in memory of `htonl(hl)`. -/
def htonl (hl : Nat) : List Nat :=
  [hl / 2 ^ 24 % 256, hl / 2 ^ 16 % 256, hl / 2 ^ 8 % 256, hl % 256]

/-- The value `ntohs(tmp)` of the two bytes in memory of `tmp`, those missing being the
zeroes `tmp` was initialised with. -/
def ntohs (mem : List Nat) : Nat := mem.getD 0 0 * 2 ^ 8 + mem.getD 1 0

/-- The value `ntohl(tmp)` of the four bytes in memory of `tmp`. -/
def ntohl (mem : List Nat) : Nat :=
  mem.getD 0 0 * 2 ^ 24 + mem.getD 1 0 * 2 ^ 16 + mem.getD 2 0 * 2 ^ 8 + mem.getD 3 0

/-- The source's `evbuffer_add_uint8`. -/
def evbuffer_add_uint8 (outbuf : List Nat) (addme : Nat) : List Nat :=
  evbuffer_add outbuf [addme % 2 ^ 8]

/-- The source's `evbuffer_add_uint16`; the argument is a `uint16_t`. -/
def evbuffer_add_uint16 (outbuf : List Nat) (addme_hs : Nat) : List Nat :=
  let ns := htons (addme_hs % 2 ^ 16)
  evbuffer_add outbuf ns

/-- The source's `evbuffer_add_uint32`; the argument is a `uint32_t`. -/
def evbuffer_add_uint32 (outbuf : List Nat) (addme_hl : Nat) : List Nat :=
  let nl := htonl (addme_hl % 2 ^ 32)
  evbuffer_add outbuf nl

/-- The source's `tr_peerIoReadBytes(io, inbuf, bytes, byteCount)`: the io (its RC4 state
may advance), the buffer left and the bytes read. -/
def tr_peerIoReadBytes (io : tr_peerIo) (inbuf : List Nat) (byteCount : Nat) :
    tr_peerIo × List Nat × List Nat :=
  match io.encryption_type with
  | .PEER_ENCRYPTION_NONE =>
    let r := evbuffer_remove inbuf byteCount
    (io, r.2, r.1)
  | .PEER_ENCRYPTION_RC4 =>
    let r := evbuffer_remove inbuf byteCount
    let d := tr_cryptoDecrypt io.crypto r.1
    ({ io with crypto := d.1 }, r.2, d.2)

/-- The source's `tr_peerIoReadUint16`: the io, the buffer left and `*setme`. -/
def tr_peerIoReadUint16 (io : tr_peerIo) (inbuf : List Nat) : tr_peerIo × List Nat × Nat :=
  let r := tr_peerIoReadBytes io inbuf 2
  (r.1, r.2.1, ntohs r.2.2)

/-- The source's `tr_peerIoReadUint32`: the io, the buffer left and `*setme`. -/
def tr_peerIoReadUint32 (io : tr_peerIo) (inbuf : List Nat) : tr_peerIo × List Nat × Nat :=
  let r := tr_peerIoReadBytes io inbuf 4
  (r.1, r.2.1, ntohl r.2.2)

/-- The value of `EAGAIN` in errno.h on Linux. -/
def EAGAIN : Int := 11

/-- The value of `EINTR` in errno.h on Linux. -/
def EINTR : Int := 4

/-- The value of `EINPROGRESS` in errno.h on Linux. -/
def EINPROGRESS : Int := 115

/-- The value of `EPIPE` in errno.h on Linux. -/
def EPIPE : Int := 32

/-- The flag `BEV_EVENT_READING` of libevent. -/
def BEV_EVENT_READING : Nat := 0x01

/-- The flag `BEV_EVENT_WRITING` of libevent. -/
def BEV_EVENT_WRITING : Nat := 0x02

/-- The flag `BEV_EVENT_EOF` of libevent. -/
def BEV_EVENT_EOF : Nat := 0x10

/-- The flag `BEV_EVENT_ERROR` of libevent. -/
def BEV_EVENT_ERROR : Nat := 0x20

/-- What the socket answers to one read or write: the return value `res`, the socket
error `EVUTIL_SOCKET_ERROR()` after it, and for a read the bytes received. -/
structure SocketResult where
  res : Int
  e : Int := 0
  data : List Nat := []
deriving DecidableEq, Repr

/-- The source's `event_enable(io, event)` for the event of one direction. -/
def event_enable (io : tr_peerIo) (dir : tr_direction) : tr_peerIo × List IoCall :=
  let need_events := decide (io.socket_type = .TR_PEER_SOCKET_TYPE_TCP)
  match dir with
  | .TR_DOWN =>
    if io.pendingRead = false then
      ({ io with pendingRead := true }, if need_events then [.event_add .TR_DOWN] else [])
    else (io, [])
  | .TR_UP =>
    if io.pendingWrite = false then
      ({ io with pendingWrite := true }, if need_events then [.event_add .TR_UP] else [])
    else (io, [])

/-- The source's `event_disable(io, event)` for the event of one direction. -/
def event_disable (io : tr_peerIo) (dir : tr_direction) : tr_peerIo × List IoCall :=
  let need_events := decide (io.socket_type = .TR_PEER_SOCKET_TYPE_TCP)
  match dir with
  | .TR_DOWN =>
    if io.pendingRead = true then
      ({ io with pendingRead := false }, if need_events then [.event_del .TR_DOWN] else [])
    else (io, [])
  | .TR_UP =>
    if io.pendingWrite = true then
      ({ io with pendingWrite := false }, if need_events then [.event_del .TR_UP] else [])
    else (io, [])

/-- The source's `tr_peerIoSetEnabled(io, dir, isEnabled)`. -/
def tr_peerIoSetEnabled (io : tr_peerIo) (dir : tr_direction) (isEnabled : Bool) :
    tr_peerIo × List IoCall :=
  if isEnabled then event_enable io dir else event_disable io dir

/-- The source's `event_read_cb` on a TCP io; `clamp` is `io->bandwidth->clamp` and `sock`
what `evbuffer_read` meets. `canReadWrapper` is recorded as a call. -/
def event_read_cb (clamp : tr_direction → Nat → Nat) (io : tr_peerIo) (sock : SocketResult) :
    tr_peerIo × List IoCall :=
  let dir := tr_direction.TR_DOWN
  let max := 256 * 1024
  let io := { io with pendingRead := false }
  let curlen := io.inbuf.length % 2 ^ 32
  let howmuch := if curlen ≥ max then 0 else max - curlen
  let howmuch := clamp .TR_DOWN howmuch % 2 ^ 32
  if howmuch < 1 then tr_peerIoSetEnabled io dir false
  else
    let res := sock.res
    let e := sock.e
    if res > 0 then
      let io := { io with inbuf := io.inbuf ++ sock.data }
      let r := tr_peerIoSetEnabled io dir true
      (r.1, r.2 ++ [.canReadWrapper])
    else
      let what := BEV_EVENT_READING
      if res = 0 then
        let what := what ||| BEV_EVENT_EOF
        (io, if io.hasGotError then [.gotError what] else [])
      else if res = -1 then
        if e = EAGAIN ∨ e = EINTR then tr_peerIoSetEnabled io dir true
        else
          let what := what ||| BEV_EVENT_ERROR
          (io, if io.hasGotError then [.gotError what] else [])
      else (io, if io.hasGotError then [.gotError what] else [])

/-- The source's `event_write_cb` on a TCP io; a successful write of `res` bytes takes
them off `outbuf`. -/
def event_write_cb (guess : Nat → Nat) (clamp : tr_direction → Nat → Nat) (io : tr_peerIo)
    (sock : SocketResult) : tr_peerIo × List IoCall :=
  let dir := tr_direction.TR_UP
  let what := BEV_EVENT_WRITING
  let io := { io with pendingWrite := false }
  let howmuch := clamp dir io.outbuf.length
  if howmuch < 1 then tr_peerIoSetEnabled io dir false
  else
    let res := sock.res
    let e := sock.e
    let io := if res > 0 then { io with outbuf := io.outbuf.drop res.toNat } else io
    if res = -1 ∧ (e = 0 ∨ e = EAGAIN ∨ e = EINTR ∨ e = EINPROGRESS) then
      if io.outbuf.length ≠ 0 then tr_peerIoSetEnabled io dir true else (io, [])
    else
      let what :=
        if res = -1 then what ||| BEV_EVENT_ERROR
        else if res = 0 then what ||| BEV_EVENT_EOF
        else what
      if res ≤ 0 then (io, if io.hasGotError then [.gotError what] else [])
      else
        let r := if io.outbuf.length ≠ 0 then tr_peerIoSetEnabled io dir true else (io, [])
        let w := didWriteWrapper guess r.1 res.toNat
        (w.1, r.2 ++ w.2)

/-- The source's `tr_peerIoTryRead(io, howmuch)`: the io, the calls made and the value
returned. -/
def tr_peerIoTryRead (clamp : tr_direction → Nat → Nat) (io : tr_peerIo) (howmuch : Nat)
    (sock : SocketResult) : tr_peerIo × List IoCall × Int :=
  let howmuch := clamp .TR_DOWN howmuch
  if howmuch ≠ 0 then
    match io.socket_type with
    | .TR_PEER_SOCKET_TYPE_UTP =>
      (io, if io.inbuf.length = 0 then [.UTP_RBDrained] else [], 0)
    | .TR_PEER_SOCKET_TYPE_TCP =>
      let res := sock.res
      let e := sock.e
      let io := if res > 0 then { io with inbuf := io.inbuf ++ sock.data } else io
      let calls1 := if io.inbuf.length ≠ 0 then [IoCall.canReadWrapper] else []
      let calls2 :=
        if res ≤ 0 ∧ io.hasGotError = true ∧ e ≠ EAGAIN ∧ e ≠ EINTR ∧ e ≠ EINPROGRESS then
          let what := BEV_EVENT_READING ||| BEV_EVENT_ERROR
          let what := if res = 0 then what ||| BEV_EVENT_EOF else what
          [IoCall.gotError what]
        else []
      (io, calls1 ++ calls2, res)
    | .TR_PEER_SOCKET_TYPE_NONE => (io, [], 0)
  else (io, [], 0)

/-- The source's `tr_peerIoTryWrite(io, howmuch)`: the io, the calls made and the value
returned. On a uTP socket the write is handed to `UTP_Write`, whose callbacks are not
followed here. -/
def tr_peerIoTryWrite (guess : Nat → Nat) (clamp : tr_direction → Nat → Nat) (io : tr_peerIo)
    (howmuch : Nat) (sock : SocketResult) : tr_peerIo × List IoCall × Int :=
  let old_len := io.outbuf.length
  let howmuch := if howmuch > old_len then old_len else howmuch
  let howmuch := clamp .TR_UP howmuch
  if howmuch ≠ 0 then
    match io.socket_type with
    | .TR_PEER_SOCKET_TYPE_UTP => (io, [.UTP_Write howmuch], 0)
    | .TR_PEER_SOCKET_TYPE_TCP =>
      let n := sock.res
      let e := sock.e
      let io := if n > 0 then { io with outbuf := io.outbuf.drop n.toNat } else io
      let w := if n > 0 then didWriteWrapper guess io n.toNat else (io, [])
      let calls2 :=
        if n < 0 ∧ w.1.hasGotError = true ∧ e ≠ 0 ∧ e ≠ EPIPE ∧ e ≠ EAGAIN ∧ e ≠ EINTR
            ∧ e ≠ EINPROGRESS then
          [IoCall.gotError (BEV_EVENT_WRITING ||| BEV_EVENT_ERROR)]
        else []
      (w.1, w.2 ++ calls2, n)
    | .TR_PEER_SOCKET_TYPE_NONE => (io, [], 0)
  else (io, [], 0)

/-- Whether a list of calls invokes `gotError`. -/
def invokesGotError (calls : List IoCall) : Bool :=
  calls.any (fun c => match c with | .gotError _ => true | _ => false)

/-- Modelled from the spec: the flags of `tr_resume::fields_t` (resume.h is not among the
sources) that `loadFromFile` and `setFromCtor` test. -/
inductive resume_field where
  | Downloaded | Uploaded | Corrupt | Peers | Progress | Dnd | FilePriorities
  | BandwidthPriority | Speedlimit | Run | DownloadDir | IncompleteDir | MaxPeers
  | AddedDate | DoneDate | ActivityDate | Ratiolimit | Idlelimit | TimeSeeding
  | TimeDownloading | Filenames | Name | Labels
deriving DecidableEq, Repr

/-- Modelled from the spec: a value of `tr_resume::fields_t`, a set of flags; `a | b` is
`fields_or`, `a & ~b` is `fields_without`, and `(a & f) != 0` is `a f`. -/
abbrev fields_t := resume_field → Bool

/-- The empty set `fields_t{}`. -/
def fields_none : fields_t := fun _ => false

/-- The set with the single flag `f`. -/
def fields_one (f : resume_field) : fields_t := fun g => decide (g = f)

/-- The operation `a | b`. -/
def fields_or (a b : fields_t) : fields_t := fun f => a f || b f

/-- The operation `a & ~b`. -/
def fields_without (a b : fields_t) : fields_t := fun f => a f && !b f

/-- The values of `tr_ctorMode`. -/
inductive tr_ctorMode where
  | TR_FALLBACK
  | TR_FORCE
deriving DecidableEq, Repr

/-- The source's `struct optional_args`. -/
structure optional_args where
  paused : Option Bool := none
  peer_limit : Option Nat := none
  download_dir : String := ""
deriving DecidableEq, Repr

/-- The part `optional_args[2]` of the source's `tr_ctor`, indexed by mode. -/
structure tr_ctor where
  optional_args : tr_ctorMode → optional_args := fun _ => {}

/-- The source's `tr_ctorGetPeerLimit`. -/
def tr_ctorGetPeerLimit (ctor : tr_ctor) (mode : tr_ctorMode) : Option Nat :=
  (ctor.optional_args mode).peer_limit

/-- The source's `tr_ctorGetPaused`. -/
def tr_ctorGetPaused (ctor : tr_ctor) (mode : tr_ctorMode) : Option Bool :=
  (ctor.optional_args mode).paused

/-- The source's `tr_ctorGetDownloadDir`: nothing for an empty string. -/
def tr_ctorGetDownloadDir (ctor : tr_ctor) (mode : tr_ctorMode) : Option String :=
  if (ctor.optional_args mode).download_dir = "" then none
  else some (ctor.optional_args mode).download_dir

/-- The source's `setFromCtor`: the torrent and the flags set. -/
def setFromCtor (tor : tr_torrent) (fields : fields_t) (ctor : tr_ctor) (mode : tr_ctorMode) :
    tr_torrent × fields_t :=
  let ret := fields_none
  let r1 : tr_torrent × fields_t :=
    if fields .Run then
      match tr_ctorGetPaused ctor mode with
      | some isPaused => ({ tor with isRunning := !isPaused }, fields_or ret (fields_one .Run))
      | none => (tor, ret)
    else (tor, ret)
  let r2 : tr_torrent × fields_t :=
    if fields .MaxPeers then
      match tr_ctorGetPeerLimit ctor mode with
      | some limit =>
        ({ r1.1 with maxConnectedPeers := limit % 2 ^ 16 }, fields_or r1.2 (fields_one .MaxPeers))
      | none => r1
    else r1
  if fields .DownloadDir then
    match tr_ctorGetDownloadDir ctor mode with
    | some path =>
      if path ≠ "" then
        ({ r2.1 with download_dir := path }, fields_or r2.2 (fields_one .DownloadDir))
      else r2
    | none => r2
  else r2

/-- The source's `useManditoryFields`. -/
def useManditoryFields (tor : tr_torrent) (fields : fields_t) (ctor : tr_ctor) :
    tr_torrent × fields_t :=
  setFromCtor tor fields ctor .TR_FORCE

/-- The source's `useFallbackFields`. -/
def useFallbackFields (tor : tr_torrent) (fields : fields_t) (ctor : tr_ctor) :
    tr_torrent × fields_t :=
  setFromCtor tor fields ctor .TR_FALLBACK

/-- The resume file as `loadFromFile` reads it: whether it can be read and parsed, the
keys `destination`, `incomplete-dir`, `max-peers` and `paused` when present, and for
every other flag whether its loader finds its key. -/
structure ResumeFile where
  readable : Bool := true
  destination : Option String := none
  incomplete_dir : Option String := none
  max_peers : Option Int := none
  paused : Option Bool := none
  others : fields_t := fun _ => false

/-- The block of `loadFromFile` for the key `destination`. -/
def loadFromFile_destination (fieldsToLoad : fields_t) (file : ResumeFile)
    (r : tr_torrent × fields_t) : tr_torrent × fields_t :=
  match file.destination with
  | some sv =>
    if (fieldsToLoad .Progress || fieldsToLoad .DownloadDir) ∧ sv ≠ "" then
      let is_current_dir := decide (r.1.current_dir = r.1.download_dir)
      let tor := { r.1 with download_dir := sv }
      let tor := if is_current_dir then { tor with current_dir := sv } else tor
      (tor, fields_or r.2 (fields_one .DownloadDir))
    else r
  | none => r

/-- The block of `loadFromFile` for the key `incomplete-dir`. -/
def loadFromFile_incomplete_dir (fieldsToLoad : fields_t) (file : ResumeFile)
    (r : tr_torrent × fields_t) : tr_torrent × fields_t :=
  match file.incomplete_dir with
  | some sv =>
    if (fieldsToLoad .Progress || fieldsToLoad .IncompleteDir) ∧ sv ≠ "" then
      let is_current_dir := decide (r.1.current_dir = r.1.incomplete_dir)
      let tor := { r.1 with incomplete_dir := sv }
      let tor := if is_current_dir then { tor with current_dir := sv } else tor
      (tor, fields_or r.2 (fields_one .IncompleteDir))
    else r
  | none => r

/-- The block of `loadFromFile` for the key `max-peers`; the `int64_t` is stored in a
`uint16_t`. -/
def loadFromFile_max_peers (fieldsToLoad : fields_t) (file : ResumeFile)
    (r : tr_torrent × fields_t) : tr_torrent × fields_t :=
  match file.max_peers with
  | some i =>
    if fieldsToLoad .MaxPeers then
      ({ r.1 with maxConnectedPeers := (i % 2 ^ 16).toNat }, fields_or r.2 (fields_one .MaxPeers))
    else r
  | none => r

/-- The block of `loadFromFile` for the key `paused`. -/
def loadFromFile_paused (fieldsToLoad : fields_t) (file : ResumeFile)
    (r : tr_torrent × fields_t) : tr_torrent × fields_t :=
  match file.paused with
  | some boolVal =>
    if fieldsToLoad .Run then
      ({ r.1 with isRunning := !boolVal }, fields_or r.2 (fields_one .Run))
    else r
  | none => r

/-- The source's `loadFromFile` on the fields `isRunning`, `maxConnectedPeers`,
`download_dir`, `incomplete_dir` and `current_dir`, in the order of the source; the
loaders of the other keys, which leave these fields alone, are summed up by the flags
they report. -/
def loadFromFile (tor : tr_torrent) (fieldsToLoad : fields_t) (file : ResumeFile) :
    tr_torrent × fields_t :=
  let fields_loaded := fields_none
  if !file.readable then (tor, fields_loaded)
  else
    let r := loadFromFile_destination fieldsToLoad file (tor, fields_loaded)
    let r := loadFromFile_incomplete_dir fieldsToLoad file r
    let r := loadFromFile_max_peers fieldsToLoad file r
    let r := loadFromFile_paused fieldsToLoad file r
    (r.1,
      fields_or r.2 (fun f =>
        f ≠ .DownloadDir && f ≠ .IncompleteDir && f ≠ .MaxPeers && f ≠ .Run
          && fieldsToLoad f && file.others f
          && (f ≠ .FilePriorities || !r.1.isDone)))

/-- The source's `tr_resume::load(tor, fields_to_load, ctor, ..)`: the torrent and the
flags loaded. -/
def tr_resume.load (tor : tr_torrent) (fields_to_load : fields_t) (ctor : tr_ctor)
    (file : ResumeFile) : tr_torrent × fields_t :=
  let ret := fields_none
  let m := useManditoryFields tor fields_to_load ctor
  let ret := fields_or ret m.2
  let fields_to_load := fields_without fields_to_load ret
  let l := loadFromFile m.1 fields_to_load file
  let ret := fields_or ret l.2
  let fields_to_load := fields_without fields_to_load ret
  let f := useFallbackFields l.1 fields_to_load ctor
  let ret := fields_or ret f.2
  (f.1, ret)

/-- A constructor whose mandatory download directory is "/forced". -/
def forcedDirCtor : tr_ctor :=
  { optional_args := fun mode =>
      match mode with
      | .TR_FORCE => { download_dir := "/forced" }
      | .TR_FALLBACK => {} }

/-- A resume file whose `destination` is "/from-file". -/
def fileWithDestination : ResumeFile := { destination := some "/from-file" }

/-- The value the resume file offers for `download_dir`: its `destination` when the file
can be read and the string is not empty. -/
def ResumeFile.destinationValue (file : ResumeFile) : Option String :=
  if file.readable then
    match file.destination with
    | some sv => if sv ≠ "" then some sv else none
    | none => none
  else none

/-- The constant `MinutesPerHour`. -/
def MinutesPerHour : Nat := 60

/-- The constant `MinutesPerDay`. -/
def MinutesPerDay : Nat := MinutesPerHour * 24

/-- The constant `MinutesPerWeek`. -/
def MinutesPerWeek : Nat := MinutesPerDay * 7

/-- The fields of `struct tr_turtle_info` (session.h is not among the sources) that
`turtleUpdateTable` reads and writes: the day mask, the two minutes of the day and the
bitfield of the minutes of the week. -/
structure tr_turtle_info where
  days : Nat := 0
  beginMinute : Nat := 0
  endMinute : Nat := 0
  minutes : tr_bitfield := tr_bitfield.ofSize MinutesPerWeek
deriving DecidableEq, Repr

/-- The test `(t->days & (1 << day)) != 0`. -/
def turtleDayIsSet (days day : Nat) : Bool := decide (days &&& (1 <<< day) ≠ 0)

/-- The inner loop of `turtleUpdateTable` for one day: the minutes `begin .. end - 1`
counted from the start of that day are set, modulo the week. -/
def turtleSetDay (minutes : tr_bitfield) (begin_ end_ day : Nat) : tr_bitfield :=
  (List.range' begin_ (end_ - begin_)).foldl
    (fun m i => m.set ((i + day * MinutesPerDay) % MinutesPerWeek)) minutes

/-- The source's `turtleUpdateTable`. -/
def turtleUpdateTable (t : tr_turtle_info) : tr_turtle_info :=
  let minutes := t.minutes.setHasNone
  { t with
    minutes :=
      (List.range 7).foldl
        (fun m day =>
          if turtleDayIsSet t.days day then
            let begin_ := t.beginMinute
            let end_ := if t.endMinute ≤ begin_ then t.endMinute + MinutesPerDay else t.endMinute
            turtleSetDay m begin_ end_ day
          else m)
        minutes }

/-- A schedule from 22:00 to 06:00 on day 1 only. -/
def nightTurtle : tr_turtle_info := { days := 2, beginMinute := 1320, endMinute := 360 }

/-- The constant `PEER_ID_LEN`, the size of `tr_peer_id_t`. -/
def PEER_ID_LEN : Nat := 20

/-- The constant `Pool` of `tr_peerIdInit`. -/
def Pool : List Char := "0123456789abcdefghijklmnopqrstuvwxyz".data

/-- The `char` holding the random byte `b`, converted to `size_t` as `*it % std::size(Pool)`
converts it: a byte above 127 is negative where `char` is signed and wraps modulo 2^64. -/
def charAsSizeT (char_is_signed : Bool) (b : Nat) : Nat :=
  if char_is_signed ∧ b % 256 ≥ 128 then 2 ^ 64 - 256 + b % 256 else b % 256

/-- The loop `while (it + 1 < end)` of `tr_peerIdInit` over the random bytes but the
last: the running `total` and the characters written. -/
def peerIdLoop (char_is_signed : Bool) (bytes : List Nat) : Nat × List Char :=
  bytes.foldl
    (fun acc b =>
      let val := charAsSizeT char_is_signed b % Pool.length
      (acc.1 + val, acc.2 ++ [Pool.getD val '0']))
    (0, [])

/-- The source's `tr_peerIdInit`; `pfx` is the constant `PEERID_PREFIX` (version.h is not
among the sources) and `rand i` the byte that `tr_rand_buffer` puts at offset `i`. -/
def tr_peerIdInit (char_is_signed : Bool) (pfx : List Char) (rand : Nat → Nat) : List Char :=
  let n := PEER_ID_LEN - pfx.length
  let buf := (List.range n).map rand
  let r := peerIdLoop char_is_signed (buf.take (n - 1))
  let total := r.1
  let val := if total % Pool.length ≠ 0 then Pool.length - total % Pool.length else 0
  pfx ++ r.2 ++ [Pool.getD val '0']

/-- The index of a character in `Pool`. -/
def poolIndex (c : Char) : Nat := Pool.indexOf c

/-- The sum of `blockSize(b)` over the blocks `b` set in a bitfield. -/
def ownedBlockBytes (bi : tr_block_info) (blocks : tr_bitfield) : Nat :=
  (((List.range blocks.size).filter blocks.test).map bi.blockSize).sum

/-- A block layout as the torrent gives it: the sizes fit their machine types, the final
block is no longer than the others, and
`total_size = (n_blocks - 1) * block_size + final_block_size`. -/
structure BlockLayout (bi : tr_block_info) : Prop where
  block_size_u32 : bi.block_size < 2 ^ 32
  n_blocks_u32 : bi.n_blocks < 2 ^ 32
  blocks_u64 : bi.n_blocks * bi.block_size < 2 ^ 64
  final_le : bi.final_block_size ≤ bi.block_size
  total : (bi.total_size : Int) = ((bi.n_blocks : Int) - 1) * bi.block_size + bi.final_block_size

/-- The arguments a mutator is called with lie within the torrent: a block index below
`n_blocks`, a piece whose block span is not empty and ends within the blocks, a bitfield
of `n_blocks` bits. -/
def CompletionOp.valid (bi : tr_block_info) : tr_completion.CompletionOp → Prop
  | .addBlock block => block < bi.n_blocks
  | .addPiece piece => (bi.blockSpanForPiece piece).end_ ≤ bi.n_blocks
  | .removePiece piece =>
    (bi.blockSpanForPiece piece).begin_ < (bi.blockSpanForPiece piece).end_
      ∧ (bi.blockSpanForPiece piece).end_ ≤ bi.n_blocks
  | .setBlocks blocks => blocks.size = bi.n_blocks
  | _ => True

/-- The sum of `f` over the indices below `n`. -/
def sumBelow (f : Nat → Nat) (n : Nat) : Nat := ((List.range n).map f).sum

/-- The bytes block `i` contributes when it is set. -/
def blockBytesIfSet (bi : tr_block_info) (blocks : tr_bitfield) (i : Nat) : Nat :=
  if blocks.test i then bi.blockSize i else 0

/-- The invariant of claim C27 on a completion: the bitfield has `n_blocks` bits and
`size_now_` is the sum of the sizes of the blocks set in it. -/
def SizeNowInv (bi : tr_block_info) (c : tr_completion) : Prop :=
  c.blocks_.size = bi.n_blocks ∧ c.size_now_ = ownedBlockBytes bi c.blocks_

/-- The sum of `f` over `len` indices from `a`. -/
def sumRange (f : Nat → Nat) (a len : Nat) : Nat := ((List.range' a len).map f).sum

/-- A failed multiscrape of 10 rows, the partly filled request of the same batch. -/
def tooLongResponse10 : tr_scrape_response :=
  { scrape_url := "http://t/scrape", errmsg := "Request-URI Too Long", row_count := 10 }

/-- The tiers reached from one with an empty announce queue by `tier_announce_event_push`
and by `tier_announce_event_pull` on a queue that is not empty. -/
inductive QueueReachable : tr_tier → Prop where
  | fresh (tier : tr_tier) (h : tier.announce_events = []) : QueueReachable tier
  | push (tier : tr_tier) (e : tr_announce_event) (announceAt : Int)
      (h : QueueReachable tier) : QueueReachable (tier_announce_event_push tier e announceAt)
  | pull (tier next : tr_tier) (e : tr_announce_event) (h : QueueReachable tier)
      (hpull : tier_announce_event_pull tier = some (next, e)) : QueueReachable next

/-- The priority of a tier is the largest event value in its queue, and -1 when the queue
is empty. -/
def PriorityIsMax (tier : tr_tier) : Prop :=
  (tier.announce_events = [] → tier.announce_event_priority = -1)
    ∧ (tier.announce_events ≠ [] →
        (∃ e ∈ tier.announce_events, e.toInt = tier.announce_event_priority)
          ∧ ∀ e ∈ tier.announce_events, e.toInt ≤ tier.announce_event_priority)

/-- Modelled from the spec: `has_none`, no index is set. -/
def tr_bitfield.hasNone (b : tr_bitfield) : Bool := b.flags.all (fun x => !x)

/-- Modelled from the spec: `raw()`, the bytes of the bitfield, the first index in the most
significant bit of the first byte, the unused bits of the final byte zero. -/
def tr_bitfield.raw (b : tr_bitfield) : List Nat :=
  (List.range ((b.size + 7) / 8)).map (fun k =>
    ((List.range 8).map (fun j => if b.test (8 * k + j) then 2 ^ (7 - j) else 0)).sum)

/-- Modelled from the spec: `set_raw(bytes)`, index `i` is set when bit `7 - i mod 8` of
byte `i / 8` is; the size stays. -/
def tr_bitfield.setRaw (b : tr_bitfield) (raw : List Nat) : tr_bitfield :=
  ⟨(List.range b.size).map (fun i => (raw.getD (i / 8) 0).testBit (7 - i % 8))⟩

/-- The bytes of an ASCII string. -/
def asciiBytes (s : String) : List Nat := s.data.map Char.toNat

/-- The source's `bitfieldToRaw`: the bytes of the benc string that holds the bitfield. A
benc string made by `tr_variantInitStr` and one made by `tr_variantInitRaw` are the same
value, a byte string. -/
def bitfieldToRaw (b : tr_bitfield) : List Nat :=
  if b.hasNone || decide (b.size = 0) then asciiBytes "none"
  else if b.hasAll then asciiBytes "all"
  else b.raw

/-- The source's `rawToBitfield(bitfield, raw, rawlen)`; `none` is a null `raw`. -/
def rawToBitfield (bitfield : tr_bitfield) (raw : Option (List Nat)) : tr_bitfield :=
  match raw with
  | none => bitfield.setHasNone
  | some bytes =>
    if bytes.length = 0 ∨ (bytes.length = 4 ∧ bytes = asciiBytes "none") then bitfield.setHasNone
    else if bytes.length = 3 ∧ bytes = asciiBytes "all" then bitfield.setHasAll
    else bitfield.setRaw bytes

/-- The 32 blocks whose bits spell the ASCII text "none": 0x6e 0x6f 0x6e 0x65. -/
def noneSpellingBitfield : tr_bitfield :=
  (tr_bitfield.ofSize 32).setRaw (asciiBytes "none")

/-! ## Completion: the size invariant and the byte-span count -/

/-- Claim C1, evaluated on the code. Two pieces of one block each, only piece 0 wanted:
after `sizeWhenDone()`, `addPiece(0)`, `addBlock(1)` the cached `hasTotal()` is 32768 while
`sizeWhenDone()` still answers the memo 16384 taken before the blocks arrived, so
`leftUntilDone()` wraps to `2^64 - 16384`; a fresh `computeSizeWhenDone()` would give
32768. -/
theorem completion_stale_sizeWhenDone :
    (tr_completion.run twoPieceInfo wantFirstOnly (tr_completion.init twoPieceInfo)
        [.sizeWhenDone, .addPiece 0, .addBlock 1]).hasTotal = 32768
      ∧ (tr_completion.sizeWhenDone twoPieceInfo wantFirstOnly
          (tr_completion.run twoPieceInfo wantFirstOnly (tr_completion.init twoPieceInfo)
            [.sizeWhenDone, .addPiece 0, .addBlock 1])).2 = 16384
      ∧ (tr_completion.leftUntilDone twoPieceInfo wantFirstOnly
          (tr_completion.run twoPieceInfo wantFirstOnly (tr_completion.init twoPieceInfo)
            [.sizeWhenDone, .addPiece 0, .addBlock 1])).2 = 2 ^ 64 - 16384
      ∧ tr_completion.computeSizeWhenDone twoPieceInfo wantFirstOnly
          (tr_completion.run twoPieceInfo wantFirstOnly (tr_completion.init twoPieceInfo)
            [.sizeWhenDone, .addPiece 0, .addBlock 1]) = 32768 := by
  decide

theorem u64_sub_eq {a b : Nat} (h1 : b ≤ a) (h2 : a < 2 ^ 64) : u64_sub a b = a - b := by
  unfold u64_sub U64
  omega

theorem u64_mul_eq {a b : Nat} (h : a * b < 2 ^ 64) : u64_mul a b = a * b := by
  unfold u64_mul U64
  exact Nat.mod_eq_of_lt h

theorem u32_add_eq {a b : Nat} (h : a + b < 2 ^ 32) : u32_add a b = a + b := by
  unfold u32_add U32
  omega

theorem countBelow_succ (p : Nat → Bool) (n : Nat) :
    countBelow p (n + 1) = countBelow p n + (if p n then 1 else 0) := by
  unfold countBelow
  rw [List.range_succ, List.filter_append, List.length_append]
  by_cases h : p n = true <;> simp [h]

theorem countBelow_mono (p : Nat → Bool) {a b : Nat} (h : a ≤ b) :
    countBelow p a ≤ countBelow p b := by
  induction b with
  | zero => rw [Nat.le_zero.mp h]
  | succ b ih =>
    rcases Nat.lt_or_ge a (b + 1) with hlt | hge
    · rw [countBelow_succ]
      have := ih (by omega)
      omega
    · rw [le_antisymm h hge]

/-- Counting over `[a, b)` is a difference of two counts from zero. -/
theorem filter_range'_length (p : Nat → Bool) (a b : Nat) :
    ((List.range' a (b - a)).filter p).length = countBelow p b - countBelow p a := by
  rcases Nat.lt_or_ge b a with hlt | hge
  · have h0 : b - a = 0 := by omega
    rw [h0]
    have := countBelow_mono p (Nat.le_of_lt hlt)
    simp only [List.range', List.filter_nil, List.length_nil]
    omega
  · have hsplit : List.range b = List.range a ++ List.range' a (b - a) := by
      rw [List.range_eq_range', List.range_eq_range']
      have := List.range'_append_1 0 a (b - a)
      rw [Nat.zero_add] at this
      rw [this]
      congr 1
      omega
    unfold countBelow
    rw [hsplit, List.filter_append, List.length_append]
    omega

theorem count_eq_countBelow (b : tr_bitfield) (begin_ end_ : Nat) :
    b.count begin_ end_ = countBelow b.test end_ - countBelow b.test begin_ :=
  filter_range'_length b.test begin_ end_

theorem count_le (b : tr_bitfield) (begin_ end_ : Nat) : b.count begin_ end_ ≤ end_ - begin_ := by
  unfold tr_bitfield.count
  exact (List.length_filter_le _ _).trans (by simp)

/-- Stepping from `n` to `n + 1` either enters the next block or moves on within one. -/
theorem succ_div_mod (B n : Nat) (hB : 0 < B) :
    ((n + 1) % B = 0 ∧ (n + 1) / B = n / B + 1 ∧ n % B + 1 = B)
      ∨ ((n + 1) / B = n / B ∧ (n + 1) % B = n % B + 1) := by
  have hdm := Nat.div_add_mod n B
  have hlt := Nat.mod_lt n hB
  rcases Nat.lt_or_ge (n % B + 1) B with h | h
  · right
    have e : n + 1 = (n % B + 1) + B * (n / B) := by omega
    constructor
    · rw [e, Nat.add_mul_div_left _ _ hB, Nat.div_eq_of_lt h, Nat.zero_add]
    · rw [e, Nat.add_mul_mod_self_left, Nat.mod_eq_of_lt h]
  · left
    have e : n + 1 = B * (n / B + 1) := by rw [Nat.mul_add, Nat.mul_one]; omega
    refine ⟨?_, ?_, by omega⟩
    · rw [e, Nat.mul_mod_right]
    · rw [e, Nat.mul_div_cancel_left _ hB]

/-- Owned bytes below `n`: the whole owned blocks below block `n / B`, and the `n % B`
bytes of block `n / B` when it is owned. -/
theorem countBelow_byteOwned (bi : tr_block_info) (c : tr_completion) (hB : 0 < bi.block_size)
    (n : Nat) :
    countBelow (byteOwned bi c) n
      = bi.block_size * countBelow c.blocks_.test (n / bi.block_size)
        + (if c.blocks_.test (n / bi.block_size) then n % bi.block_size else 0) := by
  induction n with
  | zero => simp [countBelow]
  | succ n ih =>
    rw [countBelow_succ, ih]
    have hown : byteOwned bi c n = c.blocks_.test (n / bi.block_size) := rfl
    rw [hown]
    rcases succ_div_mod bi.block_size n hB with ⟨h0, hdiv, hmod⟩ | ⟨hdiv, hmod⟩
    · rw [hdiv, h0, countBelow_succ, Nat.mul_add]
      by_cases ht : c.blocks_.test (n / bi.block_size) = true
      · simp only [ht, if_true, ite_self, Nat.mul_one]
        omega
      · simp only [ht, Bool.false_eq_true, if_false, ite_self, Nat.mul_zero]
    · rw [hdiv, hmod]
      by_cases ht : c.blocks_.test (n / bi.block_size) = true
      · simp only [ht, if_true]
        omega
      · simp only [ht, Bool.false_eq_true, if_false]

theorem countBelow_clamped (bi : tr_block_info) (c : tr_completion) (n : Nat) :
    countBelow (fun x => decide (x < bi.total_size) && c.hasBlock (x / bi.block_size)) n
      = countBelow (byteOwned bi c) (min n bi.total_size) := by
  induction n with
  | zero => simp [countBelow]
  | succ n ih =>
    rw [countBelow_succ, ih]
    rcases Nat.lt_or_ge n bi.total_size with h | h
    · rw [Nat.min_eq_left (Nat.le_of_lt h), Nat.min_eq_left h, countBelow_succ]
      simp [h, byteOwned]
    · rw [Nat.min_eq_right h, Nat.min_eq_right (Nat.le_succ_of_le h)]
      simp [Nat.not_lt.mpr h]

theorem ownedBytesInSpan_eq (bi : tr_block_info) (c : tr_completion) (span : tr_byte_span_t) :
    ownedBytesInSpan bi c span
      = countBelow (byteOwned bi c) (min span.end_ bi.total_size)
        - countBelow (byteOwned bi c) (min span.begin_ bi.total_size) := by
  unfold ownedBytesInSpan
  rw [filter_range'_length, countBelow_clamped, countBelow_clamped]

/-- The three sub-cases of `countHasBytesInSpan`, in exact arithmetic, against the count of
owned bytes below `e` and below `b`. -/
theorem countHasBytesInSpan_main (bi : tr_block_info) (c : tr_completion) (b e : Nat)
    (hB : 0 < bi.block_size) (hbe : b < e) (he : e < 2 ^ 64)
    (hblk : (e - 1) / bi.block_size < 2 ^ 32) :
    (if b / bi.block_size = (e - 1) / bi.block_size then
        (if c.blocks_.test (b / bi.block_size) then e - b else 0)
      else
        (if c.blocks_.test (b / bi.block_size)
          then (b / bi.block_size + 1) * bi.block_size - b else 0)
        + (if b / bi.block_size + 1 < (e - 1) / bi.block_size
            then c.blocks_.count (b / bi.block_size + 1) ((e - 1) / bi.block_size) * bi.block_size
            else 0)
        + (if c.blocks_.test ((e - 1) / bi.block_size)
            then e - (e - 1) / bi.block_size * bi.block_size else 0))
      = countBelow (byteOwned bi c) e - countBelow (byteOwned bi c) b := by
  have hFb := countBelow_byteOwned bi c hB b
  have hFe1 := countBelow_byteOwned bi c hB (e - 1)
  have hFe : countBelow (byteOwned bi c) e
      = countBelow (byteOwned bi c) (e - 1)
        + (if c.blocks_.test ((e - 1) / bi.block_size) then 1 else 0) := by
    have : e = (e - 1) + 1 := by omega
    conv_lhs => rw [this]
    rw [countBelow_succ]
    rfl
  have hb := Nat.div_add_mod b bi.block_size
  have hbl := Nat.mod_lt b hB
  have hf := Nat.div_add_mod (e - 1) bi.block_size
  have hfl := Nat.mod_lt (e - 1) hB
  have hle : b / bi.block_size ≤ (e - 1) / bi.block_size := Nat.div_le_div_right (by omega)
  rw [hFe, hFe1, hFb]
  generalize hbb : b / bi.block_size = bb at *
  generalize hfb : (e - 1) / bi.block_size = fb at *
  generalize hrb : b % bi.block_size = rb at *
  generalize hrf : (e - 1) % bi.block_size = rf at *
  generalize hBB : bi.block_size = B at *
  by_cases heq : bb = fb
  · subst heq
    rw [if_pos rfl]
    by_cases ht : c.blocks_.test bb = true
    · simp only [ht, if_true]
      omega
    · simp only [ht, Bool.false_eq_true, if_false]
      omega
  · rw [if_neg heq]
    have hlt : bb < fb := lt_of_le_of_ne hle heq
    have hsplit : countBelow c.blocks_.test fb
        = countBelow c.blocks_.test bb + (if c.blocks_.test bb then 1 else 0)
          + c.blocks_.count (bb + 1) fb := by
      rw [count_eq_countBelow, countBelow_succ]
      have := countBelow_mono c.blocks_.test (show bb + 1 ≤ fb from hlt)
      rw [countBelow_succ] at this
      omega
    have hmid : (if bb + 1 < fb then c.blocks_.count (bb + 1) fb * B else 0)
        = B * c.blocks_.count (bb + 1) fb := by
      by_cases h : bb + 1 < fb
      · rw [if_pos h, Nat.mul_comm]
      · rw [if_neg h]
        have h0 : c.blocks_.count (bb + 1) fb = 0 := by
          have := count_le c.blocks_ (bb + 1) fb
          omega
        rw [h0, Nat.mul_zero]
    rw [hmid, hsplit]
    generalize c.blocks_.count (bb + 1) fb = Y
    generalize countBelow c.blocks_.test bb = X
    have e1 : (bb + 1) * B = B * bb + B := by ring
    have e2 : fb * B = B * fb := by ring
    have e3 : ∀ t, B * (X + t + Y) = B * X + B * t + B * Y := by intro t; ring
    have hfbge : B * bb + B ≤ B * fb := by
      have := Nat.mul_le_mul_left B (show bb + 1 ≤ fb from hlt)
      rw [Nat.mul_add, Nat.mul_one] at this
      exact this
    rw [e1, e2, e3]
    by_cases ht : c.blocks_.test bb = true <;> by_cases ht2 : c.blocks_.test fb = true
    · simp only [ht, ht2, if_true, Nat.mul_one]
      omega
    · simp only [ht, ht2, if_true, Bool.false_eq_true, if_false, Nat.mul_one]
      omega
    · simp only [ht, ht2, if_true, Bool.false_eq_true, if_false, Nat.mul_zero]
      omega
    · simp only [ht, ht2, Bool.false_eq_true, if_false, Nat.mul_zero]
      omega


/-- Claim C2. For a block layout with `block_size > 0`, a final block of `1..block_size`
bytes and `total_size = (n_blocks - 1) * block_size + final_block_size` (with `total_size`
a `uint64_t` and `n_blocks` a `uint32_t`), any owned blocks and any byte span,
`countHasBytesInSpan` returns exactly the number of byte offsets `x` with
`begin ≤ x < end`, `x < total_size`, whose block `x / block_size` is owned; it returns 0
when `begin ≥ end`. -/
theorem countHasBytesInSpan_eq_ownedBytesInSpan (bi : tr_block_info) (c : tr_completion)
    (span : tr_byte_span_t)
    (hB : 0 < bi.block_size)
    (hfinal : 1 ≤ bi.final_block_size ∧ bi.final_block_size ≤ bi.block_size)
    (hlayout : bi.total_size = (bi.n_blocks - 1) * bi.block_size + bi.final_block_size)
    (htotal : bi.total_size < 2 ^ 64) (hblocks : bi.n_blocks < 2 ^ 32) :
    c.countHasBytesInSpan bi span = ownedBytesInSpan bi c span
      ∧ (span.begin_ ≥ span.end_ → c.countHasBytesInSpan bi span = 0) := by
  have key : c.countHasBytesInSpan bi span = ownedBytesInSpan bi c span := by
    rw [ownedBytesInSpan_eq]
    unfold tr_completion.countHasBytesInSpan
    simp only [Nat.max_zero]
    generalize hb : min span.begin_ bi.total_size = b
    generalize he : min span.end_ bi.total_size = e
    have heT : e ≤ bi.total_size := by rw [← he]; exact Nat.min_le_right _ _
    by_cases hbe : b ≥ e
    · rw [if_pos hbe]
      have := countBelow_mono (byteOwned bi c) hbe
      omega
    · rw [if_neg hbe]
      have hlt : b < e := Nat.lt_of_not_ge hbe
      have he64 : e < 2 ^ 64 := lt_of_le_of_lt heT htotal
      have hsub1 : u64_sub e 1 = e - 1 := u64_sub_eq (by omega) he64
      have hfb : (e - 1) / bi.block_size < bi.n_blocks - 1 + 1 := by
        rw [Nat.div_lt_iff_lt_mul hB, Nat.add_mul, Nat.one_mul]
        omega
      have hfb32 : (e - 1) / bi.block_size < 2 ^ 32 := by omega
      have hle : b / bi.block_size ≤ (e - 1) / bi.block_size := Nat.div_le_div_right (by omega)
      have hfbB : (e - 1) / bi.block_size * bi.block_size ≤ e - 1 := Nat.div_mul_le_self _ _
      rw [← countHasBytesInSpan_main bi c b e hB hlt he64 hfb32]
      simp only [tr_block_info.byteLocBlock, tr_completion.hasBlock, hsub1]
      by_cases heq : b / bi.block_size = (e - 1) / bi.block_size
      · rw [if_pos heq, if_pos heq, u64_sub_eq (Nat.le_of_lt hlt) he64]
      · rw [if_neg heq, if_neg heq]
        have hblt : b / bi.block_size < (e - 1) / bi.block_size := lt_of_le_of_ne hle heq
        have h32 : u32_add (b / bi.block_size) 1 = b / bi.block_size + 1 :=
          u32_add_eq (by omega)
        have hmulle : (b / bi.block_size + 1) * bi.block_size
            ≤ (e - 1) / bi.block_size * bi.block_size :=
          Nat.mul_le_mul_right _ hblt
        have hblo : b < (b / bi.block_size + 1) * bi.block_size := by
          have := Nat.lt_succ_self (b / bi.block_size)
          rw [Nat.div_lt_iff_lt_mul hB] at this
          exact this
        have hcnt := count_le c.blocks_ (b / bi.block_size + 1) ((e - 1) / bi.block_size)
        have hcntB : c.blocks_.count (b / bi.block_size + 1) ((e - 1) / bi.block_size)
              * bi.block_size
            ≤ ((e - 1) / bi.block_size - (b / bi.block_size + 1)) * bi.block_size :=
          Nat.mul_le_mul_right _ hcnt
        have hsubmul : ((e - 1) / bi.block_size - (b / bi.block_size + 1)) * bi.block_size
            = (e - 1) / bi.block_size * bi.block_size
              - (b / bi.block_size + 1) * bi.block_size := Nat.sub_mul _ _ _
        rw [h32]
        rw [u64_mul_eq (a := b / bi.block_size + 1) (by omega),
          u64_sub_eq (Nat.le_of_lt hblo) (by omega),
          u64_mul_eq (a := c.blocks_.count _ _) (by omega),
          u64_mul_eq (a := (e - 1) / bi.block_size) (by omega),
          u64_sub_eq (a := e) (by omega) he64]
        generalize c.blocks_.count (b / bi.block_size + 1) ((e - 1) / bi.block_size)
          * bi.block_size = M at *
        generalize (b / bi.block_size + 1) * bi.block_size = P at *
        generalize (e - 1) / bi.block_size * bi.block_size = Q at *
        by_cases ht : c.blocks_.test (b / bi.block_size) = true <;>
          by_cases ht2 : c.blocks_.test ((e - 1) / bi.block_size) = true <;>
          by_cases hm : b / bi.block_size + 1 < (e - 1) / bi.block_size <;>
          simp only [ht, ht2, hm, if_true, if_false, Bool.false_eq_true] <;>
          rw [hsubmul] at hcntB <;>
          unfold u64_add U64 <;>
          omega
  refine ⟨key, ?_⟩
  intro hge
  rw [key]
  unfold ownedBytesInSpan
  have : span.end_ - span.begin_ = 0 := by omega
  rw [this]
  rfl

/-- Claim C2 at three blocks of 4, 4 and 2 bytes with blocks 0 and 2 owned, span `[1, 10)`. -/
theorem countHasBytesInSpan_eq_ownedBytesInSpan_witness :
    0 < tenByteInfo.block_size
      ∧ (1 ≤ tenByteInfo.final_block_size ∧ tenByteInfo.final_block_size ≤ tenByteInfo.block_size)
      ∧ tenByteInfo.total_size
          = (tenByteInfo.n_blocks - 1) * tenByteInfo.block_size + tenByteInfo.final_block_size
      ∧ tenByteInfo.total_size < 2 ^ 64 ∧ tenByteInfo.n_blocks < 2 ^ 32
      ∧ tenByteCompletion.countHasBytesInSpan tenByteInfo ⟨1, 10⟩
          = ownedBytesInSpan tenByteInfo tenByteCompletion ⟨1, 10⟩
      ∧ ownedBytesInSpan tenByteInfo tenByteCompletion ⟨1, 10⟩ = 5 :=
  ⟨by decide, by decide, by decide, by decide, by decide,
    (countHasBytesInSpan_eq_ownedBytesInSpan tenByteInfo tenByteCompletion ⟨1, 10⟩
      (by decide) (by decide) (by decide) (by decide) (by decide)).1,
    by decide⟩

/-! ## Announcer: the announce event queue -/

theorem remove_trailing_loop_nil (e : tr_announce_event) : remove_trailing_loop e [] = [] := by
  rw [remove_trailing_loop]; simp

theorem remove_trailing_loop_concat (e x : tr_announce_event) (l : List tr_announce_event) :
    remove_trailing_loop e (l ++ [x]) = if x = e then remove_trailing_loop e l else l ++ [x] := by
  rw [remove_trailing_loop]
  by_cases h : x = e
  · simp [h]
  · simp [h]

/-- The shrinking loop drops the longest run of `e` at the back of the queue. -/
theorem remove_trailing_loop_eq_rdropWhile (e : tr_announce_event) (l : List tr_announce_event) :
    remove_trailing_loop e l = l.rdropWhile (fun x => decide (x = e)) := by
  induction l using List.reverseRecOn with
  | nil => rw [remove_trailing_loop_nil]; rfl
  | append_singleton l x ih =>
    rw [remove_trailing_loop_concat, List.rdropWhile_concat, ih]
    by_cases h : x = e <;> simp [h]

@[simp] theorem tier_update_announce_priority_events (tier : tr_tier) :
    (tier_update_announce_priority tier).announce_events = tier.announce_events := rfl

@[simp] theorem tier_announce_remove_trailing_events (tier : tr_tier) (e : tr_announce_event) :
    (tier_announce_remove_trailing tier e).announce_events
      = remove_trailing_loop e tier.announce_events := rfl

/-- The queue after a push, as a function of the queue before. -/
theorem tier_announce_event_push_queue (tier : tr_tier) (e : tr_announce_event) (announceAt : Int) :
    (tier_announce_event_push tier e announceAt).announce_events
      = pushedQueue tier.announce_events e := by
  unfold tier_announce_event_push pushedQueue
  by_cases hq : tier.announce_events = []
  · simp [hq]
  · simp only [hq, ne_eq, not_false_eq_true, if_true, if_false, tier_update_announce_priority_events]
    by_cases he : e = .STOPPED
    · subst he
      by_cases hc : tr_announce_event.COMPLETED ∈ tier.announce_events
      · have hcount : List.count tr_announce_event.COMPLETED tier.announce_events ≠ 0 := by
          rw [Ne, List.count_eq_zero]; exact not_not.mpr hc
        simp only [hcount, ne_eq, not_false_eq_true, if_true, hc,
          tier_announce_remove_trailing_events, remove_trailing_loop_eq_rdropWhile]
        rfl
      · have hcount : List.count tr_announce_event.COMPLETED tier.announce_events = 0 := by
          rw [List.count_eq_zero]; exact hc
        simp [hcount, hc, remove_trailing_loop_nil]
    · simp only [he, if_false, tier_announce_remove_trailing_events,
        remove_trailing_loop_eq_rdropWhile]

theorem foldl_push_queue (announceAt : Int) (es : List tr_announce_event) (tier : tr_tier) :
    (es.foldl (fun t e => tier_announce_event_push t e announceAt) tier).announce_events
      = es.foldl pushedQueue tier.announce_events := by
  induction es generalizing tier with
  | nil => rfl
  | cons e es ih => rw [List.foldl_cons, ih, tier_announce_event_push_queue, List.foldl_cons]

/-- Claim C3. Pushing `Stopped` onto a non-empty queue leaves `[Completed, Stopped]` when
`Completed` occurred anywhere in the queue and `[Stopped]` otherwise; and pushing
`Started, None, None, Completed, None, Stopped` in turn onto an empty queue ends with
`[Completed, Stopped]`. -/
theorem tier_announce_event_push_stopped (tier : tr_tier) (announceAt : Int)
    (hq : tier.announce_events ≠ []) :
    (tier_announce_event_push tier .STOPPED announceAt).announce_events
        = (if tr_announce_event.COMPLETED ∈ tier.announce_events then [.COMPLETED, .STOPPED]
           else [.STOPPED])
      ∧ ([tr_announce_event.STARTED, .NONE, .NONE, .COMPLETED, .NONE, .STOPPED].foldl
            (fun t e => tier_announce_event_push t e announceAt) freshTier).announce_events
          = [.COMPLETED, .STOPPED] := by
  constructor
  · rw [tier_announce_event_push_queue, pushedQueue, if_neg hq, if_pos rfl]
  · rw [foldl_push_queue]
    decide

/-- Claim C3 at the queue `[Started, Completed, None]`. -/
theorem tier_announce_event_push_stopped_witness :
    busyTier.announce_events ≠ []
      ∧ (tier_announce_event_push busyTier .STOPPED 100).announce_events
          = [.COMPLETED, .STOPPED] :=
  ⟨by decide, (tier_announce_event_push_stopped busyTier 100 (by decide)).1⟩

theorem rdropWhile_append_rest {α : Type} (p : α → Bool) (l : List α) :
    ∃ t, l = l.rdropWhile p ++ t := by
  induction l using List.reverseRecOn with
  | nil => exact ⟨[], by simp⟩
  | append_singleton l x ih =>
    rw [List.rdropWhile_concat]
    split_ifs
    · obtain ⟨t, ht⟩ := ih
      exact ⟨t ++ [x], by rw [← List.append_assoc, ← ht]⟩
    · exact ⟨[], by simp⟩

theorem rdropWhile_getLast {α : Type} (p : α → Bool) (l : List α) :
    ∀ x ∈ (l.rdropWhile p).getLast?, p x = false := by
  induction l using List.reverseRecOn with
  | nil => simp
  | append_singleton l x ih =>
    rw [List.rdropWhile_concat]
    split_ifs with h
    · exact ih
    · simpa using h

/-- An element found only at the back of `l1 ++ t` is not in `l1` when `l1` does not end
with it. -/
theorem not_mem_of_append_of_not_last {α : Type} {a : α} {l1 t : List α}
    (hnone : a ∉ (l1 ++ t).dropLast) (hlast : l1.getLast? ≠ some a) : a ∉ l1 := by
  intro hmem
  by_cases ht : t = []
  · subst ht
    rw [List.append_nil] at hnone
    rcases List.eq_nil_or_concat l1 with h | ⟨l0, x, h⟩
    · subst h; simp at hmem
    · subst h
      rw [List.concat_eq_append] at hnone hlast hmem
      rw [List.dropLast_concat] at hnone
      rw [List.getLast?_concat] at hlast
      rw [List.mem_append, List.mem_singleton] at hmem
      rcases hmem with h | h
      · exact hnone h
      · exact hlast (by rw [h])
  · rw [List.dropLast_append_of_ne_nil l1 ht] at hnone
    exact hnone (List.mem_append_left _ hmem)

/-- After a push the queue ends with the pushed event; a queue without two equal adjacent
events stays so; and when `None` occurs in the queue at most as its last element, the
event right before the pushed one is not `None`. -/
theorem tier_announce_event_push_compact (tier : tr_tier) (e : tr_announce_event)
    (announceAt : Int) :
    (tier_announce_event_push tier e announceAt).announce_events.getLast? = some e
      ∧ (tier.announce_events.Chain' (fun a b => a ≠ b) →
          (tier_announce_event_push tier e announceAt).announce_events.Chain' (fun a b => a ≠ b))
      ∧ (tr_announce_event.NONE ∉ tier.announce_events.dropLast →
          (tier_announce_event_push tier e announceAt).announce_events.dropLast.getLast?
            ≠ some .NONE) := by
  rw [tier_announce_event_push_queue]
  unfold pushedQueue
  by_cases hq : tier.announce_events = []
  · simp [hq]
  · rw [if_neg hq]
    by_cases he : e = .STOPPED
    · subst he
      by_cases hc : tr_announce_event.COMPLETED ∈ tier.announce_events <;> simp [hc]
    · rw [if_neg he]
      obtain ⟨t1, ht1⟩ :=
        rdropWhile_append_rest (fun x => decide (x = tr_announce_event.NONE)) tier.announce_events
      have hl1 :=
        rdropWhile_getLast (fun x => decide (x = tr_announce_event.NONE)) tier.announce_events
      obtain ⟨t2, ht2⟩ := rdropWhile_append_rest (fun x => decide (x = e))
        (tier.announce_events.rdropWhile (fun x => decide (x = tr_announce_event.NONE)))
      have hl2 := rdropWhile_getLast (fun x => decide (x = e))
        (tier.announce_events.rdropWhile (fun x => decide (x = tr_announce_event.NONE)))
      generalize (tier.announce_events.rdropWhile
        (fun x => decide (x = tr_announce_event.NONE))).rdropWhile (fun x => decide (x = e))
        = l2 at ht2 hl2 ⊢
      generalize tier.announce_events.rdropWhile (fun x => decide (x = tr_announce_event.NONE))
        = l1 at ht1 hl1 ht2 ⊢
      refine ⟨by simp, ?_, ?_⟩
      · intro hdup
        rw [ht1, ht2] at hdup
        refine List.Chain'.append hdup.left_of_append.left_of_append (List.chain'_singleton e) ?_
        intro x hx y hy
        have hye : y = e := by simpa using hy.symm
        subst hye
        simpa using hl2 x hx
      · intro hnone
        rw [ht1] at hnone
        have hnone1 : tr_announce_event.NONE ∉ l1 :=
          not_mem_of_append_of_not_last hnone (fun hc => by simpa using hl1 _ hc)
        rw [List.dropLast_concat]
        intro hc
        apply hnone1
        rw [ht2]
        exact List.mem_append_left _ (List.mem_of_getLast?_eq_some hc)

/-! ## Request wishlist: budget, requestable blocks, endgame -/

section WishlistProofs

open Wishlist

/-- Coalescing keeps the blocks: the spans are non-empty, cover as many blocks as were
queued, and every block of a span was queued. -/
theorem makeSpans_spec (blocks : List Nat) :
    (∀ span ∈ makeSpans blocks, span.begin_ < span.end_)
      ∧ spanBlockCount (makeSpans blocks) = blocks.length
      ∧ ∀ span ∈ makeSpans blocks, ∀ block, inSpan span block → block ∈ blocks := by
  induction blocks with
  | nil => simp [makeSpans, spanBlockCount]
  | cons b rest ih =>
    obtain ⟨hpos, hcount, hmem⟩ := ih
    rw [makeSpans]
    cases hrest : makeSpans rest with
    | nil =>
      rw [hrest] at hcount
      have hlen : rest.length = 0 := by simpa [spanBlockCount] using hcount.symm
      refine ⟨?_, ?_, ?_⟩
      · simp
      · simp [spanBlockCount, hlen]
      · intro span hspan block hin
        simp only [List.mem_singleton] at hspan
        subst hspan
        simp only [inSpan] at hin
        simp only [List.mem_cons]
        left; omega
    | cons span spans =>
      rw [hrest] at hpos hcount hmem
      have hsp := hpos span (List.mem_cons_self _ _)
      simp only [spanBlockCount, List.map_cons, List.sum_cons] at hcount
      by_cases hadj : span.begin_ = b + 1
      · simp only [hadj, if_true]
        refine ⟨?_, ?_, ?_⟩
        · intro s hs
          rcases List.mem_cons.mp hs with h | h
          · subst h; simp only; omega
          · exact hpos s (List.mem_cons_of_mem _ h)
        · simp only [spanBlockCount, List.map_cons, List.sum_cons, List.length_cons]
          omega
        · intro s hs block hin
          rcases List.mem_cons.mp hs with h | h
          · subst h
            simp only [inSpan] at hin
            by_cases hb : block = b
            · subst hb; exact List.mem_cons_self _ _
            · exact List.mem_cons_of_mem _
                (hmem span (List.mem_cons_self _ _) block ⟨by omega, hin.2⟩)
          · exact List.mem_cons_of_mem _ (hmem s (List.mem_cons_of_mem _ h) block hin)
      · simp only [hadj, if_false]
        refine ⟨?_, ?_, ?_⟩
        · intro s hs
          rcases List.mem_cons.mp hs with h | h
          · subst h; simp
          · exact hpos s h
        · simp only [spanBlockCount, List.map_cons, List.sum_cons, List.length_cons]
          omega
        · intro s hs block hin
          rcases List.mem_cons.mp hs with h | h
          · subst h
            simp only [inSpan] at hin
            have : block = b := by omega
            subst this; exact List.mem_cons_self _ _
          · exact List.mem_cons_of_mem _ (hmem s h block hin)

/-- A queued block passed the block test and lies in the span of a candidate piece. -/
theorem mem_queuedBlocks {peer_info : PeerInfo} {salt : Nat → Nat} {n block : Nat}
    (h : block ∈ queuedBlocks peer_info salt n) :
    blockIsRequestable peer_info block = true
      ∧ ∃ piece, piece < peer_info.countAllPieces ∧ peer_info.clientCanRequestPiece piece = true
          ∧ inSpan (peer_info.blockSpan piece) block := by
  unfold queuedBlocks at h
  have h1 := List.mem_of_mem_take h
  rw [List.mem_flatMap] at h1
  obtain ⟨piece, hpiece, hblock⟩ := h1
  unfold sortedCandidates at hpiece
  have hcand : piece ∈ getCandidates peer_info :=
    (List.perm_insertionSort _ _).subset hpiece
  unfold getCandidates at hcand
  rw [List.mem_filter, List.mem_range] at hcand
  unfold pieceBlocks at hblock
  rw [List.mem_filter, List.mem_range'_1] at hblock
  refine ⟨hblock.2, piece, hcand.1, hcand.2, ?_⟩
  unfold inSpan
  omega

/-- Claim C5. The spans returned by `Wishlist::next(peer_info, n)` cover at most `n` blocks
in total, and every block in a returned span satisfies `clientCanRequestBlock` and lies in
the block span of a piece for which `clientCanRequestPiece` holds. -/
theorem wishlist_next_bounds (peer_info : PeerInfo) (salt : Nat → Nat) (n : Nat) :
    spanBlockCount (next peer_info salt n) ≤ n
      ∧ ∀ span ∈ next peer_info salt n, ∀ block, inSpan span block →
          peer_info.clientCanRequestBlock block = true
            ∧ ∃ piece, piece < peer_info.countAllPieces
                ∧ peer_info.clientCanRequestPiece piece = true
                ∧ inSpan (peer_info.blockSpan piece) block := by
  obtain ⟨_, hcount, hmem⟩ := makeSpans_spec (queuedBlocks peer_info salt n)
  refine ⟨?_, ?_⟩
  · unfold next
    rw [hcount]
    unfold queuedBlocks
    exact (List.length_take_le _ _)
  · intro span hspan block hin
    have hq := mem_queuedBlocks (hmem span hspan block hin)
    refine ⟨?_, hq.2⟩
    have := hq.1
    unfold blockIsRequestable at this
    rw [Bool.and_eq_true] at this
    exact this.1

/-- Claim C5 at the scaled-down test setting, budget 5, block 3 of the span `[0, 5)`. -/
theorem wishlist_next_bounds_witness :
    (⟨0, 5⟩ : tr_block_span_t) ∈ Wishlist.next (dupesPeerInfo true) (fun _ => 0) 5
      ∧ Wishlist.inSpan ⟨0, 5⟩ 3
      ∧ Wishlist.spanBlockCount (Wishlist.next (dupesPeerInfo true) (fun _ => 0) 5) ≤ 5
      ∧ (dupesPeerInfo true).clientCanRequestBlock 3 = true
      ∧ ∃ piece, piece < (dupesPeerInfo true).countAllPieces
          ∧ (dupesPeerInfo true).clientCanRequestPiece piece = true
          ∧ Wishlist.inSpan ((dupesPeerInfo true).blockSpan piece) 3 :=
  have hmem : (⟨0, 5⟩ : tr_block_span_t) ∈ Wishlist.next (dupesPeerInfo true) (fun _ => 0) 5 := by
    decide
  have hin : Wishlist.inSpan ⟨0, 5⟩ 3 := by decide
  ⟨hmem, hin, (wishlist_next_bounds (dupesPeerInfo true) (fun _ => 0) 5).1,
    ((wishlist_next_bounds (dupesPeerInfo true) (fun _ => 0) 5).2 ⟨0, 5⟩ hmem 3 hin).1,
    ((wishlist_next_bounds (dupesPeerInfo true) (fun _ => 0) 5).2 ⟨0, 5⟩ hmem 3 hin).2⟩

/-- Claim C6. When `isEndgame()` is false no block returned by `Wishlist::next` has an
active request; so a block with an outstanding request is returned only in endgame. -/
theorem wishlist_dupes_only_in_endgame (peer_info : PeerInfo) (salt : Nat → Nat) (n : Nat)
    (hend : peer_info.isEndgame = false) :
    ∀ span ∈ next peer_info salt n, ∀ block, inSpan span block →
      peer_info.countActiveRequests block = 0 := by
  obtain ⟨_, _, hmem⟩ := makeSpans_spec (queuedBlocks peer_info salt n)
  intro span hspan block hin
  have hq := (mem_queuedBlocks (hmem span hspan block hin)).1
  unfold blockIsRequestable at hq
  rw [hend, Bool.and_eq_true] at hq
  simpa using hq.2

/-- Claim C6 at the scaled-down test setting outside endgame, block 8 of the span
`[6, 12)`. -/
theorem wishlist_dupes_only_in_endgame_witness :
    (dupesPeerInfo false).isEndgame = false
      ∧ (⟨6, 12⟩ : tr_block_span_t) ∈ Wishlist.next (dupesPeerInfo false) (fun _ => 0) 100
      ∧ Wishlist.inSpan ⟨6, 12⟩ 8
      ∧ (dupesPeerInfo false).countActiveRequests 8 = 0 :=
  have hmem : (⟨6, 12⟩ : tr_block_span_t)
      ∈ Wishlist.next (dupesPeerInfo false) (fun _ => 0) 100 := by decide
  have hin : Wishlist.inSpan ⟨6, 12⟩ 8 := by decide
  ⟨rfl, hmem, hin,
    wishlist_dupes_only_in_endgame (dupesPeerInfo false) (fun _ => 0) 100 rfl ⟨6, 12⟩ hmem 8 hin⟩

end WishlistProofs

/-! ## Announcer: scrape batching -/

/-- Filling a free slot does not change the number of requests. -/
theorem multiscrape_use_slot_length (info : tr_scrape_info) (h : Nat)
    (requests requests' : List tr_scrape_request)
    (hslot : multiscrape_use_slot info h requests = some requests') :
    requests'.length = requests.length := by
  induction requests generalizing requests' with
  | nil => simp [multiscrape_use_slot] at hslot
  | cons r rs ih =>
    rw [multiscrape_use_slot] at hslot
    split_ifs at hslot with h1 h2
    · rw [Option.map_eq_some'] at hslot
      obtain ⟨x, hx, rfl⟩ := hslot
      simp [ih x hx]
    · rw [Option.map_eq_some'] at hslot
      obtain ⟨x, hx, rfl⟩ := hslot
      simp [ih x hx]
    · cases hslot; simp

/-- Filling a free slot keeps the invariant of the requests. -/
theorem multiscrape_use_slot_inv (announcer : tr_announcer) (src : List tr_tier)
    (info : tr_scrape_info) (tier : tr_tier) (htier : tier ∈ src)
    (hinfo : tier.currentScrapeInfo announcer = some info)
    (hkey : announcer.scrape_info info.scrape_url = some info)
    (requests requests' : List tr_scrape_request)
    (hinv : MultiscrapeInv announcer src requests)
    (hslot : multiscrape_use_slot info tier.tor.info_hash requests = some requests') :
    MultiscrapeInv announcer src requests' := by
  induction requests generalizing requests' with
  | nil => simp [multiscrape_use_slot] at hslot
  | cons req rest ih =>
    obtain ⟨hlen, hall⟩ := hinv
    have hrest : MultiscrapeInv announcer src rest :=
      ⟨by simp only [List.length_cons] at hlen; omega,
        fun r hr => hall r (List.mem_cons_of_mem _ hr)⟩
    have hskip : ∀ rs, Option.map (fun x => req :: x)
        (multiscrape_use_slot info tier.tor.info_hash rest) = some rs →
        MultiscrapeInv announcer src rs := by
      intro rs hrs
      rw [Option.map_eq_some'] at hrs
      obtain ⟨rest', hrest', rfl⟩ := hrs
      obtain ⟨hlen', hall'⟩ := ih rest' hrest hrest'
      have hl : rest'.length = rest.length := multiscrape_use_slot_length _ _ _ _ hrest'
      refine ⟨by simp only [List.length_cons] at hlen ⊢; omega, ?_⟩
      intro r hr
      rcases List.mem_cons.mp hr with h | h
      · subst h; exact hall r (List.mem_cons_self _ _)
      · exact hall' r h
    rw [multiscrape_use_slot] at hslot
    split_ifs at hslot with h1 h2
    · exact hskip _ hslot
    · exact hskip _ hslot
    · cases hslot
      refine ⟨by simpa using hlen, ?_⟩
      intro r hr
      rcases List.mem_cons.mp hr with h | h
      · subst h
        have hurl : info.scrape_url = req.scrape_url := not_not.mp h2
        refine ⟨⟨info, by rw [← hurl]; exact hkey, ?_⟩, ?_⟩
        · simp only [tr_scrape_request.info_hash_count, List.length_append, List.length_singleton,
            ge_iff_le, not_le] at h1 ⊢
          push_cast
          omega
        · intro x hx
          rcases List.mem_append.mp hx with hx | hx
          · exact (hall req (List.mem_cons_self _ _)).2 x hx
          · rw [List.mem_singleton] at hx
            exact ⟨tier, htier, hx.symm, info, hinfo, hurl⟩
      · exact hall r (List.mem_cons_of_mem _ h)

/-- One round of the outer loop succeeds on a ready tier and keeps the invariant. -/
theorem multiscrape_tier_inv (announcer : tr_announcer) (now : Int) (src : List tr_tier)
    (tier : tr_tier) (htier : tier ∈ src) (hready : ScrapeReady announcer tier)
    (acc : List tr_tier × List tr_scrape_request) (hinv : MultiscrapeInv announcer src acc.2) :
    ∃ acc', multiscrape_tier announcer now acc tier = some acc'
      ∧ MultiscrapeInv announcer src acc'.2 := by
  obtain ⟨info, hinfo, hkey, hmax⟩ := hready
  unfold multiscrape_tier
  simp only [hinfo]
  cases hslot : multiscrape_use_slot info tier.tor.info_hash acc.2 with
  | some requests =>
    exact ⟨_, rfl, multiscrape_use_slot_inv announcer src info tier htier hinfo hkey _ _ hinv hslot⟩
  | none =>
    by_cases hroom : acc.2.length < MaxScrapesPerUpkeep
    · simp only [hroom, if_true]
      refine ⟨_, rfl, ?_⟩
      obtain ⟨hlen, hall⟩ := hinv
      refine ⟨by simp only [List.length_append, List.length_singleton]; omega, ?_⟩
      intro r hr
      rcases List.mem_append.mp hr with h | h
      · exact hall r h
      · rw [List.mem_singleton] at h
        subst h
        refine ⟨⟨info, hkey, by simpa [tr_scrape_request.info_hash_count] using hmax⟩, ?_⟩
        intro x hx
        rw [List.mem_singleton] at hx
        exact ⟨tier, htier, hx.symm, info, hinfo, rfl⟩
    · simp only [hroom, if_false]
      exact ⟨_, rfl, hinv⟩

/-- The outer loop succeeds on ready tiers and keeps the invariant. -/
theorem multiscrape_foldlM_inv (announcer : tr_announcer) (now : Int) (src : List tr_tier)
    (tiers : List tr_tier) (hsub : ∀ tier ∈ tiers, tier ∈ src)
    (hready : ∀ tier ∈ tiers, ScrapeReady announcer tier)
    (acc : List tr_tier × List tr_scrape_request) (hinv : MultiscrapeInv announcer src acc.2) :
    ∃ res, tiers.foldlM (multiscrape_tier announcer now) acc = some res
      ∧ MultiscrapeInv announcer src res.2 := by
  induction tiers generalizing acc with
  | nil => exact ⟨acc, rfl, hinv⟩
  | cons tier rest ih =>
    obtain ⟨acc', hstep, hinv'⟩ := multiscrape_tier_inv announcer now src tier
      (hsub tier (List.mem_cons_self _ _)) (hready tier (List.mem_cons_self _ _)) acc hinv
    obtain ⟨res, hres, hinvres⟩ := ih (fun t ht => hsub t (List.mem_cons_of_mem _ ht))
      (fun t ht => hready t (List.mem_cons_of_mem _ ht)) acc' hinv'
    refine ⟨res, ?_, hinvres⟩
    rw [List.foldlM_cons, hstep]
    exact hres

/-- Claim C7. Given scrape-ready tiers (each has a current tracker with a scrape info whose
`multiscrape_max` is at least 1), `multiscrape` builds at most `MaxScrapesPerUpkeep = 20`
requests; each request carries at most the `multiscrape_max` of its scrape URL, and every
info-hash in it is of a given tier whose scrape URL is the request's. -/
theorem multiscrape_batches (announcer : tr_announcer) (now : Int) (tiers : List tr_tier)
    (hready : ∀ tier ∈ tiers, ScrapeReady announcer tier) :
    ∃ res, multiscrape announcer now tiers = some res
      ∧ res.2.length ≤ 20
      ∧ ∀ req ∈ res.2,
          (∃ info, announcer.scrape_info req.scrape_url = some info
              ∧ req.info_hash_count ≤ info.multiscrape_max)
            ∧ ∀ h ∈ req.info_hash, ∃ tier ∈ tiers, tier.tor.info_hash = h
                ∧ ∃ info, tier.currentScrapeInfo announcer = some info
                    ∧ info.scrape_url = req.scrape_url := by
  obtain ⟨res, hres, hlen, hall⟩ := multiscrape_foldlM_inv announcer now tiers tiers
    (fun _ h => h) hready ([], []) ⟨by simp, by simp⟩
  exact ⟨res, hres, hlen, hall⟩

/-- Claim C7 at three tiers of one scrape URL whose limit is 20. -/
theorem multiscrape_batches_witness :
    (∀ tier ∈ [scrapingTier 1, scrapingTier 2, scrapingTier 3], ScrapeReady announcerWithMax20 tier)
      ∧ ∃ res, multiscrape announcerWithMax20 0 [scrapingTier 1, scrapingTier 2, scrapingTier 3]
            = some res
          ∧ res.2.length ≤ 20
          ∧ ∀ req ∈ res.2,
              (∃ info, announcerWithMax20.scrape_info req.scrape_url = some info
                  ∧ req.info_hash_count ≤ info.multiscrape_max)
                ∧ ∀ h ∈ req.info_hash,
                    ∃ tier ∈ [scrapingTier 1, scrapingTier 2, scrapingTier 3],
                      tier.tor.info_hash = h
                        ∧ ∃ info, tier.currentScrapeInfo announcerWithMax20 = some info
                            ∧ info.scrape_url = req.scrape_url :=
  have hready : ∀ tier ∈ [scrapingTier 1, scrapingTier 2, scrapingTier 3],
      ScrapeReady announcerWithMax20 tier := by
    intro tier htier
    have hinfo : tier.currentScrapeInfo announcerWithMax20 = some ⟨"http://t/scrape", 20⟩ := by
      simp only [List.mem_cons, List.mem_singleton, List.not_mem_nil, or_false] at htier
      rcases htier with h | h | h <;> subst h <;> decide
    exact ⟨⟨"http://t/scrape", 20⟩, hinfo, by decide, by decide⟩
  ⟨hready, multiscrape_batches announcerWithMax20 0 _ hready⟩

/-! ## Announcer: shrinking `multiscrape_max` -/

/-- What `checkMultiscrapeMax` leaves under the response's own URL. -/
theorem checkMultiscrapeMax_at_url (TR_MULTISCRAPE_MAX : Int) (announcer : tr_announcer)
    (response : tr_scrape_response) (m : Int)
    (hurl : response.scrape_url ≠ "")
    (hm : announcer.scrape_info response.scrape_url = some ⟨response.scrape_url, m⟩) :
    (checkMultiscrapeMax TR_MULTISCRAPE_MAX announcer response).scrape_info response.scrape_url
      = some ⟨response.scrape_url,
          if multiscrape_too_big response.errmsg = true ∧ m ≥ response.row_count
          then max 1 (m - 5) else m⟩ := by
  unfold checkMultiscrapeMax
  by_cases hbig : multiscrape_too_big response.errmsg = true
  · simp only [hbig, Bool.not_true, Bool.false_eq_true, if_false, tr_announcerGetScrapeInfo,
      if_neg hurl, hm, true_and, TrMultiscrapeStep]
    by_cases hrow : m < response.row_count
    · simp [hrow, hm, not_le.mpr hrow]
    · simp only [hrow, if_false, not_lt.mp hrow, ge_iff_le, if_true]
      by_cases hn : m = max 1 (m - 5)
      · simp [← hn, hm]
      · simp [hn]
  · simp [hbig, hm]

/-- The entries under every other URL are left as they were. -/
theorem checkMultiscrapeMax_other_url (TR_MULTISCRAPE_MAX : Int) (announcer : tr_announcer)
    (response : tr_scrape_response) (m : Int)
    (hurl : response.scrape_url ≠ "")
    (hm : announcer.scrape_info response.scrape_url = some ⟨response.scrape_url, m⟩)
    (u : String) (hu : u ≠ response.scrape_url) :
    (checkMultiscrapeMax TR_MULTISCRAPE_MAX announcer response).scrape_info u
      = announcer.scrape_info u := by
  unfold checkMultiscrapeMax
  by_cases hbig : multiscrape_too_big response.errmsg = true
  · simp only [hbig, Bool.not_true, Bool.false_eq_true, if_false, tr_announcerGetScrapeInfo,
      if_neg hurl, hm, TrMultiscrapeStep]
    split_ifs <;> simp [hu]
  · simp [hbig]

/-- Claim C8. For a scrape URL whose `multiscrape_max` is `m`, `checkMultiscrapeMax` on a
response for that URL sets it to `max(1, m - 5)` when the error message contains
"Bad Request", "GET string too long" or "Request-URI Too Long" and `m ≥ row_count`, and
leaves it unchanged in every other case; other URLs are untouched; from `m ≥ 1` the new
value is at least 1 and at most `m`. With `m = 20`, `row_count = 20` and
"Request-URI Too Long" the result is 15, and a second such response leaves 15. -/
theorem checkMultiscrapeMax_lowers_once (TR_MULTISCRAPE_MAX : Int) (announcer : tr_announcer)
    (response : tr_scrape_response) (m : Int)
    (hurl : response.scrape_url ≠ "")
    (hm : announcer.scrape_info response.scrape_url = some ⟨response.scrape_url, m⟩) :
    (checkMultiscrapeMax TR_MULTISCRAPE_MAX announcer response).scrape_info response.scrape_url
        = some ⟨response.scrape_url,
            if multiscrape_too_big response.errmsg = true ∧ m ≥ response.row_count
            then max 1 (m - 5) else m⟩
      ∧ (∀ u, u ≠ response.scrape_url →
          (checkMultiscrapeMax TR_MULTISCRAPE_MAX announcer response).scrape_info u
            = announcer.scrape_info u)
      ∧ (1 ≤ m →
          1 ≤ (if multiscrape_too_big response.errmsg = true ∧ m ≥ response.row_count
                then max 1 (m - 5) else m)
          ∧ (if multiscrape_too_big response.errmsg = true ∧ m ≥ response.row_count
                then max 1 (m - 5) else m) ≤ m)
      ∧ (checkMultiscrapeMax TR_MULTISCRAPE_MAX announcerWithMax20 tooLongResponse).scrape_info
            "http://t/scrape" = some ⟨"http://t/scrape", 15⟩
      ∧ (checkMultiscrapeMax TR_MULTISCRAPE_MAX
            (checkMultiscrapeMax TR_MULTISCRAPE_MAX announcerWithMax20 tooLongResponse)
            tooLongResponse).scrape_info "http://t/scrape" = some ⟨"http://t/scrape", 15⟩ := by
  have hfirst : (checkMultiscrapeMax TR_MULTISCRAPE_MAX announcerWithMax20
      tooLongResponse).scrape_info "http://t/scrape" = some ⟨"http://t/scrape", 15⟩ := by
    have h := checkMultiscrapeMax_at_url TR_MULTISCRAPE_MAX announcerWithMax20 tooLongResponse 20
      (by decide) (by decide)
    have hv : (if multiscrape_too_big tooLongResponse.errmsg = true
        ∧ (20 : Int) ≥ tooLongResponse.row_count then max 1 ((20 : Int) - 5) else 20) = 15 := by
      decide
    rw [hv] at h
    exact h
  have hsecond : (checkMultiscrapeMax TR_MULTISCRAPE_MAX
      (checkMultiscrapeMax TR_MULTISCRAPE_MAX announcerWithMax20 tooLongResponse)
      tooLongResponse).scrape_info "http://t/scrape" = some ⟨"http://t/scrape", 15⟩ := by
    have h := checkMultiscrapeMax_at_url TR_MULTISCRAPE_MAX
      (checkMultiscrapeMax TR_MULTISCRAPE_MAX announcerWithMax20 tooLongResponse)
      tooLongResponse 15 (by decide) hfirst
    have hv : (if multiscrape_too_big tooLongResponse.errmsg = true
        ∧ (15 : Int) ≥ tooLongResponse.row_count then max 1 ((15 : Int) - 5) else 15) = 15 := by
      decide
    rw [hv] at h
    exact h
  refine ⟨checkMultiscrapeMax_at_url TR_MULTISCRAPE_MAX announcer response m hurl hm,
    fun u hu => checkMultiscrapeMax_other_url TR_MULTISCRAPE_MAX announcer response m hurl hm u hu,
    ?_, hfirst, hsecond⟩
  intro h1
  split_ifs <;> omega

/-- Claim C8 at `m = 20`, a response of 20 rows with "Request-URI Too Long". -/
theorem checkMultiscrapeMax_lowers_once_witness :
    tooLongResponse.scrape_url ≠ ""
      ∧ announcerWithMax20.scrape_info tooLongResponse.scrape_url
          = some ⟨tooLongResponse.scrape_url, 20⟩
      ∧ (checkMultiscrapeMax 64 announcerWithMax20 tooLongResponse).scrape_info
            tooLongResponse.scrape_url
          = some ⟨tooLongResponse.scrape_url,
              if multiscrape_too_big tooLongResponse.errmsg = true
                ∧ (20 : Int) ≥ tooLongResponse.row_count
              then max 1 (20 - 5) else 20⟩ :=
  ⟨by decide, by decide,
    (checkMultiscrapeMax_lowers_once 64 announcerWithMax20 tooLongResponse 20
      (by decide) (by decide)).1⟩

/-! ## Announcer: retry interval and scrape time rounding -/

/-- Claim C9. With a random source that returns `r` in `[0, 60)`, `getRetryInterval`
returns 0, 20, 300+r, 900+r, 1800+r, 3600+r for 0, 1, 2, 3, 4, 5 consecutive failures and
7200+r for 6 or more; the result is never negative and never exceeds 7259. -/
theorem getRetryInterval_schedule (tr_rand_int_weak : Int → Int) (tracker : tr_tracker)
    (hlo : 0 ≤ tr_rand_int_weak 60) (hhi : tr_rand_int_weak 60 < 60) :
    (tracker.consecutive_failures = 0 → tracker.getRetryInterval tr_rand_int_weak = 0)
      ∧ (tracker.consecutive_failures = 1 → tracker.getRetryInterval tr_rand_int_weak = 20)
      ∧ (tracker.consecutive_failures = 2 →
          tracker.getRetryInterval tr_rand_int_weak = 300 + tr_rand_int_weak 60)
      ∧ (tracker.consecutive_failures = 3 →
          tracker.getRetryInterval tr_rand_int_weak = 900 + tr_rand_int_weak 60)
      ∧ (tracker.consecutive_failures = 4 →
          tracker.getRetryInterval tr_rand_int_weak = 1800 + tr_rand_int_weak 60)
      ∧ (tracker.consecutive_failures = 5 →
          tracker.getRetryInterval tr_rand_int_weak = 3600 + tr_rand_int_weak 60)
      ∧ (6 ≤ tracker.consecutive_failures →
          tracker.getRetryInterval tr_rand_int_weak = 7200 + tr_rand_int_weak 60)
      ∧ 0 ≤ tracker.getRetryInterval tr_rand_int_weak
      ∧ tracker.getRetryInterval tr_rand_int_weak ≤ 7259 := by
  unfold tr_tracker.getRetryInterval
  refine ⟨?_, ?_, ?_, ?_, ?_, ?_, ?_, ?_, ?_⟩
  all_goals first
    | (intro h; rw [h]; simp; try omega)
    | skip
  · intro h
    split <;> omega
  · split <;> omega
  · split <;> omega

/-- Claim C9 at a random source that always returns 7, after 3 and after 9 failures. -/
theorem getRetryInterval_schedule_witness :
    (0 : Int) ≤ (fun _ => 7) 60 ∧ (fun _ => (7 : Int)) 60 < 60
      ∧ (failedTracker 3).getRetryInterval (fun _ => 7) = 900 + 7
      ∧ (failedTracker 9).getRetryInterval (fun _ => 7) = 7200 + 7 :=
  ⟨by decide, by decide,
    (getRetryInterval_schedule (fun _ => 7) (failedTracker 3) (by decide) (by decide)).2.2.2.1 rfl,
    (getRetryInterval_schedule (fun _ => 7) (failedTracker 9) (by decide)
      (by decide)).2.2.2.2.2.2.1 (by decide)⟩

/-- The rounding loop ends at the next multiple of 10. -/
theorem roundUpLoop_eq (ret : Int) : tr_tier.roundUpLoop ret = ret + (-ret) % 10 := by
  induction ret using tr_tier.roundUpLoop.induct with
  | case1 ret h ih =>
    rw [tr_tier.roundUpLoop, if_pos h, ih]
    have h2 : ret % 10 ≠ 0 := by
      intro h0
      exact h (Int.tmod_eq_zero_of_dvd (Int.dvd_of_emod_eq_zero h0))
    omega
  | case2 ret h =>
    rw [tr_tier.roundUpLoop, if_neg h]
    have h1 : ret.tmod 10 = 0 := not_not.mp h
    have h2 : ret % 10 = 0 := Int.emod_eq_zero_of_dvd (Int.dvd_of_tmod_eq_zero h1)
    omega

/-- Claim C10. When the tier is running or the session scrapes paused torrents, the
`scrapeAt` set by `scheduleNextScrape(interval)` is the smallest multiple of 10 that is
`≥ now + interval`: it is a multiple of 10, lies in `[now + interval, now + interval + 9]`,
and no multiple of 10 from `now + interval` on is smaller. This holds for `now + interval`
of either sign, so in particular for `now + interval ≥ 0`; the rounding loop
`roundUpLoop` is a total function. -/
theorem scheduleNextScrape_rounds_up (now interval : Int) (session : tr_session) (tier : tr_tier)
    (hrun : tier.isRunning = true ∨ session.scrapePausedTorrents = true) :
    (10 : Int) ∣ (tier.scheduleNextScrape now session interval).scrapeAt
      ∧ now + interval ≤ (tier.scheduleNextScrape now session interval).scrapeAt
      ∧ (tier.scheduleNextScrape now session interval).scrapeAt ≤ now + interval + 9
      ∧ ∀ m : Int, (10 : Int) ∣ m → now + interval ≤ m →
          (tier.scheduleNextScrape now session interval).scrapeAt ≤ m := by
  have hs : (tier.scheduleNextScrape now session interval).scrapeAt
      = (now + interval) + (-(now + interval)) % 10 := by
    simp only [tr_tier.scheduleNextScrape, tr_tier.getNextScrapeTime]
    rw [if_neg, roundUpLoop_eq]
    rcases hrun with h | h <;> simp [h]
  rw [hs]
  refine ⟨?_, ?_, ?_, ?_⟩
  · omega
  · omega
  · omega
  · intro m hm hle
    omega

/-- Claim C10 at `now = 1003`, `interval = 1800` on a paused tier of a session that
scrapes paused torrents: the next multiple of 10 from 2803 on is 2810. -/
theorem scheduleNextScrape_rounds_up_witness :
    (freshTier.isRunning = true ∨ ({ } : tr_session).scrapePausedTorrents = true)
      ∧ (10 : Int) ∣ (freshTier.scheduleNextScrape 1003 { } 1800).scrapeAt
      ∧ (1003 : Int) + 1800 ≤ (freshTier.scheduleNextScrape 1003 { } 1800).scrapeAt
      ∧ (freshTier.scheduleNextScrape 1003 { } 1800).scrapeAt ≤ 1003 + 1800 + 9 :=
  ⟨Or.inr rfl,
    (scheduleNextScrape_rounds_up 1003 1800 { } freshTier (Or.inr rfl)).1,
    (scheduleNextScrape_rounds_up 1003 1800 { } freshTier (Or.inr rfl)).2.1,
    (scheduleNextScrape_rounds_up 1003 1800 { } freshTier (Or.inr rfl)).2.2.1⟩

/-! ## Announcer: announce responses, reachable tiers, tier order and the stops set -/

@[simp] theorem tier_announce_event_push_byteCounts (tier : tr_tier) (e : tr_announce_event)
    (announceAt : Int) :
    (tier_announce_event_push tier e announceAt).byteCounts = tier.byteCounts := by
  unfold tier_announce_event_push
  dsimp only
  split_ifs <;> rfl

@[simp] theorem tier_announce_event_push_isRunning (tier : tr_tier) (e : tr_announce_event)
    (announceAt : Int) :
    (tier_announce_event_push tier e announceAt).isRunning = tier.isRunning := by
  unfold tier_announce_event_push
  dsimp only
  split_ifs <;> rfl

@[simp] theorem tier_announce_event_push_announceIntervalSec (tier : tr_tier)
    (e : tr_announce_event) (announceAt : Int) :
    (tier_announce_event_push tier e announceAt).announceIntervalSec
      = tier.announceIntervalSec := by
  unfold tier_announce_event_push
  dsimp only
  split_ifs <;> rfl

@[simp] theorem tier_announce_event_push_announceAt (tier : tr_tier) (e : tr_announce_event)
    (announceAt : Int) :
    (tier_announce_event_push tier e announceAt).announceAt = announceAt := rfl

theorem setCurrentTracker_fields (tier : tr_tier) (tracker : tr_tracker) :
    (tier.setCurrentTracker tracker).byteCounts = tier.byteCounts
      ∧ (tier.setCurrentTracker tracker).announce_events = tier.announce_events
      ∧ (tier.setCurrentTracker tracker).announceAt = tier.announceAt
      ∧ (tier.setCurrentTracker tracker).announceIntervalSec = tier.announceIntervalSec
      ∧ (tier.setCurrentTracker tracker).isRunning = tier.isRunning
      ∧ (tier.setCurrentTracker tracker).trackers.length = tier.trackers.length
      ∧ (tier.setCurrentTracker tracker).current_tracker_index_ = tier.current_tracker_index_
      ∧ (tier.setCurrentTracker tracker).tor = tier.tor := by
  unfold tr_tier.setCurrentTracker
  split <;> simp

/-- After `useNextTracker()` a tier with trackers has a current tracker. -/
theorem useNextTracker_currentTracker (tier : tr_tier) (h : tier.trackers ≠ []) :
    ∃ tracker : tr_tracker, tier.useNextTracker.currentTracker = some tracker := by
  have hlen : 0 < tier.trackers.length := List.length_pos.mpr h
  unfold tr_tier.useNextTracker tr_tier.currentTracker
  simp only [h, if_false]
  split
  · rename_i heq
    split at heq <;> simp at heq
  · rename_i i heq
    have hi : i < tier.trackers.length := by
      split at heq
      · simp only [Option.some.injEq] at heq; omega
      · rename_i j _
        simp only [Option.some.injEq] at heq
        rw [← heq]
        exact Nat.mod_lt _ hlen
    exact ⟨tier.trackers[i], by simp [hi]⟩

theorem useNextTracker_fields (tier : tr_tier) :
    tier.useNextTracker.byteCounts = tier.byteCounts
      ∧ tier.useNextTracker.announce_events = tier.announce_events
      ∧ tier.useNextTracker.announceAt = tier.announceAt
      ∧ tier.useNextTracker.announceIntervalSec = DefaultAnnounceIntervalSec
      ∧ tier.useNextTracker.isRunning = tier.isRunning
      ∧ tier.useNextTracker.trackers = tier.trackers :=
  ⟨rfl, rfl, rfl, rfl, rfl, rfl⟩

theorem countFailure_fields (tier : tr_tier) :
    tier.countFailure.byteCounts = tier.byteCounts
      ∧ tier.countFailure.isRunning = tier.isRunning
      ∧ tier.countFailure.trackers.length = tier.trackers.length := by
  unfold tr_tier.countFailure
  split
  · rename_i cur _
    have hf := setCurrentTracker_fields tier
      { cur with consecutive_failures := cur.consecutive_failures + 1 }
    exact ⟨hf.1, hf.2.2.2.2.1, hf.2.2.2.2.2.1⟩
  · exact ⟨rfl, rfl, rfl⟩

/-- What `on_announce_error` leaves of a tier with trackers: it returns, keeps the byte
counters, and pushes the event at `now` plus the retry interval of the next tracker. -/
theorem on_announce_error_spec (rng : Int → Int) (now : Int) (tier : tr_tier) (err : String)
    (e : tr_announce_event) (h : tier.trackers ≠ []) :
    ∃ (tier' : tr_tier) (tracker : tr_tracker), on_announce_error rng now tier err e = some tier'
      ∧ tier'.byteCounts = tier.byteCounts
      ∧ tier'.isRunning = tier.isRunning
      ∧ tier'.announceIntervalSec = DefaultAnnounceIntervalSec
      ∧ tier'.announceAt = now + tracker.getRetryInterval rng := by
  have hf := countFailure_fields tier
  have hne : ({ tier.countFailure with last_announce_str := err } : tr_tier).trackers ≠ [] := by
    intro h0
    apply h
    have h1 : tier.countFailure.trackers = [] := h0
    have h2 := hf.2.2
    rw [h1] at h2
    exact List.length_eq_zero.mp h2.symm
  obtain ⟨tracker, ht⟩ := useNextTracker_currentTracker _ hne
  unfold on_announce_error
  simp only [ht]
  refine ⟨_, tracker, rfl, ?_, ?_, ?_, ?_⟩
  · rw [tier_announce_event_push_byteCounts]; exact hf.1
  · rw [tier_announce_event_push_isRunning]; exact hf.2.1
  · rw [tier_announce_event_push_announceIntervalSec]; rfl
  · rfl

theorem announce_success_counts_fields (tier : tr_tier) (response : tr_announce_response) :
    (announce_success_counts tier response).1.byteCounts = tier.byteCounts
      ∧ (announce_success_counts tier response).1.announce_events = tier.announce_events
      ∧ (announce_success_counts tier response).1.announceAt = tier.announceAt
      ∧ (announce_success_counts tier response).1.announceIntervalSec = tier.announceIntervalSec := by
  unfold announce_success_counts
  split
  · exact ⟨rfl, rfl, rfl, rfl⟩
  · have hf := setCurrentTracker_fields tier
    exact ⟨(hf _).1, (hf _).2.1, (hf _).2.2.1, (hf _).2.2.2.1⟩

theorem announce_success_intervals_fields (tier : tr_tier) (response : tr_announce_response)
    (data : announce_data) :
    (announce_success_intervals tier response data).byteCounts = tier.byteCounts
      ∧ (announce_success_intervals tier response data).announce_events = tier.announce_events
      ∧ (announce_success_intervals tier response data).announceAt = tier.announceAt
      ∧ (announce_success_intervals tier response data).announceIntervalSec
          = (if response.interval ≠ 0 then response.interval else tier.announceIntervalSec)
      ∧ (announce_success_intervals tier response data).isRunning = data.is_running_on_success := by
  unfold announce_success_intervals
  dsimp only
  split_ifs <;> exact ⟨rfl, rfl, rfl, rfl, rfl⟩

theorem announce_success_scrape_fields (now : Int) (session : tr_session) (tier : tr_tier)
    (scrape_fields : Int) :
    (announce_success_scrape now session tier scrape_fields).byteCounts = tier.byteCounts
      ∧ (announce_success_scrape now session tier scrape_fields).announce_events
          = tier.announce_events
      ∧ (announce_success_scrape now session tier scrape_fields).announceAt = tier.announceAt
      ∧ (announce_success_scrape now session tier scrape_fields).announceIntervalSec
          = tier.announceIntervalSec
      ∧ (announce_success_scrape now session tier scrape_fields).isRunning = tier.isRunning := by
  unfold announce_success_scrape
  dsimp only
  split_ifs <;> exact ⟨rfl, rfl, rfl, rfl, rfl⟩

theorem announce_success_finish_stopped (now : Int) (tier : tr_tier)
    (response : tr_announce_response) (data : announce_data) (hstop : data.event = .STOPPED) :
    (announce_success_finish now tier response data).byteCounts = (0, 0, 0)
      ∧ (announce_success_finish now tier response data).announce_events = tier.announce_events := by
  unfold announce_success_finish
  simp [hstop]

/-- The four outcomes of `on_announce_done`, one equation each. -/
theorem on_announce_done_cases (rng : Int → Int) (now : Int) (session : tr_session)
    (tier : tr_tier) (response : tr_announce_response) (data : announce_data) :
    (response.did_connect = false →
        on_announce_done rng now session tier response data
          = (on_announce_error rng now (announce_response_received now tier response)
              "Could not connect to tracker" data.event).map (fun t => (t, [])))
      ∧ (response.did_connect = true → response.did_timeout = true →
        on_announce_done rng now session tier response data
          = (on_announce_error rng now (announce_response_received now tier response)
              "Tracker did not respond" data.event).map (fun t => (t, [])))
      ∧ (response.did_connect = true → response.did_timeout = false → response.errmsg ≠ "" →
        on_announce_done rng now session tier response data
          = (on_announce_error rng now (announce_response_received now tier response)
              response.errmsg data.event).map
              (fun t => (t, if tier.tor.trackerCount < 2
                then [PublishCall.publishError response.errmsg] else [])))
      ∧ (response.did_connect = true → response.did_timeout = false → response.errmsg = "" →
        on_announce_done rng now session tier response data
          = some (on_announce_done_success now session
              (announce_response_received now tier response) response data)) := by
  refine ⟨?_, ?_, ?_, ?_⟩
  · intro hc
    unfold on_announce_done
    simp [hc]
  · intro hc ht
    unfold on_announce_done
    simp [hc, ht]
  · intro hc ht he
    unfold on_announce_done
    simp only [hc, ht, he, Bool.not_true, Bool.false_eq_true, if_false, ne_eq,
      not_false_eq_true, if_true]
    rfl
  · intro hc ht he
    unfold on_announce_done
    simp [hc, ht, he]

/-- Claim C11. A response that connected, did not time out and carries no error message,
for an announced event `Stopped`: `on_announce_done` returns, the tier's up, down and
corrupt counters are all 0 and the event queue is as before, so no periodic `None` is
enqueued. A response that failed (no connect, timeout or error message), on a tier with at
least one tracker: `on_announce_done` returns and the byte counters are unchanged. -/
theorem on_announce_done_byte_counts (tr_rand_int_weak : Int → Int) (now : Int)
    (session : tr_session) (tier : tr_tier) (response : tr_announce_response)
    (data : announce_data) :
    (response.did_connect = true → response.did_timeout = false → response.errmsg = "" →
        data.event = .STOPPED →
        ∃ (tier' : tr_tier) (log : List PublishCall),
          on_announce_done tr_rand_int_weak now session tier response data = some (tier', log)
            ∧ tier'.byteCounts = (0, 0, 0)
            ∧ tier'.announce_events = tier.announce_events)
      ∧ ((response.did_connect = false ∨ response.did_timeout = true ∨ response.errmsg ≠ "") →
          tier.trackers ≠ [] →
          ∃ (tier' : tr_tier) (log : List PublishCall),
            on_announce_done tr_rand_int_weak now session tier response data = some (tier', log)
              ∧ tier'.byteCounts = tier.byteCounts) := by
  obtain ⟨hcase1, hcase2, hcase3, hcase4⟩ :=
    on_announce_done_cases tr_rand_int_weak now session tier response data
  constructor
  · intro hc ht he hstop
    refine ⟨(on_announce_done_success now session
        (announce_response_received now tier response) response data).1,
      (on_announce_done_success now session
        (announce_response_received now tier response) response data).2,
      hcase4 hc ht he, ?_, ?_⟩
    · unfold on_announce_done_success
      dsimp only
      exact (announce_success_finish_stopped now _ response data hstop).1
    · unfold on_announce_done_success
      dsimp only
      rw [(announce_success_finish_stopped now _ response data hstop).2,
        (announce_success_scrape_fields now session _ _).2.1,
        (announce_success_intervals_fields _ response data).2.1,
        (announce_success_counts_fields _ response).2.1]
      rfl
  · intro hfail hne
    have herr : ∀ err : String, ∃ t : tr_tier,
        on_announce_error tr_rand_int_weak now (announce_response_received now tier response)
          err data.event = some t ∧ t.byteCounts = tier.byteCounts := by
      intro err
      obtain ⟨t, _, h1, hb, _⟩ := on_announce_error_spec tr_rand_int_weak now
        (announce_response_received now tier response) err data.event hne
      exact ⟨t, h1, hb⟩
    by_cases hc : response.did_connect = true
    · by_cases ht : response.did_timeout = true
      · obtain ⟨t, h1, hb⟩ := herr "Tracker did not respond"
        exact ⟨t, _, by rw [hcase2 hc ht, h1]; rfl, hb⟩
      · have he : response.errmsg ≠ "" := by
          rcases hfail with h | h | h
          · rw [hc] at h; cases h
          · exact absurd h ht
          · exact h
        obtain ⟨t, h1, hb⟩ := herr response.errmsg
        exact ⟨t, _, by rw [hcase3 hc (Bool.not_eq_true _ ▸ ht) he, h1]; rfl, hb⟩
    · obtain ⟨t, h1, hb⟩ := herr "Could not connect to tracker"
      exact ⟨t, _, by rw [hcase1 (Bool.not_eq_true _ ▸ hc), h1]; rfl, hb⟩

/-- Claim C12 as stated fails. A successful response that carries peers invokes both
`publishPeersPex` and `publishPeerCounts`, two of the three operations; a response of a
tracker that could not be reached invokes none of them. -/
theorem on_announce_done_publish_count :
    (on_announce_done (fun _ => 7) 200 { } loadedTier peersResponse { }).map
        (fun r => (r.2.filter PublishCall.isResponseData).length) = some 2
      ∧ (on_announce_done (fun _ => 7) 200 { } loadedTier noConnectResponse { }).map
        (fun r => (r.2.filter PublishCall.isResponseData).length) = some 0 := by
  constructor
  · rw [(on_announce_done_cases (fun _ => 7) 200 { } loadedTier peersResponse { }).2.2.2
      rfl rfl rfl]
    decide
  · rw [(on_announce_done_cases (fun _ => 7) 200 { } loadedTier noConnectResponse { }).1 rfl]
    obtain ⟨t, _, h1, _⟩ := on_announce_error_spec (fun _ => 7) 200
      (announce_response_received 200 loadedTier noConnectResponse)
      "Could not connect to tracker" ({ } : announce_data).event (by decide)
    rw [h1]
    rfl

theorem announce_success_log_filter (response : tr_announce_response) (seeders leechers : Int) :
    (announce_success_log response seeders leechers).filter PublishCall.isResponseData
      = (if response.pex ≠ [] then [PublishCall.publishPeersPex seeders leechers response.pex]
          else [])
        ++ (if response.pex6 ≠ [] then [PublishCall.publishPeersPex seeders leechers response.pex6]
          else [])
        ++ [PublishCall.publishPeerCounts seeders leechers] := by
  unfold announce_success_log
  simp only [List.filter_append]
  split_ifs <;> simp [List.filter, PublishCall.isResponseData]

/-- The locals `seeders` and `leechers` of the success branch when they are published:
the response's count where the tier has a current tracker and the count is not negative,
0 otherwise. -/
theorem announce_success_counts_published (now : Int) (tier : tr_tier)
    (response : tr_announce_response) :
    (announce_success_counts (announce_response_received now tier response) response).2.1
        = (if tier.currentTracker.isSome = true ∧ response.seeders ≥ 0 then response.seeders
            else 0)
      ∧ (announce_success_counts (announce_response_received now tier response) response).2.2.1
        = (if tier.currentTracker.isSome = true ∧ response.leechers ≥ 0 then response.leechers
            else 0) := by
  have hcur : (announce_response_received now tier response).currentTracker
      = tier.currentTracker := rfl
  unfold announce_success_counts
  rw [hcur]
  cases tier.currentTracker with
  | none => simp
  | some tracker => simp [announce_success_tracker]

/-- Claim C12, amended. A successful response invokes `publishPeerCounts` exactly once,
with the response's `seeders` and `leechers` (0 in place of a negative count, and 0 for
both on a tier without a current tracker), after one `publishPeersPex` with the same two
counts and the response's peer list for each non-empty list among `pex` and `pex6`, and
never `publishError`. On a tier with a tracker, a response with an error message invokes
`publishError` with the response's message exactly when the torrent has fewer than 2
trackers, and neither of the other two; a response that did not connect or timed out
invokes no publish operation at all. -/
theorem on_announce_done_publishes (tr_rand_int_weak : Int → Int) (now : Int)
    (session : tr_session) (tier : tr_tier) (response : tr_announce_response)
    (data : announce_data) :
    (response.did_connect = true → response.did_timeout = false → response.errmsg = "" →
        ∃ (tier' : tr_tier) (log : List PublishCall),
          on_announce_done tr_rand_int_weak now session tier response data = some (tier', log)
            ∧ log.filter PublishCall.isResponseData
              = (if response.pex ≠ []
                  then [PublishCall.publishPeersPex
                    (if tier.currentTracker.isSome = true ∧ response.seeders ≥ 0
                      then response.seeders else 0)
                    (if tier.currentTracker.isSome = true ∧ response.leechers ≥ 0
                      then response.leechers else 0)
                    response.pex]
                  else [])
                ++ (if response.pex6 ≠ []
                  then [PublishCall.publishPeersPex
                    (if tier.currentTracker.isSome = true ∧ response.seeders ≥ 0
                      then response.seeders else 0)
                    (if tier.currentTracker.isSome = true ∧ response.leechers ≥ 0
                      then response.leechers else 0)
                    response.pex6]
                  else [])
                ++ [PublishCall.publishPeerCounts
                    (if tier.currentTracker.isSome = true ∧ response.seeders ≥ 0
                      then response.seeders else 0)
                    (if tier.currentTracker.isSome = true ∧ response.leechers ≥ 0
                      then response.leechers else 0)])
      ∧ (response.did_connect = true → response.did_timeout = false → response.errmsg ≠ "" →
          tier.trackers ≠ [] →
          ∃ tier' : tr_tier,
            on_announce_done tr_rand_int_weak now session tier response data
              = some (tier', if tier.tor.trackerCount < 2
                  then [PublishCall.publishError response.errmsg] else []))
      ∧ ((response.did_connect = false ∨ response.did_timeout = true) →
          tier.trackers ≠ [] →
          ∃ tier' : tr_tier,
            on_announce_done tr_rand_int_weak now session tier response data
              = some (tier', [])) := by
  obtain ⟨hcase1, hcase2, hcase3, hcase4⟩ :=
    on_announce_done_cases tr_rand_int_weak now session tier response data
  have herr : tier.trackers ≠ [] → ∀ err : String, ∃ t : tr_tier,
      on_announce_error tr_rand_int_weak now (announce_response_received now tier response)
        err data.event = some t := by
    intro hne err
    obtain ⟨t, _, h1, _⟩ := on_announce_error_spec tr_rand_int_weak now
      (announce_response_received now tier response) err data.event hne
    exact ⟨t, h1⟩
  refine ⟨?_, ?_, ?_⟩
  · intro hc ht he
    refine ⟨(on_announce_done_success now session
        (announce_response_received now tier response) response data).1,
      (on_announce_done_success now session
        (announce_response_received now tier response) response data).2,
      hcase4 hc ht he, ?_⟩
    rw [← (announce_success_counts_published now tier response).1,
      ← (announce_success_counts_published now tier response).2]
    exact announce_success_log_filter response _ _
  · intro hc ht he hne
    obtain ⟨t, h1⟩ := herr hne response.errmsg
    exact ⟨t, by rw [hcase3 hc ht he, h1]; rfl⟩
  · intro hfail hne
    by_cases hc : response.did_connect = true
    · have ht : response.did_timeout = true := by
        rcases hfail with h | h
        · rw [hc] at h; cases h
        · exact h
      obtain ⟨t, h1⟩ := herr hne "Tracker did not respond"
      exact ⟨t, by rw [hcase2 hc ht, h1]; rfl⟩
    · obtain ⟨t, h1⟩ := herr hne "Could not connect to tracker"
      exact ⟨t, by rw [hcase1 (Bool.not_eq_true _ ▸ hc), h1]; rfl⟩

theorem getRetryInterval_nonneg (rng : Int → Int) (tracker : tr_tracker) (h : 0 ≤ rng 60) :
    0 ≤ tracker.getRetryInterval rng := by
  unfold tr_tracker.getRetryInterval
  split <;> omega

theorem countFailure_isRunning (tier : tr_tier) :
    tier.countFailure.isRunning = tier.isRunning := by
  unfold tr_tier.countFailure tr_tier.setCurrentTracker
  split
  · split <;> rfl
  · rfl

/-- What a returning `on_announce_error` leaves: the event pushed at `now` plus a retry
interval, the running flag as before, the default announce interval. -/
theorem on_announce_error_of_some (rng : Int → Int) (now : Int) (tier tier' : tr_tier)
    (err : String) (e : tr_announce_event)
    (h : on_announce_error rng now tier err e = some tier') :
    ∃ tracker : tr_tracker, tier'.announceAt = now + tracker.getRetryInterval rng
      ∧ tier'.isRunning = tier.isRunning
      ∧ tier'.announceIntervalSec = DefaultAnnounceIntervalSec := by
  unfold on_announce_error at h
  split at h
  · cases h
  · rename_i tracker _
    simp only [Option.some.injEq] at h
    subst h
    refine ⟨tracker, rfl, ?_, ?_⟩
    · rw [tier_announce_event_push_isRunning]
      exact countFailure_isRunning tier
    · rw [tier_announce_event_push_announceIntervalSec]; rfl

theorem tierAnnounce_fields (now : Int) (tier tier' : tr_tier) (req : tr_announce_request)
    (data : announce_data) (h : tierAnnounce now tier = some (tier', req, data)) :
    tier'.announceAt = tier.announceAt ∧ tier'.isRunning = tier.isRunning
      ∧ tier'.announceIntervalSec = tier.announceIntervalSec := by
  unfold tierAnnounce at h
  dsimp only at h
  split at h
  · cases h
  · rename_i t ev hpull
    split at h
    · cases h
    · simp only [Option.some.injEq, Prod.mk.injEq] at h
      obtain ⟨h1, _, _⟩ := h
      subst h1
      unfold tier_announce_event_pull at hpull
      split at hpull
      · cases hpull
      · simp only [Option.some.injEq, Prod.mk.injEq] at hpull
        obtain ⟨h2, _⟩ := hpull
        subst h2
        exact ⟨rfl, rfl, rfl⟩

theorem needsToAnnounce_announceAt (tier : tr_tier) (now : Int)
    (h : tier.needsToAnnounce now = true) : tier.announceAt ≠ 0 := by
  unfold tr_tier.needsToAnnounce at h
  simp only [Bool.and_eq_true, decide_eq_true_eq] at h
  exact h.1.1.2

theorem announce_success_finish_fields (now : Int) (tier : tr_tier)
    (response : tr_announce_response) (data : announce_data) :
    (announce_success_finish now tier response data).isRunning = tier.isRunning
      ∧ (announce_success_finish now tier response data).announceIntervalSec
          = tier.announceIntervalSec
      ∧ ((announce_success_finish now tier response data).announceAt = tier.announceAt
        ∨ (announce_success_finish now tier response data).announceAt
            = now + tier.announceIntervalSec) := by
  unfold announce_success_finish
  dsimp only
  split_ifs <;> simp

theorem on_announce_done_inv (rng : Int → Int) (hrng : 0 ≤ rng 60) (now : Int)
    (session : tr_session) (tier tier' : tr_tier) (response : tr_announce_response)
    (data : announce_data) (log : List PublishCall)
    (hnow : 0 < now) (hint : 0 ≤ response.interval)
    (hat : tier.announceAt ≠ 0) (hival : 0 ≤ tier.announceIntervalSec)
    (h : on_announce_done rng now session tier response data = some (tier', log)) :
    tier'.announceAt ≠ 0 ∧ 0 ≤ tier'.announceIntervalSec := by
  obtain ⟨hcase1, hcase2, hcase3, hcase4⟩ :=
    on_announce_done_cases rng now session tier response data
  have herr : ∀ (err : String) (f : tr_tier → tr_tier × List PublishCall),
      (on_announce_error rng now (announce_response_received now tier response) err
        data.event).map f = some (tier', log) → (∀ t, (f t).1 = t) →
      tier'.announceAt ≠ 0 ∧ 0 ≤ tier'.announceIntervalSec := by
    intro err f hmap hf
    rw [Option.map_eq_some'] at hmap
    obtain ⟨t, ht, hft⟩ := hmap
    have h1 : tier' = t := by
      have := hf t
      rw [hft] at this
      exact this
    subst h1
    obtain ⟨tracker, hat', _, hiv'⟩ := on_announce_error_of_some rng now _ _ err data.event ht
    have := getRetryInterval_nonneg rng tracker hrng
    rw [hat', hiv']
    constructor
    · omega
    · decide
  by_cases hc : response.did_connect = true
  · by_cases ht : response.did_timeout = true
    · rw [hcase2 hc ht] at h
      exact herr _ _ h (fun _ => rfl)
    · have ht' : response.did_timeout = false := Bool.not_eq_true _ ▸ ht
      by_cases he : response.errmsg = ""
      · rw [hcase4 hc ht' he] at h
        simp only [Option.some.injEq] at h
        have h1 : tier' = (on_announce_done_success now session
            (announce_response_received now tier response) response data).1 := by rw [h]
        subst h1
        unfold on_announce_done_success
        dsimp only
        obtain ⟨_, hiv, hat'⟩ := announce_success_finish_fields now
          (announce_success_scrape now session
            (announce_success_intervals
              (announce_success_counts (announce_response_received now tier response)
                response).1 response data)
            (announce_success_counts (announce_response_received now tier response)
              response).2.2.2) response data
        have hs := announce_success_scrape_fields now session
          (announce_success_intervals
            (announce_success_counts (announce_response_received now tier response)
              response).1 response data)
          (announce_success_counts (announce_response_received now tier response)
            response).2.2.2
        have hi := announce_success_intervals_fields
          (announce_success_counts (announce_response_received now tier response) response).1
          response data
        have hcn := announce_success_counts_fields
          (announce_response_received now tier response) response
        have hiv0 : 0 ≤ (announce_success_scrape now session
            (announce_success_intervals
              (announce_success_counts (announce_response_received now tier response)
                response).1 response data)
            (announce_success_counts (announce_response_received now tier response)
              response).2.2.2).announceIntervalSec := by
          rw [hs.2.2.2.1, hi.2.2.2.1]
          split_ifs
          · exact hint
          · rw [hcn.2.2.2]; exact hival
        rw [hiv]
        refine ⟨?_, hiv0⟩
        rcases hat' with h2 | h2
        · rw [h2, hs.2.2.1, hi.2.2.1, hcn.2.2.1]
          exact hat
        · rw [h2]
          omega
      · rw [hcase3 hc ht' he] at h
        exact herr _ _ h (fun _ => rfl)
  · rw [hcase1 (Bool.not_eq_true _ ▸ hc)] at h
    exact herr _ _ h (fun _ => rfl)

theorem tierReachable_inv (rng : Int → Int) (hrng : 0 ≤ rng 60) (session : tr_session)
    (tier : tr_tier) (pending : Nat) (responses : List tr_announce_response)
    (h : TierReachable rng session tier pending responses)
    (hint : ∀ response ∈ responses, 0 ≤ response.interval) :
    TierInv tier pending := by
  induction h with
  | build now tor id trackers =>
    refine ⟨?_, ?_⟩
    · intro h
      rcases h with h | h
      · cases h
      · omega
    · show (0 : Int) ≤ DefaultAnnounceIntervalSec
      decide
  | push tier pending responses e announceAt _ hne ih =>
    refine ⟨fun _ => ?_, ?_⟩
    · rw [tier_announce_event_push_announceAt]; exact hne
    · rw [tier_announce_event_push_announceIntervalSec]; exact (ih hint).2
  | announce tier pending responses now tier' req data _ hneeds hann ih =>
    obtain ⟨h1, h2, h3⟩ := tierAnnounce_fields now tier tier' req data hann
    refine ⟨fun _ => ?_, ?_⟩
    · rw [h1]; exact needsToAnnounce_announceAt tier now hneeds
    · rw [h3]; exact (ih hint).2
  | done tier pending responses now response data tier' log _ hnow hdone ih =>
    have ih := ih (fun r hr => hint r (List.mem_cons_of_mem _ hr))
    have := on_announce_done_inv rng hrng now session tier tier' response data log hnow
      (hint response (List.mem_cons_self _ _)) (ih.1 (Or.inr (Nat.succ_pos _))) ih.2 hdone
    exact ⟨fun _ => this.1, this.2⟩
  | error tier pending responses now err e tier' _ hnow herr ih =>
    obtain ⟨tracker, hat', _, hiv'⟩ := on_announce_error_of_some rng now _ _ err e herr
    have := getRetryInterval_nonneg rng tracker hrng
    refine ⟨fun _ => ?_, ?_⟩
    · rw [hat']; omega
    · rw [hiv']; decide
  | nextTracker tier pending responses _ ih =>
    exact ⟨(ih hint).1, show (0 : Int) ≤ DefaultAnnounceIntervalSec by decide⟩

/-- Along every run of the announcer's steps in which each handled tracker response has a
non-negative `interval`, a tier with `isRunning = true` has `announceAt ≠ 0` or
`isAnnouncing = true`. -/
theorem tier_running_has_announce_time (tr_rand_int_weak : Int → Int)
    (hrng : 0 ≤ tr_rand_int_weak 60) (session : tr_session) (tier : tr_tier) (pending : Nat)
    (responses : List tr_announce_response)
    (hreach : TierReachable tr_rand_int_weak session tier pending responses)
    (hint : ∀ response ∈ responses, 0 ≤ response.interval)
    (hrun : tier.isRunning = true) :
    tier.announceAt ≠ 0 ∨ tier.isAnnouncing = true :=
  Or.inl ((tierReachable_inv tr_rand_int_weak hrng session tier pending responses hreach
    hint).1 (Or.inl hrun))

/-- A tier with a queued event and a current tracker announces, with the front event and
the torrent's running flag in the callback data. -/
theorem tierAnnounce_of_queue (now : Int) (tier : tr_tier) (e : tr_announce_event)
    (rest : List tr_announce_event) (tracker : tr_tracker)
    (hq : tier.announce_events = e :: rest) (hc : tier.currentTracker = some tracker) :
    ∃ (tier' : tr_tier) (req : tr_announce_request),
      tierAnnounce now tier = some (tier', req,
        { tier_id := tier.id, time_sent := now, event := e,
          is_running_on_success := tier.tor.isRunning })
        ∧ tier'.announce_events = rest ∧ tier'.announceIntervalSec = tier.announceIntervalSec := by
  have hpull : tier_announce_event_pull tier
      = some (tier_update_announce_priority { tier with announce_events := rest }, e) := by
    unfold tier_announce_event_pull
    rw [hq]
  have hc' : (tier_update_announce_priority { tier with announce_events := rest }).currentTracker
      = some tracker := hc
  unfold tierAnnounce announce_request_new
  simp only [hpull, hc']
  exact ⟨_, _, rfl, rfl, rfl⟩

theorem tier_running_has_announce_time_witness :
    (0 : Int) ≤ (fun _ => 7) 60
      ∧ ∃ (tier : tr_tier) (pending : Nat),
          TierReachable (fun _ => 7) { } tier pending [peersResponse] ∧ tier.isRunning = true
            ∧ (tier.announceAt ≠ 0 ∨ tier.isAnnouncing = true) := by
  refine ⟨by decide, ?_⟩
  have hq : startedTier.announce_events = [.STARTED] := rfl
  have hc : startedTier.currentTracker = some (swarmTracker 0 0) := rfl
  obtain ⟨t2, req, hann, _, _⟩ := tierAnnounce_of_queue 100 startedTier .STARTED [] _ hq hc
  have hneeds : startedTier.needsToAnnounce 100 = true := by decide
  have hr1 : TierReachable (fun _ => 7) { } startedTier 0 [] :=
    TierReachable.push _ _ _ _ _ (TierReachable.build 100 runningTorrent 0 [swarmTracker 0 0])
      (by decide)
  have hr2 := TierReachable.announce _ _ _ _ _ _ _ hr1 hneeds hann
  have hdone := (on_announce_done_cases (fun _ => 7) 101 { } t2 peersResponse
    startedData).2.2.2 rfl rfl rfl
  have hr3 := TierReachable.done _ _ _ 101 peersResponse _ _ _ hr2 (by decide) hdone
  have hrun : (on_announce_done_success 101 { } (announce_response_received 101 t2 peersResponse)
      peersResponse startedData).1.isRunning = true := by
    unfold on_announce_done_success
    dsimp only
    rw [(announce_success_finish_fields _ _ _ _).1, (announce_success_scrape_fields _ _ _ _).2.2.2.2,
      (announce_success_intervals_fields _ _ _).2.2.2.2]
    rfl
  exact ⟨_, _, hr3, hrun,
    tier_running_has_announce_time (fun _ => 7) (by decide) { } _ _ _ hr3
      (by intro r hr; rw [List.mem_singleton] at hr; subst hr; decide) hrun⟩

theorem tier_announce_event_push_isAnnouncing (tier : tr_tier) (e : tr_announce_event)
    (announceAt : Int) :
    (tier_announce_event_push tier e announceAt).isAnnouncing = tier.isAnnouncing := by
  unfold tier_announce_event_push
  dsimp only
  split_ifs <;> rfl

/-- The success branch leaves `isAnnouncing` as `on_announce_done` has just set it. -/
theorem on_announce_done_success_isAnnouncing (now : Int) (session : tr_session)
    (tier : tr_tier) (response : tr_announce_response) (data : announce_data) :
    (on_announce_done_success now session (announce_response_received now tier response)
      response data).1.isAnnouncing = false := by
  have hcounts : ∀ t : tr_tier,
      (announce_success_counts t response).1.isAnnouncing = t.isAnnouncing := by
    intro t
    unfold announce_success_counts tr_tier.setCurrentTracker
    split
    · rfl
    · dsimp only
      split <;> rfl
  have hivs : ∀ t : tr_tier,
      (announce_success_intervals t response data).isAnnouncing = t.isAnnouncing := by
    intro t
    unfold announce_success_intervals
    dsimp only
    split_ifs <;> rfl
  have hscrape : ∀ (t : tr_tier) (n : Int),
      (announce_success_scrape now session t n).isAnnouncing = t.isAnnouncing := by
    intro t n
    unfold announce_success_scrape
    dsimp only
    split_ifs <;> rfl
  have hfinish : ∀ t : tr_tier,
      (announce_success_finish now t response data).isAnnouncing = t.isAnnouncing := by
    intro t
    unfold announce_success_finish
    dsimp only
    split_ifs <;> simp only [tier_announce_event_push_isAnnouncing]
  unfold on_announce_done_success
  dsimp only
  rw [hfinish, hscrape, hivs, hcounts]
  rfl

/-- Claim C13, evaluated on the code. A freshly built tier with `Started` pushed at time
100 announces at clock 100; the tracker's successful response, handled at clock 101,
carries `interval = -101`. `on_announce_done` stores the interval, finds the queue empty
and pushes `None` at `now + i = 0`: the tier is reachable through the announcer's steps
and has `isRunning = true`, `announceAt = 0` and `isAnnouncing = false`. -/
theorem tier_running_without_announce_time :
    ∃ (t1 t2 : tr_tier) (req : tr_announce_request) (data : announce_data)
        (log : List PublishCall),
      tierAnnounce 100 startedTier = some (t1, req, data)
        ∧ on_announce_done (fun _ => 7) 101 { } t1 negativeIntervalResponse data
            = some (t2, log)
        ∧ TierReachable (fun _ => 7) { } t2 0 [negativeIntervalResponse]
        ∧ t2.isRunning = true ∧ t2.announceAt = 0 ∧ t2.isAnnouncing = false
        ∧ ¬ (t2.announceAt ≠ 0 ∨ t2.isAnnouncing = true) := by
  have hq : startedTier.announce_events = [.STARTED] := rfl
  have hc : startedTier.currentTracker = some (swarmTracker 0 0) := rfl
  obtain ⟨t1, req, hann, hq1, _⟩ :=
    tierAnnounce_of_queue 100 startedTier .STARTED [] _ hq hc
  have hneeds : startedTier.needsToAnnounce 100 = true := by decide
  have hr1 : TierReachable (fun _ => 7) { } startedTier 0 [] :=
    TierReachable.push _ _ _ _ _ (TierReachable.build 100 runningTorrent 0 [swarmTracker 0 0])
      (by decide)
  have hr2 := TierReachable.announce _ _ _ _ _ _ _ hr1 hneeds hann
  have hdone := (on_announce_done_cases (fun _ => 7) 101 { } t1 negativeIntervalResponse
    startedData).2.2.2 rfl rfl rfl
  have hr3 := TierReachable.done _ _ _ 101 negativeIntervalResponse _ _ _ hr2 (by decide) hdone
  generalize hmid : announce_success_scrape 101 ({ } : tr_session)
      (announce_success_intervals
        (announce_success_counts (announce_response_received 101 t1 negativeIntervalResponse)
          negativeIntervalResponse).1 negativeIntervalResponse startedData)
      (announce_success_counts (announce_response_received 101 t1 negativeIntervalResponse)
        negativeIntervalResponse).2.2.2 = mid
  have hmq : mid.announce_events = [] := by
    rw [← hmid, (announce_success_scrape_fields _ _ _ _).2.1,
      (announce_success_intervals_fields _ _ _).2.1, (announce_success_counts_fields _ _).2.1]
    exact hq1
  have hmi : mid.announceIntervalSec = -101 := by
    rw [← hmid, (announce_success_scrape_fields _ _ _ _).2.2.2.1,
      (announce_success_intervals_fields _ _ _).2.2.2.1]
    rfl
  have hmr : mid.isRunning = true := by
    rw [← hmid, (announce_success_scrape_fields _ _ _ _).2.2.2.2,
      (announce_success_intervals_fields _ _ _).2.2.2.2]
    rfl
  have hfin : (on_announce_done_success 101 { }
      (announce_response_received 101 t1 negativeIntervalResponse)
      negativeIntervalResponse startedData).1
      = announce_success_finish 101 mid negativeIntervalResponse startedData := by
    rw [← hmid]; rfl
  have hpush : announce_success_finish 101 mid negativeIntervalResponse startedData
      = tier_announce_event_push
          { mid with lastAnnounceSucceeded := true, lastAnnouncePeerCount := 0 } .NONE 0 := by
    unfold announce_success_finish
    simp [startedData, hmq, hmi, negativeIntervalResponse]
  have hat : (on_announce_done_success 101 { }
      (announce_response_received 101 t1 negativeIntervalResponse)
      negativeIntervalResponse startedData).1.announceAt = 0 := by
    rw [hfin, hpush, tier_announce_event_push_announceAt]
  have hisann := on_announce_done_success_isAnnouncing 101 { } t1 negativeIntervalResponse
    startedData
  refine ⟨t1, (on_announce_done_success 101 { }
      (announce_response_received 101 t1 negativeIntervalResponse)
      negativeIntervalResponse startedData).1, req, _, (on_announce_done_success 101 { }
      (announce_response_received 101 t1 negativeIntervalResponse)
      negativeIntervalResponse startedData).2, hann, hdone, hr3, ?_, hat, hisann, ?_⟩
  · rw [hfin, hpush, tier_announce_event_push_isRunning]
    exact hmr
  · rw [hat, hisann]
    simp

/-- Claim C14 as stated fails: the second key is not the current tracker's
`leecher_count`. With equal priorities, tier `a` on a tracker with 5 leechers and 0
downloaders precedes tier `b` with 3 leechers and 10 downloaders in the order on
`leecher_count`, yet `compareAnnounceTiers(a, b)` is 1. -/
theorem compareAnnounceTiers_not_by_leechers :
    compareAnnounceTiers (swarmTier 5 0) 1 (swarmTier 3 10) 2 = 1
      ∧ ¬ (compareAnnounceTiers (swarmTier 5 0) 1 (swarmTier 3 10) 2 < 0
            ↔ announceTierBefore tr_tier.leecherCount (swarmTier 5 0) 1 (swarmTier 3 10) 2) := by
  decide

/-- Claim C14, amended. `compareAnnounceTiers(a, b)` is negative exactly when `a` precedes
`b` in the lexicographic order on (announce event priority descending, `countDownloaders()`
descending, torrent is-done ascending, up+down descending, announceAt ascending), the tier
address deciding only when all five keys are equal; `countDownloaders()` is the current
tracker's `downloader_count + leecher_count`, 0 without a current tracker. -/
theorem compareAnnounceTiers_lexicographic (a : tr_tier) (addr_a : Nat) (b : tr_tier)
    (addr_b : Nat) :
    compareAnnounceTiers a addr_a b addr_b < 0
      ↔ announceTierBefore tr_tier.countDownloaders a addr_a b addr_b := by
  unfold compareAnnounceTiers announceTierBefore
  by_cases h1 : a.announce_event_priority = b.announce_event_priority
  · by_cases h2 : a.countDownloaders = b.countDownloaders
    · by_cases h3 : a.tor.isDone = b.tor.isDone
      · by_cases h4 : u64_add a.up a.down = u64_add b.up b.down
        · by_cases h5 : a.announceAt = b.announceAt
          · simp only [h1, h2, h3, h4, h5, ne_eq, not_true_eq_false, if_false, gt_iff_lt,
              lt_self_iff_false, false_or, true_and, and_true]
            split_ifs with h6 <;> simp [h6]
          · simp only [h1, h2, h3, h4, h5, ne_eq, not_true_eq_false, if_false, gt_iff_lt,
              lt_self_iff_false, false_or, true_and, not_false_eq_true, if_true, false_and,
              or_false]
            have : ¬ (b.tor.isDone = false ∧ b.tor.isDone = true) := by
              cases b.tor.isDone <;> simp
            split_ifs with h6 <;> simp [h6, this]
        · simp only [h1, h2, h3, h4, ne_eq, not_true_eq_false, if_false, gt_iff_lt,
            lt_self_iff_false, false_or, true_and, not_false_eq_true, if_true, false_and,
            or_false]
          have : ¬ (b.tor.isDone = false ∧ b.tor.isDone = true) := by
            cases b.tor.isDone <;> simp
          split_ifs with h6 <;> simp [h6, this]
      · simp only [h1, h2, h3, ne_eq, not_true_eq_false, if_false, gt_iff_lt,
          lt_self_iff_false, false_or, true_and, not_false_eq_true, if_true, false_and,
          or_false]
        cases ha : a.tor.isDone <;> cases hb : b.tor.isDone <;> simp_all
    · simp only [h1, h2, ne_eq, not_true_eq_false, if_false, gt_iff_lt,
        lt_self_iff_false, false_or, true_and, not_false_eq_true, if_true, false_and,
        or_false]
      split_ifs with h6 <;> simp [h6]
  · simp only [h1, ne_eq, not_false_eq_true, if_true, false_and, or_false, gt_iff_lt]
    split_ifs with h6 <;> simp [h6]

theorem StopsCompare_less_volume (a b : tr_announce_request) (h : StopsCompare.less a b = true) :
    u64_add a.up a.down ≤ u64_add b.up b.down := by
  unfold StopsCompare.less StopsCompare.compare at h
  simp only [decide_eq_true_eq] at h
  by_contra hgt
  have h1 : ¬ (u64_add a.up a.down < u64_add b.up b.down) := by omega
  have h2 : u64_add a.up a.down > u64_add b.up b.down := by omega
  simp [h1, h2] at h

theorem StopsCompare_not_less_volume (a b : tr_announce_request)
    (h : StopsCompare.less a b = false) :
    u64_add b.up b.down ≤ u64_add a.up a.down := by
  unfold StopsCompare.less StopsCompare.compare at h
  simp only [decide_eq_false_iff_not, not_lt] at h
  by_contra hgt
  have h1 : u64_add a.up a.down < u64_add b.up b.down := by omega
  simp [h1] at h

/-- The `stops` set stays sorted by ascending transfer volume under `insert`. -/
theorem stops_insert_sorted (req : tr_announce_request) (stops : List tr_announce_request)
    (h : stops.Sorted (fun a b => u64_add a.up a.down ≤ u64_add b.up b.down)) :
    (stops_insert req stops).Sorted (fun a b => u64_add a.up a.down ≤ u64_add b.up b.down)
      ∧ ∀ x ∈ stops_insert req stops, x = req ∨ x ∈ stops := by
  induction stops with
  | nil => simp [stops_insert]
  | cons stop rest ih =>
    rw [List.sorted_cons] at h
    obtain ⟨ih1, ih2⟩ := ih h.2
    unfold stops_insert
    by_cases hl : StopsCompare.less req stop = true
    · simp only [hl, if_true]
      refine ⟨?_, ?_⟩
      · rw [List.sorted_cons]
        refine ⟨?_, List.sorted_cons.mpr h⟩
        intro x hx
        have hrs := StopsCompare_less_volume req stop hl
        rcases List.mem_cons.mp hx with hx | hx
        · subst hx; exact hrs
        · exact le_trans hrs (h.1 x hx)
      · intro x hx
        rcases List.mem_cons.mp hx with hx | hx
        · exact Or.inl hx
        · exact Or.inr hx
    · have hl' : StopsCompare.less req stop = false := Bool.not_eq_true _ ▸ hl
      simp only [hl', Bool.false_eq_true, if_false]
      by_cases hg : StopsCompare.less stop req = true
      · simp only [hg, if_true]
        refine ⟨?_, ?_⟩
        · rw [List.sorted_cons]
          refine ⟨?_, ih1⟩
          intro x hx
          rcases ih2 x hx with hx | hx
          · subst hx; exact StopsCompare_less_volume stop x hg
          · exact h.1 x hx
        · intro x hx
          rcases List.mem_cons.mp hx with hx | hx
          · exact Or.inr (hx ▸ List.mem_cons_self _ _)
          · rcases ih2 x hx with hx | hx
            · exact Or.inl hx
            · exact Or.inr (List.mem_cons_of_mem _ hx)
      · simp only [hg, if_false]
        exact ⟨List.sorted_cons.mpr h, fun x hx => Or.inr hx⟩

/-- Claim C15, on the code. Whatever requests are inserted into `stops`,
`flushCloseMessages` hands them over in order of non-decreasing up+down, smallest transfer
volume first: of the requests with 10 and with 1000 bytes, the one with 10 goes first. -/
theorem flushCloseMessages_ascending (scrape_info : String → Option tr_scrape_info)
    (reqs : List tr_announce_request) :
    (flushCloseMessages { stops := reqs.foldr stops_insert [], scrape_info := scrape_info }).2.Sorted
        (fun a b => u64_add a.up a.down ≤ u64_add b.up b.down)
      ∧ (flushCloseMessages
          { stops := stops_insert (stoppedRequest 1 1000) (stops_insert (stoppedRequest 2 10) []),
            scrape_info := scrape_info }).2 = [stoppedRequest 2 10, stoppedRequest 1 1000] := by
  constructor
  · show (reqs.foldr stops_insert []).Sorted _
    induction reqs with
    | nil => simp
    | cons r rs ih => exact (stops_insert_sorted r _ ih).1
  · show stops_insert (stoppedRequest 1 1000) (stops_insert (stoppedRequest 2 10) []) = _
    decide

/-! ## NAT-PMP: the mapping sequence and the spacing of commands -/

/-- The first pulse of an enabled mapper fresh from `tr_natpmpInit`, when the send
succeeds: the public-address request is sent and the state is `RecvPub`. -/
theorem natpmp_first_pulse (t1 : Int) (p : Nat) (io1 : NatpmpResults)
    (h1 : 0 ≤ io1.sendpublicaddressrequest) :
    (tr_natpmpPulse t1 tr_natpmpInit p true io1).1
      = { nat := { tr_natpmpInit with
                   state := .TR_NATPMP_RECV_PUB, has_discovered := true,
                   command_time := t1 + 8 }
          sent := [.sendpublicaddressrequest]
          visited := [.TR_NATPMP_RECV_PUB] } := by
  have hneg : ¬ io1.sendpublicaddressrequest < 0 := by omega
  have hgate : ¬ (t1 + 8 ≤ t1) := by omega
  simp [tr_natpmpPulse, pulse_discover, pulse_recv_pub, pulse_want_unmap, pulse_send_unmap,
    pulse_recv_unmap, pulse_idle, pulse_send_map, pulse_recv_map, tr_natpmpInit,
    NatpmpPulse.setState, setCommandTime, canSendCommand, CommandWaitSecs, hneg, hgate]

/-- The second pulse, at least 8 seconds later, when the read, the send and the second
read succeed: the mapping request is sent and answered within the pulse. -/
theorem natpmp_second_pulse (t1 t2 : Int) (p : Nat) (io2 : NatpmpResults)
    (hgap : t1 + 8 ≤ t2)
    (h2 : 0 ≤ io2.read_public) (h3 : 0 ≤ io2.send_map) (h4 : 0 ≤ io2.read_map) :
    (tr_natpmpPulse t2 (awaitingPublicAddress t1) p true io2).1
      = { nat := { has_discovered := true
                   is_mapped := true
                   public_port := io2.map_response.mappedpublicport
                   private_port := io2.map_response.privateport
                   renew_time := t2 + (io2.map_response.lifetime / 2 : Nat)
                   command_time := t2 + 8
                   state := .TR_NATPMP_IDLE }
          sent := [.sendnewportmappingrequest p p LifetimeSecs]
          visited := [.TR_NATPMP_IDLE, .TR_NATPMP_SEND_MAP, .TR_NATPMP_RECV_MAP,
            .TR_NATPMP_IDLE] } := by
  have hn3 : ¬ io2.send_map < 0 := by omega
  have hgate2 : ¬ (t2 + 8 ≤ t2) := by omega
  simp [tr_natpmpPulse, pulse_discover, pulse_recv_pub, pulse_want_unmap, pulse_send_unmap,
    pulse_recv_unmap, pulse_idle, pulse_send_map, pulse_recv_map, awaitingPublicAddress,
    NatpmpPulse.setState, setCommandTime, canSendCommand, CommandWaitSecs, hgap, h2, h4, hn3,
    hgate2]

/-- The returned status is the final `switch` on the state the pulse ends in. -/
theorem tr_natpmpPulse_status (now : Int) (nat : tr_natpmp) (p : Nat) (en : Bool)
    (io : NatpmpResults) (q : NatpmpPulse) (h : (tr_natpmpPulse now nat p en io).1 = q) :
    (tr_natpmpPulse now nat p en io).2 = pulse_status q.nat := by
  subst h; simp only [tr_natpmpPulse]

/-- Claim C16. From `tr_natpmpInit`, two pulses with `is_enabled = true` at clocks at least
8 seconds apart, every send succeeding and every read answering: the state goes
`Discover`, `RecvPub` in the first pulse, which returns `TR_PORT_MAPPING`, then `Idle`,
`SendMap`, `RecvMap`, `Idle` in the second, which returns `TR_PORT_MAPPED` with
`is_mapped = true`, the ports of the mapping response and
`renew_time = now + lifetime / 2`. -/
theorem natpmp_happy_path (t1 t2 : Int) (p : Nat) (io1 io2 : NatpmpResults)
    (hgap : t1 + 8 ≤ t2)
    (h1 : 0 ≤ io1.sendpublicaddressrequest)
    (h2 : 0 ≤ io2.read_public) (h3 : 0 ≤ io2.send_map) (h4 : 0 ≤ io2.read_map) :
    tr_natpmpInit.state = .TR_NATPMP_DISCOVER
      ∧ (tr_natpmpPulse t1 tr_natpmpInit p true io1).1.visited = [.TR_NATPMP_RECV_PUB]
      ∧ (tr_natpmpPulse t1 tr_natpmpInit p true io1).2 = .TR_PORT_MAPPING
      ∧ (tr_natpmpPulse t2 (tr_natpmpPulse t1 tr_natpmpInit p true io1).1.nat p true io2).1.visited
          = [.TR_NATPMP_IDLE, .TR_NATPMP_SEND_MAP, .TR_NATPMP_RECV_MAP, .TR_NATPMP_IDLE]
      ∧ (tr_natpmpPulse t2 (tr_natpmpPulse t1 tr_natpmpInit p true io1).1.nat p true io2).2
          = .TR_PORT_MAPPED
      ∧ (tr_natpmpPulse t2 (tr_natpmpPulse t1 tr_natpmpInit p true io1).1.nat p true io2).1.nat
          = { has_discovered := true
              is_mapped := true
              public_port := io2.map_response.mappedpublicport
              private_port := io2.map_response.privateport
              renew_time := t2 + (io2.map_response.lifetime / 2 : Nat)
              command_time := t2 + 8
              state := .TR_NATPMP_IDLE } := by
  have hfirst := natpmp_first_pulse t1 p io1 h1
  have hnat : (tr_natpmpPulse t1 tr_natpmpInit p true io1).1.nat = awaitingPublicAddress t1 :=
    congrArg NatpmpPulse.nat hfirst
  have hsecond := natpmp_second_pulse t1 t2 p io2 hgap h2 h3 h4
  rw [← hnat] at hsecond
  exact ⟨rfl, congrArg NatpmpPulse.visited hfirst,
    tr_natpmpPulse_status _ _ _ _ _ _ hfirst,
    congrArg NatpmpPulse.visited hsecond,
    tr_natpmpPulse_status _ _ _ _ _ _ hsecond,
    congrArg NatpmpPulse.nat hsecond⟩

theorem natpmp_happy_path_witness :
    (100 : Int) + 8 ≤ 108
      ∧ (tr_natpmpPulse 108
            (tr_natpmpPulse 100 tr_natpmpInit 51413 true (routerAccepts 51413 51413 3600)).1.nat
            51413 true (routerAccepts 51413 51413 3600)).2 = .TR_PORT_MAPPED
      ∧ (tr_natpmpPulse 108
            (tr_natpmpPulse 100 tr_natpmpInit 51413 true (routerAccepts 51413 51413 3600)).1.nat
            51413 true (routerAccepts 51413 51413 3600)).1.nat
          = { has_discovered := true
              is_mapped := true
              public_port := 51413
              private_port := 51413
              renew_time := 1908
              command_time := 116
              state := .TR_NATPMP_IDLE } :=
  ⟨by decide,
    (natpmp_happy_path 100 108 51413 (routerAccepts 51413 51413 3600)
      (routerAccepts 51413 51413 3600) (by decide) (by decide) (by decide) (by decide)
      (by decide)).2.2.2.2.1,
    (natpmp_happy_path 100 108 51413 (routerAccepts 51413 51413 3600)
      (routerAccepts 51413 51413 3600) (by decide) (by decide) (by decide) (by decide)
      (by decide)).2.2.2.2.2⟩

theorem PulseInv_mono (now : Int) (nat0 : tr_natpmp) (p q : NatpmpPulse)
    (h : PulseInv now nat0 p) (hsent : q.sent = p.sent)
    (hct : q.nat.command_time = p.nat.command_time)
    (hst : p.nat.state ≠ .TR_NATPMP_DISCOVER → q.nat.state ≠ .TR_NATPMP_DISCOVER) :
    PulseInv now nat0 q := by
  rcases h with ⟨h1, h2, h3⟩ | ⟨c, h1, h2, h3, h4⟩
  · exact Or.inl ⟨hsent.trans h1, hct.trans h2, fun h0 => hst (h3 h0)⟩
  · exact Or.inr ⟨c, hsent.trans h1, hct.trans h2, hst h3, h4⟩

theorem PulseInv_setState (now : Int) (nat0 : tr_natpmp) (p : NatpmpPulse)
    (s : tr_natpmp_state) (h : PulseInv now nat0 p) (hs : s ≠ .TR_NATPMP_DISCOVER) :
    PulseInv now nat0 (p.setState s) :=
  PulseInv_mono now nat0 p _ h rfl rfl (fun _ => hs)

theorem PulseInv_send (now : Int) (nat0 : tr_natpmp) (p q : NatpmpPulse) (c : NatpmpCommand)
    (h : PulseInv now nat0 p) (hgate : canSendCommand now p.nat = true)
    (hsent : q.sent = p.sent ++ [c]) (hct : q.nat.command_time = now + 8)
    (hst : q.nat.state ≠ .TR_NATPMP_DISCOVER) :
    PulseInv now nat0 q := by
  have hg : p.nat.command_time ≤ now := by simpa [canSendCommand] using hgate
  rcases h with ⟨h1, h2, _⟩ | ⟨c0, _, h2, _, _⟩
  · refine Or.inr ⟨c, ?_, hct, hst, fun _ => ?_⟩
    · rw [hsent, h1]; rfl
    · rw [← h2]; exact hg
  · omega

theorem idle_ne_discover : tr_natpmp_state.TR_NATPMP_IDLE ≠ .TR_NATPMP_DISCOVER := by decide

theorem errOr_ne_discover (b : Prop) [Decidable b] (s : tr_natpmp_state)
    (hs : s ≠ .TR_NATPMP_DISCOVER) :
    (if b then tr_natpmp_state.TR_NATPMP_ERR else s) ≠ .TR_NATPMP_DISCOVER := by
  split
  · decide
  · exact hs

theorem pulse_discover_inv (now : Int) (en : Bool) (io : NatpmpResults) (nat0 : tr_natpmp) :
    PulseInv now nat0 (pulse_discover now en io { nat := nat0 }) := by
  unfold pulse_discover
  split
  · next hc =>
    refine Or.inr ⟨.sendpublicaddressrequest, rfl, rfl, ?_, fun h0 => absurd hc.2 h0⟩
    exact errOr_ne_discover _ _ (by decide)
  · exact Or.inl ⟨rfl, rfl, fun h0 => h0⟩

theorem pulse_recv_pub_inv (now : Int) (io : NatpmpResults) (nat0 : tr_natpmp)
    (p : NatpmpPulse) (h : PulseInv now nat0 p) :
    PulseInv now nat0 (pulse_recv_pub now io p) := by
  unfold pulse_recv_pub
  dsimp only
  split_ifs
  · exact PulseInv_setState _ _ _ _ h (by decide)
  · exact PulseInv_setState _ _ _ _ h (by decide)
  · exact h
  · exact h

theorem pulse_want_unmap_inv (now : Int) (pp : Nat) (en : Bool) (nat0 : tr_natpmp)
    (p : NatpmpPulse) (h : PulseInv now nat0 p) :
    PulseInv now nat0 (pulse_want_unmap pp en p) := by
  unfold pulse_want_unmap
  split_ifs
  · exact PulseInv_setState _ _ _ _ h (by decide)
  · exact h

theorem pulse_send_unmap_inv (now : Int) (io : NatpmpResults) (nat0 : tr_natpmp)
    (p : NatpmpPulse) (h : PulseInv now nat0 p) :
    PulseInv now nat0 (pulse_send_unmap now io p) := by
  unfold pulse_send_unmap
  split
  · next hc =>
    exact PulseInv_send now nat0 p _ _ h hc.2 rfl rfl (errOr_ne_discover _ _ (by decide))
  · exact h

theorem pulse_recv_unmap_inv (now : Int) (io : NatpmpResults) (nat0 : tr_natpmp)
    (p : NatpmpPulse) (h : PulseInv now nat0 p) :
    PulseInv now nat0 (pulse_recv_unmap io p) := by
  unfold pulse_recv_unmap
  dsimp only
  split_ifs
  · exact PulseInv_mono now nat0 p _ h rfl rfl (fun _ => idle_ne_discover)
  · exact h
  · exact PulseInv_setState _ _ _ _ h (by decide)
  · exact h
  · exact h

theorem pulse_idle_inv (now : Int) (en : Bool) (nat0 : tr_natpmp)
    (p : NatpmpPulse) (h : PulseInv now nat0 p) :
    PulseInv now nat0 (pulse_idle now en p) := by
  unfold pulse_idle
  split_ifs
  · exact PulseInv_setState _ _ _ _ h (by decide)
  · exact PulseInv_setState _ _ _ _ h (by decide)
  · exact h
  · exact h

theorem pulse_send_map_inv (now : Int) (pp : Nat) (io : NatpmpResults) (nat0 : tr_natpmp)
    (p : NatpmpPulse) (h : PulseInv now nat0 p) :
    PulseInv now nat0 (pulse_send_map now pp io p) := by
  unfold pulse_send_map
  split
  · next hc =>
    exact PulseInv_send now nat0 p _ _ h hc.2 rfl rfl (errOr_ne_discover _ _ (by decide))
  · exact h

theorem pulse_recv_map_inv (now : Int) (io : NatpmpResults) (nat0 : tr_natpmp)
    (p : NatpmpPulse) (h : PulseInv now nat0 p) :
    PulseInv now nat0 (pulse_recv_map now io p) := by
  unfold pulse_recv_map
  dsimp only
  split_ifs
  · exact PulseInv_mono now nat0 p _ h rfl rfl (fun _ => idle_ne_discover)
  · exact PulseInv_setState _ _ _ _ h (by decide)
  · exact h
  · exact h

/-- One pulse keeps `PulseInv`. -/
theorem tr_natpmpPulse_inv (now : Int) (nat : tr_natpmp) (pp : Nat) (en : Bool)
    (io : NatpmpResults) : PulseInv now nat (tr_natpmpPulse now nat pp en io).1 := by
  simp only [tr_natpmpPulse]
  exact pulse_recv_map_inv _ _ _ _ (pulse_send_map_inv _ _ _ _ _ (pulse_idle_inv _ _ _ _
    (pulse_recv_unmap_inv now _ _ _ (pulse_send_unmap_inv _ _ _ _ (pulse_want_unmap_inv now _ _ _ _
      (pulse_recv_pub_inv _ _ _ _ (pulse_discover_inv now en io nat)))))))

/-- The commands of a series of pulses: those of the first pulse, then those of the
rest. -/
theorem natpmpCommands_cons (nat : tr_natpmp) (i : PulseInput) (rest : List PulseInput) :
    natpmpCommands nat (i :: rest)
      = (tr_natpmpPulse i.now nat i.private_port i.is_enabled i.io).1.sent.map
          (fun c => (i.now, c))
        ++ natpmpCommands (tr_natpmpPulse i.now nat i.private_port i.is_enabled i.io).1.nat
            rest := by
  simp only [natpmpCommands]

/-- After a command sent at clock `s` the mapper has left `Discover` and
`command_time` is at least `s + 8`: every later command is sent at `s + 8` or later. -/
theorem natpmpCommands_after (ins : List PulseInput) :
    ∀ (nat : tr_natpmp) (s : Int) (c : NatpmpCommand),
      nat.state ≠ .TR_NATPMP_DISCOVER → s + 8 ≤ nat.command_time →
      List.Chain (fun a b => a.1 + 8 ≤ b.1) (s, c) (natpmpCommands nat ins) := by
  induction ins with
  | nil => intro nat s c _ _; exact List.Chain.nil
  | cons i rest ih =>
    intro nat s c hst hct
    have hinv := tr_natpmpPulse_inv i.now nat i.private_port i.is_enabled i.io
    rw [natpmpCommands_cons]
    rcases hinv with ⟨h1, h2, h3⟩ | ⟨c1, h1, h2, h3, h4⟩
    · rw [h1]
      exact ih _ s c (h3 hst) (by rw [h2]; exact hct)
    · rw [h1]
      refine List.Chain.cons ?_ (ih _ i.now c1 h3 (by rw [h2]))
      have := h4 hst
      show s + 8 ≤ i.now
      omega

/-- Claim C17. For every `tr_natpmp` and every series of pulses on it, whatever the
arguments, the answers of libnatpmp and the clocks: any two successive router commands
are sent at clocks at least `CommandWaitSecs` = 8 seconds apart, and a pulse sends at most
one command. -/
theorem natpmp_commands_spaced (nat : tr_natpmp) (ins : List PulseInput) :
    List.Chain' (fun a b => a.1 + CommandWaitSecs ≤ b.1) (natpmpCommands nat ins)
      ∧ ∀ (now : Int) (n : tr_natpmp) (pp : Nat) (en : Bool) (io : NatpmpResults),
          (tr_natpmpPulse now n pp en io).1.sent.length ≤ 1 := by
  constructor
  · induction ins generalizing nat with
    | nil => exact List.chain'_nil
    | cons i rest ih =>
      have hinv := tr_natpmpPulse_inv i.now nat i.private_port i.is_enabled i.io
      rw [natpmpCommands_cons]
      generalize (tr_natpmpPulse i.now nat i.private_port i.is_enabled i.io).1 = q at hinv ⊢
      rcases hinv with ⟨h1, _h2, _h3⟩ | ⟨c1, h1, h2, h3, _h4⟩
      · rw [h1, List.map_nil, List.nil_append]
        exact ih _
      · rw [h1, List.map_cons, List.map_nil, List.singleton_append]
        exact natpmpCommands_after rest _ i.now c1 h3 (by rw [h2])
  · intro now n pp en io
    have hinv := tr_natpmpPulse_inv now n pp en io
    generalize (tr_natpmpPulse now n pp en io).1 = q at hinv ⊢
    rcases hinv with ⟨h1, _h2, _h3⟩ | ⟨c1, h1, _h2, _h3, _h4⟩
    · rw [h1]; exact Nat.zero_le 1
    · rw [h1]; exact Nat.le_refl 1

/-! ## RPC server: session id and login attempts -/

/-- A location that starts with "rpc" is neither empty nor "web" nor under "web/". -/
theorem location_rpc_not_web (loc : String) (h : tr_strvStartsWith loc "rpc" = true) :
    ¬ (loc = "" ∨ loc = "web") ∧ tr_strvStartsWith loc "web/" = false := by
  have hrpc : "rpc".data = ['r', 'p', 'c'] := rfl
  have hweb : "web/".data = ['w', 'e', 'b', '/'] := rfl
  have hweb2 : "web".data = ['w', 'e', 'b'] := rfl
  have hemp : "".data = [] := rfl
  rcases loc with ⟨l⟩
  unfold tr_strvStartsWith at h ⊢
  rw [hrpc] at h
  rw [hweb]
  rcases l with _ | ⟨a, l⟩
  · simp at h
  · simp only [List.isPrefixOf, Bool.and_eq_true, beq_iff_eq] at h
    obtain ⟨ha, -⟩ := h
    subst ha
    refine ⟨?_, ?_⟩
    · rintro (h | h)
      · have h2 := congrArg String.data h
        rw [hemp] at h2
        exact List.cons_ne_nil _ _ h2
      · have h2 := congrArg String.data h
        rw [hweb2] at h2
        exact absurd (List.cons.inj h2).1 (by decide)
    · simp [List.isPrefixOf]

/-- The request reaches the routing part: a live connection, no brute-force lock, an
allowed address, a method other than OPTIONS and a passed authentication. -/
theorem handle_request_routed (lib : RpcLib) (server : tr_rpc_server) (req : evhttp_request)
    (hcon : req.has_evcon = true)
    (hbrute : ¬ (server.isAntiBruteForceEnabled = true
      ∧ server.loginattempts ≥ server.antiBruteForceThreshold))
    (haddr : isAddressAllowed lib server req.remote_host = true)
    (hopt : req.type ≠ .EVHTTP_REQ_OPTIONS)
    (hauth : isAuthorized lib server
      (lib.evhttp_find_header req.input_headers "Authorization") = true) :
    handle_request lib server (some req)
      = handle_request_route lib { server with loginattempts := 0 } req
          { server := { server with loginattempts := 0 }
            output_headers := [("Server", MY_REALM), ("Access-Control-Allow-Origin", "*")] } := by
  simp only [handle_request, hcon, hbrute, haddr, hopt, hauth]
  rfl

/-- Claim C18. A non-OPTIONS request on a live connection that passes the brute-force,
address, authentication and host checks and whose location starts with "rpc": when its
`X-Transmission-Session-Id` header is absent or differs from the current session id,
`handle_request` answers 409, the output headers carry `X-Transmission-Session-Id` with
the current id, and the RPC is not dispatched; when the header equals the current id the
request goes to `handle_rpc`. -/
theorem handle_request_session_id (lib : RpcLib) (server : tr_rpc_server)
    (req : evhttp_request)
    (hcon : req.has_evcon = true)
    (hbrute : ¬ (server.isAntiBruteForceEnabled = true
      ∧ server.loginattempts ≥ server.antiBruteForceThreshold))
    (haddr : isAddressAllowed lib server req.remote_host = true)
    (hopt : req.type ≠ .EVHTTP_REQ_OPTIONS)
    (hauth : isAuthorized lib server
      (lib.evhttp_find_header req.input_headers "Authorization") = true)
    (hhost : isHostnameAllowed lib server req = true)
    (hloc : tr_strvStartsWith (requestLocation server req) "rpc" = true) :
    (lib.evhttp_find_header req.input_headers TR_RPC_SESSION_ID_HEADER
          ≠ some (get_current_session_id server) →
        (handle_request lib server (some req)).action = .send_simple_response 409
          ∧ (handle_request lib server (some req)).action ≠ .handle_rpc
          ∧ (handle_request lib server (some req)).output_headers
              = [("Server", MY_REALM), ("Access-Control-Allow-Origin", "*"),
                 (TR_RPC_SESSION_ID_HEADER, get_current_session_id server),
                 ("Access-Control-Expose-Headers", TR_RPC_SESSION_ID_HEADER)])
      ∧ (lib.evhttp_find_header req.input_headers TR_RPC_SESSION_ID_HEADER
          = some (get_current_session_id server) →
        (handle_request lib server (some req)).action = .handle_rpc) := by
  have hl := location_rpc_not_web _ hloc
  have hloc2 : requestLocation { server with loginattempts := 0 } req
      = requestLocation server req := rfl
  have hhost2 : isHostnameAllowed lib { server with loginattempts := 0 } req = true := hhost
  have hid : get_current_session_id { server with loginattempts := 0 }
      = get_current_session_id server := rfl
  rw [handle_request_routed lib server req hcon hbrute haddr hopt hauth]
  unfold handle_request_route
  simp only [hloc2, if_neg hl.1, hl.2, hhost2, hloc, hid]
  constructor
  · intro hne
    have ht : test_session_id lib { server with loginattempts := 0 } req = false := by
      unfold test_session_id
      rw [hid]
      cases hf : lib.evhttp_find_header req.input_headers TR_RPC_SESSION_ID_HEADER with
      | none => rfl
      | some theirs =>
        have : theirs ≠ get_current_session_id server := fun h => hne (by rw [hf, h])
        simp [this]
    simp [ht]
  · intro he
    have ht : test_session_id lib { server with loginattempts := 0 } req = true := by
      unfold test_session_id
      rw [hid, he]
      simp
    simp [ht]

theorem handle_request_session_id_witness :
    (handle_request plainLib (guardedServer 0)
        (some (rpcPost [("Authorization", "Basic admin:secret")]))).action
        = .send_simple_response 409
      ∧ (handle_request plainLib (guardedServer 0)
          (some (rpcPost [("Authorization", "Basic admin:secret"),
            ("X-Transmission-Session-Id", "token-1")]))).action = .handle_rpc :=
  ⟨((handle_request_session_id plainLib (guardedServer 0)
      (rpcPost [("Authorization", "Basic admin:secret")])
      (by decide) (by decide) (by decide) (by decide) (by decide) (by decide) (by decide)).1
      (by decide)).1,
    (handle_request_session_id plainLib (guardedServer 0)
      (rpcPost [("Authorization", "Basic admin:secret"),
        ("X-Transmission-Session-Id", "token-1")])
      (by decide) (by decide) (by decide) (by decide) (by decide) (by decide) (by decide)).2
      (by decide)⟩

/-- Claim C19. With anti-brute-force enabled and a request on a live connection: once
`loginattempts` has reached the threshold the answer is 403 and the server is unchanged,
whatever the request; below the threshold, a request that comes to the authentication
check (allowed address, not OPTIONS) is answered 401 with `loginattempts` one higher
when `isAuthorized` fails, and leaves `loginattempts` at 0 when `isAuthorized` passes. -/
theorem handle_request_loginattempts (lib : RpcLib) (server : tr_rpc_server)
    (req : evhttp_request)
    (hon : server.isAntiBruteForceEnabled = true) (hcon : req.has_evcon = true) :
    (server.loginattempts ≥ server.antiBruteForceThreshold →
        (handle_request lib server (some req)).action = .send_simple_response 403
          ∧ (handle_request lib server (some req)).server = server)
      ∧ (server.loginattempts < server.antiBruteForceThreshold →
          isAddressAllowed lib server req.remote_host = true →
          req.type ≠ .EVHTTP_REQ_OPTIONS →
          (isAuthorized lib server
                (lib.evhttp_find_header req.input_headers "Authorization") = false →
              (handle_request lib server (some req)).action = .send_simple_response 401
                ∧ (handle_request lib server (some req)).server.loginattempts
                    = server.loginattempts + 1)
            ∧ (isAuthorized lib server
                (lib.evhttp_find_header req.input_headers "Authorization") = true →
              (handle_request lib server (some req)).server.loginattempts = 0)) := by
  constructor
  · intro hge
    simp [handle_request, hcon, hon, hge]
  · intro hlt haddr hopt
    have hbrute : ¬ (server.isAntiBruteForceEnabled = true
        ∧ server.loginattempts ≥ server.antiBruteForceThreshold) := fun h => by
      have := h.2
      omega
    constructor
    · intro hauth
      have hlt2 : ¬ server.antiBruteForceThreshold ≤ server.loginattempts := not_le.mpr hlt
      simp [handle_request, hcon, hlt2, haddr, hopt, hauth, hon]
    · intro hauth
      rw [handle_request_routed lib server req hcon hbrute haddr hopt hauth]
      unfold handle_request_route
      dsimp only
      split_ifs <;> rfl

theorem handle_request_loginattempts_witness :
    ((handle_request plainLib (guardedServer 3)
          (some (rpcPost [("Authorization", "Basic admin:secret")]))).action
          = .send_simple_response 403
        ∧ (handle_request plainLib (guardedServer 3)
          (some (rpcPost [("Authorization", "Basic admin:secret")]))).server = guardedServer 3)
      ∧ ((handle_request plainLib (guardedServer 2)
          (some (rpcPost [("Authorization", "Basic admin:wrong")]))).action
          = .send_simple_response 401
        ∧ (handle_request plainLib (guardedServer 2)
          (some (rpcPost [("Authorization", "Basic admin:wrong")]))).server.loginattempts
            = 2 + 1)
      ∧ (handle_request plainLib (guardedServer 2)
          (some (rpcPost [("Authorization", "Basic admin:secret")]))).server.loginattempts = 0 :=
  ⟨(handle_request_loginattempts plainLib (guardedServer 3)
      (rpcPost [("Authorization", "Basic admin:secret")]) (by decide) (by decide)).1 (by decide),
    ((handle_request_loginattempts plainLib (guardedServer 2)
      (rpcPost [("Authorization", "Basic admin:wrong")]) (by decide) (by decide)).2
        (by decide) (by decide) (by decide)).1 (by decide),
    ((handle_request_loginattempts plainLib (guardedServer 2)
      (rpcPost [("Authorization", "Basic admin:secret")]) (by decide) (by decide)).2
        (by decide) (by decide) (by decide)).2 (by decide)⟩

/-! ## Peer io: accounting of written bytes -/

/-- With nothing left to account for the loop stops at once. -/
theorem didWriteLoop_zero (ov : Nat → Nat) (hd : Bool) (fifo : List tr_datatype) :
    didWriteLoop ov hd 0 fifo = ([], fifo) := by
  cases fifo with
  | nil => rw [didWriteLoop]
  | cons next rest => rw [didWriteLoop]; simp

/-- A head segment no longer than the bytes written is accounted in full and pulled. -/
theorem didWriteLoop_pull (ov : Nat → Nat) (hd : Bool) (n : Nat) (next : tr_datatype)
    (rest : List tr_datatype) (hn : n ≠ 0) (hle : next.length ≤ n) :
    didWriteLoop ov hd n (next :: rest)
      = (didWriteStep ov hd next.length next.isPieceData
            ++ (didWriteLoop ov hd (n - next.length) rest).1,
          (didWriteLoop ov hd (n - next.length) rest).2) := by
  rw [didWriteLoop]
  have hmin : min next.length n = next.length := Nat.min_eq_left hle
  simp [hn, hmin]

/-- A head segment longer than the bytes written is shortened and stays. -/
theorem didWriteLoop_shorten (ov : Nat → Nat) (hd : Bool) (n : Nat) (next : tr_datatype)
    (rest : List tr_datatype) (hn : n ≠ 0) (hlt : n < next.length) :
    didWriteLoop ov hd n (next :: rest)
      = (didWriteStep ov hd n next.isPieceData,
          { next with length := next.length - n } :: rest) := by
  rw [didWriteLoop]
  have hmin : min next.length n = n := Nat.min_eq_right (Nat.le_of_lt hlt)
  have hne : ¬ next.length - n = 0 := by omega
  simp only [hn, hmin, hne, dite_false, dite_cond_eq_false, Nat.sub_self]
  rw [didWriteLoop_zero]
  simp

theorem didWriteCalls_append (xs ys : List IoCall) :
    didWriteCalls (xs ++ ys) = didWriteCalls xs ++ didWriteCalls ys := by
  induction xs with
  | nil => rfl
  | cons x xs ih => cases x <;> simp [didWriteCalls, ih]

theorem didWriteCalls_step (ov : Nat → Nat) (payload : Nat) (p : Bool) :
    didWriteCalls (didWriteStep ov true payload p) = [(payload, p)] := by
  unfold didWriteStep
  split <;> simp [didWriteCalls]

theorem fifoBytes_cons (d : tr_datatype) (fifo : List tr_datatype) :
    fifoBytes (d :: fifo) = d.length + fifoBytes fifo := by
  simp [fifoBytes]

theorem fifoBytes_append (xs ys : List tr_datatype) :
    fifoBytes (xs ++ ys) = fifoBytes xs + fifoBytes ys := by
  simp [fifoBytes]

/-- The loop on `n > 0` bytes, no more than the FIFO holds: the segments before the one
where the `n`-th byte falls are accounted in full, that one for the remainder. -/
theorem didWriteLoop_spec (ov : Nat → Nat) (fifo : List tr_datatype) :
    ∀ n : Nat, 0 < n → n ≤ fifoBytes fifo →
      ∃ (pre : List tr_datatype) (last : tr_datatype) (rest : List tr_datatype),
        fifo = pre ++ last :: rest ∧ fifoBytes pre < n ∧ n ≤ fifoBytes pre + last.length
          ∧ didWriteCalls (didWriteLoop ov true n fifo).1
              = pre.map (fun d => (d.length, d.isPieceData))
                ++ [(n - fifoBytes pre, last.isPieceData)]
          ∧ (didWriteLoop ov true n fifo).2
              = if n - fifoBytes pre = last.length then rest
                else { last with length := last.length - (n - fifoBytes pre) } :: rest := by
  induction fifo with
  | nil => intro n hpos hle; simp [fifoBytes] at hle; omega
  | cons next tail ih =>
    intro n hpos hle
    rw [fifoBytes_cons] at hle
    have hn : n ≠ 0 := by omega
    rcases Nat.lt_or_ge n next.length with hlt | hge
    · refine ⟨[], next, tail, rfl, by simpa [fifoBytes] using hpos, by simp [fifoBytes]; omega, ?_, ?_⟩
      · rw [didWriteLoop_shorten ov true n next tail hn hlt, didWriteCalls_step]
        simp [fifoBytes]
      · rw [didWriteLoop_shorten ov true n next tail hn hlt]
        have hne : ¬ n = next.length := by omega
        simp [fifoBytes, hne]
    · rcases Nat.eq_or_lt_of_le hge with heq | hgt
      · refine ⟨[], next, tail, rfl, by simpa [fifoBytes] using hpos, by simp [fifoBytes]; omega, ?_, ?_⟩
        · rw [didWriteLoop_pull ov true n next tail hn hge, didWriteCalls_append,
            didWriteCalls_step, ← heq, Nat.sub_self, didWriteLoop_zero]
          simp [fifoBytes, didWriteCalls]
        · rw [didWriteLoop_pull ov true n next tail hn hge, ← heq, Nat.sub_self,
            didWriteLoop_zero]
          simp [fifoBytes]
      · obtain ⟨pre, last, rest, hf, h1, h2, h3, h4⟩ :=
          ih (n - next.length) (by omega) (by omega)
        refine ⟨next :: pre, last, rest, by rw [hf]; rfl, ?_, ?_, ?_, ?_⟩
        · rw [fifoBytes_cons]; omega
        · rw [fifoBytes_cons]; omega
        · rw [didWriteLoop_pull ov true n next tail hn hge, didWriteCalls_append,
            didWriteCalls_step, h3, fifoBytes_cons]
          simp [Nat.sub_sub]
        · rw [didWriteLoop_pull ov true n next tail hn hge, h4, fifoBytes_cons]
          simp [Nat.sub_sub]

/-- Claim C20. For an io with `didWrite` set, a FIFO of segments and `n` bytes written,
`n` an `unsigned int` no larger than the total of the segment lengths: with `n = 0`
nothing is invoked and the FIFO is unchanged; with `n > 0` the FIFO splits as
`pre ++ last :: rest`, where `didWrite` is invoked once for each segment of `pre` with
its full length and flag and then once for `last` with the remaining
`n - fifoBytes pre` bytes (at least 0 left before it, at most its length) and its flag,
in that order; the amounts sum to `n`; afterwards `pre` is gone, `last` is gone too when
it was used up and otherwise stays with its length reduced by the remainder, and `rest`
is unchanged. -/
theorem didWriteWrapper_segments (guess : Nat → Nat) (io : tr_peerIo) (n : Nat)
    (hcb : io.hasDidWrite = true) (hn : n < 2 ^ 32)
    (hle : n ≤ fifoBytes io.outbuf_datatypes) :
    (n = 0 → didWriteCalls (didWriteWrapper guess io n).2 = []
        ∧ (didWriteWrapper guess io n).1.outbuf_datatypes = io.outbuf_datatypes)
      ∧ (0 < n →
        ∃ (pre : List tr_datatype) (last : tr_datatype) (rest : List tr_datatype),
          io.outbuf_datatypes = pre ++ last :: rest
            ∧ fifoBytes pre < n ∧ n ≤ fifoBytes pre + last.length
            ∧ didWriteCalls (didWriteWrapper guess io n).2
                = pre.map (fun d => (d.length, d.isPieceData))
                  ++ [(n - fifoBytes pre, last.isPieceData)]
            ∧ ((didWriteCalls (didWriteWrapper guess io n).2).map Prod.fst).sum = n
            ∧ (didWriteWrapper guess io n).1.outbuf_datatypes
                = if n - fifoBytes pre = last.length then rest
                  else { last with length := last.length - (n - fifoBytes pre) } :: rest) := by
  have hmod : n % 2 ^ 32 = n := Nat.mod_eq_of_lt hn
  constructor
  · intro h0
    subst h0
    simp [didWriteWrapper, didWriteLoop_zero, didWriteCalls]
  · intro hpos
    obtain ⟨pre, last, rest, hf, h1, h2, h3, h4⟩ :=
      didWriteLoop_spec
        (if io.socket_type = .TR_PEER_SOCKET_TYPE_TCP then guess else fun _ => 0)
        io.outbuf_datatypes n hpos hle
    have hcalls : (didWriteWrapper guess io n).2
        = (didWriteLoop
            (if io.socket_type = .TR_PEER_SOCKET_TYPE_TCP then guess else fun _ => 0) true n
            io.outbuf_datatypes).1 := by
      simp only [didWriteWrapper, hmod, hcb]
    have hfifo : (didWriteWrapper guess io n).1.outbuf_datatypes
        = (didWriteLoop
            (if io.socket_type = .TR_PEER_SOCKET_TYPE_TCP then guess else fun _ => 0) true n
            io.outbuf_datatypes).2 := by
      simp only [didWriteWrapper, hmod, hcb]
    refine ⟨pre, last, rest, hf, h1, h2, ?_, ?_, ?_⟩
    · rw [hcalls, h3]
    · rw [hcalls, h3]
      have hsum : ((pre.map (fun d => (d.length, d.isPieceData))).map Prod.fst).sum
          = fifoBytes pre := by
        simp [fifoBytes, Function.comp_def]
      rw [List.map_append, List.sum_append, hsum]
      simp
      omega
    · rw [hfifo, h4]

theorem didWriteWrapper_segments_witness :
    ∃ (pre : List tr_datatype) (last : tr_datatype) (rest : List tr_datatype),
      threeSegments.outbuf_datatypes = pre ++ last :: rest
        ∧ fifoBytes pre < 4 ∧ 4 ≤ fifoBytes pre + last.length
        ∧ didWriteCalls (didWriteWrapper (fun _ => 0) threeSegments 4).2
            = pre.map (fun d => (d.length, d.isPieceData))
              ++ [(4 - fifoBytes pre, last.isPieceData)]
        ∧ ((didWriteCalls (didWriteWrapper (fun _ => 0) threeSegments 4).2).map Prod.fst).sum = 4
        ∧ (didWriteWrapper (fun _ => 0) threeSegments 4).1.outbuf_datatypes
            = if 4 - fifoBytes pre = last.length then rest
              else { last with length := last.length - (4 - fifoBytes pre) } :: rest :=
  (didWriteWrapper_segments (fun _ => 0) threeSegments 4 (by decide) (by decide)
    (by decide)).2 (by decide)

/-! ## Peer io: buffer bookkeeping, integer codecs and socket errors -/

theorem tr_cryptoEncrypt_length (crypto : tr_crypto) (bytes : List Nat) :
    (tr_cryptoEncrypt crypto bytes).2.length = bytes.length := by
  simp [tr_cryptoEncrypt]

/-- The loop leaves segments whose lengths total what was there minus the bytes
accounted for. -/
theorem didWriteLoop_fifoBytes (ov : Nat → Nat) (hd : Bool) (fifo : List tr_datatype) :
    ∀ n : Nat, n ≤ fifoBytes fifo →
      fifoBytes (didWriteLoop ov hd n fifo).2 = fifoBytes fifo - n := by
  induction fifo with
  | nil => intro n _; rw [didWriteLoop]; simp [fifoBytes]
  | cons next tail ih =>
    intro n hle
    rw [fifoBytes_cons] at hle ⊢
    rcases Nat.eq_zero_or_pos n with h0 | hpos
    · subst h0
      rw [didWriteLoop_zero, fifoBytes_cons]
      rfl
    · have hn : n ≠ 0 := by omega
      rcases Nat.lt_or_ge n next.length with hlt | hge
      · rw [didWriteLoop_shorten ov hd n next tail hn hlt, fifoBytes_cons]
        show next.length - n + fifoBytes tail = next.length + fifoBytes tail - n
        omega
      · rw [didWriteLoop_pull ov hd n next tail hn hge]
        show fifoBytes (didWriteLoop ov hd (n - next.length) tail).2 = _
        rw [ih (n - next.length) (by omega)]
        omega

theorem tr_peerIoWriteBuf_total (io : tr_peerIo) (buf : List Nat) (p : Bool)
    (h : fifoBytes io.outbuf_datatypes = io.outbuf.length) :
    fifoBytes (tr_peerIoWriteBuf io buf p).outbuf_datatypes
      = (tr_peerIoWriteBuf io buf p).outbuf.length := by
  unfold tr_peerIoWriteBuf addDatatype peer_io_push_datatype
  dsimp only
  rw [fifoBytes_append, List.length_append, h]
  split
  · rw [tr_cryptoEncrypt_length]; simp [fifoBytes]
  · simp [fifoBytes]

theorem tr_peerIoWriteBytes_total (io : tr_peerIo) (bytes : List Nat) (p : Bool)
    (h : fifoBytes io.outbuf_datatypes = io.outbuf.length) :
    fifoBytes (tr_peerIoWriteBytes io bytes p).outbuf_datatypes
      = (tr_peerIoWriteBytes io bytes p).outbuf.length := by
  unfold tr_peerIoWriteBytes addDatatype peer_io_push_datatype
  dsimp only
  rw [fifoBytes_append, List.length_append, h]
  split
  · rw [tr_cryptoEncrypt_length]; simp [fifoBytes]
  · simp [fifoBytes]

theorem utp_on_write_total (guess : Nat → Nat) (io : tr_peerIo) (k : Nat)
    (h : fifoBytes io.outbuf_datatypes = io.outbuf.length)
    (hk : k ≤ io.outbuf.length) (h32 : k < 2 ^ 32) :
    fifoBytes (utp_on_write guess io k).1.outbuf_datatypes
      = (utp_on_write guess io k).1.outbuf.length := by
  unfold utp_on_write didWriteWrapper
  dsimp only
  rw [Nat.mod_eq_of_lt h32, didWriteLoop_fifoBytes _ _ _ _ (by rw [h]; exact hk), h,
    List.length_drop]

/-- Claim C29. On every io reached from an empty `outbuf` and an empty segment FIFO by
`tr_peerIoWriteBuf`, `tr_peerIoWriteBytes` and drains of `k` bytes of `outbuf` followed
by `didWriteWrapper(io, k)`, with `k` no larger than `outbuf`, the lengths of the
segments of `outbuf_datatypes` total the number of bytes in `outbuf`. -/
theorem outbuf_datatypes_total (guess : Nat → Nat) (io : tr_peerIo)
    (h : OutboundReachable guess io) :
    fifoBytes io.outbuf_datatypes = io.outbuf.length := by
  induction h with
  | init io hbuf hfifo => rw [hbuf, hfifo]; rfl
  | writeBuf io buf p _ ih => exact tr_peerIoWriteBuf_total io buf p ih
  | writeBytes io bytes p _ ih => exact tr_peerIoWriteBytes_total io bytes p ih
  | drain io k _ hk h32 ih => exact utp_on_write_total guess io k ih hk h32

theorem outbuf_datatypes_total_witness :
    fifoBytes
        (utp_on_write (fun _ => 0)
          (tr_peerIoWriteBytes (tr_peerIoWriteBuf { } [1, 2, 3] true) [4, 5] false)
          4).1.outbuf_datatypes
      = (utp_on_write (fun _ => 0)
          (tr_peerIoWriteBytes (tr_peerIoWriteBuf { } [1, 2, 3] true) [4, 5] false)
          4).1.outbuf.length :=
  outbuf_datatypes_total (fun _ => 0) _
    (OutboundReachable.drain _ 4
      (OutboundReachable.writeBytes _ [4, 5] false
        (OutboundReachable.writeBuf _ [1, 2, 3] true (OutboundReachable.init { } rfl rfl)))
      (by decide) (by decide))

/-- Claim C21. For a 16-bit `v` and a 32-bit `w`: `evbuffer_add_uint16` and
`evbuffer_add_uint32` append exactly the 2 and 4 bytes of the big-endian encoding, and on
an io without encryption `tr_peerIoReadUint16` and `tr_peerIoReadUint32` on those bytes,
whatever follows them, return `v` and `w` and take exactly those 2 and 4 bytes off the
input buffer. -/
theorem uint16_uint32_roundtrip (io : tr_peerIo) (buf rest : List Nat) (v w : Nat)
    (hv : v < 2 ^ 16) (hw : w < 2 ^ 32)
    (hio : io.encryption_type = .PEER_ENCRYPTION_NONE) :
    evbuffer_add_uint16 buf v = buf ++ [v / 256, v % 256]
      ∧ evbuffer_add_uint32 buf w
          = buf ++ [w / 16777216, w / 65536 % 256, w / 256 % 256, w % 256]
      ∧ (tr_peerIoReadUint16 io (evbuffer_add_uint16 [] v ++ rest)).2 = (rest, v)
      ∧ (tr_peerIoReadUint32 io (evbuffer_add_uint32 [] w ++ rest)).2 = (rest, w) := by
  have hv1 : v % 2 ^ 16 = v := Nat.mod_eq_of_lt hv
  have hw1 : w % 2 ^ 32 = w := Nat.mod_eq_of_lt hw
  have hv2 : v / 2 ^ 8 % 256 = v / 256 := by
    have : v / 256 < 256 := by omega
    show v / 256 % 256 = v / 256
    exact Nat.mod_eq_of_lt this
  have hw2 : w / 2 ^ 24 % 256 = w / 16777216 := by
    have : w / 16777216 < 256 := by omega
    show w / 16777216 % 256 = w / 16777216
    exact Nat.mod_eq_of_lt this
  refine ⟨?_, ?_, ?_, ?_⟩
  · simp only [evbuffer_add_uint16, evbuffer_add, htons, hv1, hv2]
  · simp only [evbuffer_add_uint32, evbuffer_add, htonl, hw1, hw2]
    rfl
  · simp only [tr_peerIoReadUint16, tr_peerIoReadBytes, hio, evbuffer_remove,
      evbuffer_add_uint16, evbuffer_add, htons, hv1, hv2, ntohs]
    simp
    omega
  · simp only [tr_peerIoReadUint32, tr_peerIoReadBytes, hio, evbuffer_remove,
      evbuffer_add_uint32, evbuffer_add, htonl, hw1, hw2, ntohl]
    simp
    omega

theorem uint16_uint32_roundtrip_witness :
    evbuffer_add_uint16 [7] 51413 = [7] ++ [51413 / 256, 51413 % 256]
      ∧ evbuffer_add_uint32 [7] 16384
          = [7] ++ [16384 / 16777216, 16384 / 65536 % 256, 16384 / 256 % 256, 16384 % 256]
      ∧ (tr_peerIoReadUint16 { } (evbuffer_add_uint16 [] 51413 ++ [9])).2 = ([9], 51413)
      ∧ (tr_peerIoReadUint32 { } (evbuffer_add_uint32 [] 16384 ++ [9])).2 = ([9], 16384) :=
  uint16_uint32_roundtrip { } [7] [9] 51413 16384 (by decide) (by decide) rfl

/-- Claim C22, evaluated on the code. A read that fails with `EINPROGRESS` on an io
whose `gotError` is set: `event_read_cb` invokes `gotError` with
`BEV_EVENT_READING | BEV_EVENT_ERROR` and re-arms nothing, whereas `tr_peerIoTryRead`
on the same failure, and `event_write_cb` and `tr_peerIoTryWrite` on a write failing
with `EINPROGRESS`, do not invoke it. -/
theorem event_read_cb_EINPROGRESS_surfaces :
    (event_read_cb (fun _ n => n) { } { res := -1, e := EINPROGRESS }).2
        = [.gotError (BEV_EVENT_READING ||| BEV_EVENT_ERROR)]
      ∧ invokesGotError
          (tr_peerIoTryRead (fun _ n => n) { } 1024 { res := -1, e := EINPROGRESS }).2.1
          = false
      ∧ invokesGotError
          (event_write_cb (fun _ => 0) (fun _ n => n) threeSegments
            { res := -1, e := EINPROGRESS }).2 = false
      ∧ invokesGotError
          (tr_peerIoTryWrite (fun _ => 0) (fun _ n => n) threeSegments 1024
            { res := -1, e := EINPROGRESS }).2.1 = false := by
  refine ⟨?_, ?_, ?_, ?_⟩ <;> decide

/-! ## Resume: which source wins for each field -/

/-- Claim C23, as stated, fails: with `DownloadDir` and `Progress` both requested, a
mandatory download directory "/forced" and a resume file whose `destination` is
"/from-file", the torrent ends with the file's directory. -/
theorem tr_resume_load_forced_dir_overwritten :
    (fields_or (fields_one .DownloadDir) (fields_one .Progress)) .DownloadDir = true
      ∧ tr_ctorGetDownloadDir forcedDirCtor .TR_FORCE = some "/forced"
      ∧ (tr_resume.load { } (fields_or (fields_one .DownloadDir) (fields_one .Progress))
          forcedDirCtor fileWithDestination).1.download_dir = "/from-file" := by
  refine ⟨by decide, by decide, by decide⟩

/-! ## Resume: precedence of constructor and file values -/

/-- What `setFromCtor` does to each of the three fields and which flags it reports. -/
theorem setFromCtor_spec (tor : tr_torrent) (fields : fields_t) (ctor : tr_ctor)
    (mode : tr_ctorMode) :
    (setFromCtor tor fields ctor mode).1.isRunning
        = (if fields .Run = true then
            (match tr_ctorGetPaused ctor mode with
              | some p => !p
              | none => tor.isRunning)
           else tor.isRunning)
      ∧ (setFromCtor tor fields ctor mode).1.maxConnectedPeers
        = (if fields .MaxPeers = true then
            (match tr_ctorGetPeerLimit ctor mode with
              | some n => n % 2 ^ 16
              | none => tor.maxConnectedPeers)
           else tor.maxConnectedPeers)
      ∧ (setFromCtor tor fields ctor mode).1.download_dir
        = (if fields .DownloadDir = true then
            (match tr_ctorGetDownloadDir ctor mode with
              | some d => d
              | none => tor.download_dir)
           else tor.download_dir)
      ∧ (setFromCtor tor fields ctor mode).1.current_dir = tor.current_dir
      ∧ (setFromCtor tor fields ctor mode).1.incomplete_dir = tor.incomplete_dir
      ∧ (setFromCtor tor fields ctor mode).2 .Run
        = (fields .Run && (tr_ctorGetPaused ctor mode).isSome)
      ∧ (setFromCtor tor fields ctor mode).2 .MaxPeers
        = (fields .MaxPeers && (tr_ctorGetPeerLimit ctor mode).isSome)
      ∧ (setFromCtor tor fields ctor mode).2 .DownloadDir
        = (fields .DownloadDir && (tr_ctorGetDownloadDir ctor mode).isSome)
      ∧ (setFromCtor tor fields ctor mode).2 .Progress = false
      ∧ (setFromCtor tor fields ctor mode).2 .IncompleteDir = false := by
  have hne : ∀ d, tr_ctorGetDownloadDir ctor mode = some d → d ≠ "" := by
    intro d h
    unfold tr_ctorGetDownloadDir at h
    split at h
    · cases h
    · rename_i hn
      cases h
      exact hn
  unfold setFromCtor
  cases hr : fields .Run <;> cases hm : fields .MaxPeers <;> cases hd : fields .DownloadDir <;>
    cases hp : tr_ctorGetPaused ctor mode <;> cases hl : tr_ctorGetPeerLimit ctor mode <;>
    cases hdd : tr_ctorGetDownloadDir ctor mode <;>
    first
      | simp [fields_or, fields_one, fields_none, hne _ hdd]
      | simp [fields_or, fields_one, fields_none]

theorem loadFromFile_destination_spec (fields : fields_t) (file : ResumeFile)
    (r : tr_torrent × fields_t) :
    (loadFromFile_destination fields file r).1.isRunning = r.1.isRunning
      ∧ (loadFromFile_destination fields file r).1.maxConnectedPeers = r.1.maxConnectedPeers
      ∧ (loadFromFile_destination fields file r).1.download_dir
          = (if fields .Progress = true ∨ fields .DownloadDir = true then
              (match file.destination with
                | some sv => if sv ≠ "" then sv else r.1.download_dir
                | none => r.1.download_dir)
             else r.1.download_dir)
      ∧ (loadFromFile_destination fields file r).2 .Run = r.2 .Run
      ∧ (loadFromFile_destination fields file r).2 .MaxPeers = r.2 .MaxPeers
      ∧ (loadFromFile_destination fields file r).2 .DownloadDir
          = (r.2 .DownloadDir || ((fields .Progress || fields .DownloadDir)
              && (match file.destination with
                  | some sv => decide (sv ≠ "")
                  | none => false))) := by
  unfold loadFromFile_destination
  cases hdd : file.destination with
  | none => simp
  | some sv =>
    by_cases hsv : sv = "" <;> cases hpr : fields .Progress <;> cases hd : fields .DownloadDir <;>
      simp [hsv, fields_or, fields_one] <;> split <;> simp

theorem loadFromFile_incomplete_dir_spec (fields : fields_t) (file : ResumeFile)
    (r : tr_torrent × fields_t) :
    (loadFromFile_incomplete_dir fields file r).1.isRunning = r.1.isRunning
      ∧ (loadFromFile_incomplete_dir fields file r).1.maxConnectedPeers = r.1.maxConnectedPeers
      ∧ (loadFromFile_incomplete_dir fields file r).1.download_dir = r.1.download_dir
      ∧ (loadFromFile_incomplete_dir fields file r).2 .Run = r.2 .Run
      ∧ (loadFromFile_incomplete_dir fields file r).2 .MaxPeers = r.2 .MaxPeers
      ∧ (loadFromFile_incomplete_dir fields file r).2 .DownloadDir = r.2 .DownloadDir := by
  unfold loadFromFile_incomplete_dir
  cases hdd : file.incomplete_dir with
  | none => simp
  | some sv =>
    by_cases hsv : sv = "" <;> cases hpr : fields .Progress <;>
      cases hd : fields .IncompleteDir <;>
      simp [hsv, fields_or, fields_one] <;> split <;> simp

theorem loadFromFile_max_peers_spec (fields : fields_t) (file : ResumeFile)
    (r : tr_torrent × fields_t) :
    (loadFromFile_max_peers fields file r).1.isRunning = r.1.isRunning
      ∧ (loadFromFile_max_peers fields file r).1.maxConnectedPeers
          = (if fields .MaxPeers = true then
              (match file.max_peers with
                | some i => (i % 2 ^ 16).toNat
                | none => r.1.maxConnectedPeers)
             else r.1.maxConnectedPeers)
      ∧ (loadFromFile_max_peers fields file r).1.download_dir = r.1.download_dir
      ∧ (loadFromFile_max_peers fields file r).2 .Run = r.2 .Run
      ∧ (loadFromFile_max_peers fields file r).2 .MaxPeers
          = (r.2 .MaxPeers || (fields .MaxPeers && file.max_peers.isSome))
      ∧ (loadFromFile_max_peers fields file r).2 .DownloadDir = r.2 .DownloadDir := by
  unfold loadFromFile_max_peers
  cases hdd : file.max_peers <;> cases hd : fields .MaxPeers <;>
    simp [fields_or, fields_one]

theorem loadFromFile_paused_spec (fields : fields_t) (file : ResumeFile)
    (r : tr_torrent × fields_t) :
    (loadFromFile_paused fields file r).1.isRunning
          = (if fields .Run = true then
              (match file.paused with
                | some b => !b
                | none => r.1.isRunning)
             else r.1.isRunning)
      ∧ (loadFromFile_paused fields file r).1.maxConnectedPeers = r.1.maxConnectedPeers
      ∧ (loadFromFile_paused fields file r).1.download_dir = r.1.download_dir
      ∧ (loadFromFile_paused fields file r).2 .Run
          = (r.2 .Run || (fields .Run && file.paused.isSome))
      ∧ (loadFromFile_paused fields file r).2 .MaxPeers = r.2 .MaxPeers
      ∧ (loadFromFile_paused fields file r).2 .DownloadDir = r.2 .DownloadDir := by
  unfold loadFromFile_paused
  cases hdd : file.paused <;> cases hd : fields .Run <;>
    simp [fields_or, fields_one]

/-- What `loadFromFile` does to each of the three fields and which of their flags it
reports. -/
theorem loadFromFile_spec (tor : tr_torrent) (fields : fields_t) (file : ResumeFile) :
    (loadFromFile tor fields file).1.isRunning
        = (if file.readable = true ∧ fields .Run = true then
            (match file.paused with
              | some b => !b
              | none => tor.isRunning)
           else tor.isRunning)
      ∧ (loadFromFile tor fields file).1.maxConnectedPeers
        = (if file.readable = true ∧ fields .MaxPeers = true then
            (match file.max_peers with
              | some i => (i % 2 ^ 16).toNat
              | none => tor.maxConnectedPeers)
           else tor.maxConnectedPeers)
      ∧ (loadFromFile tor fields file).1.download_dir
        = (if file.readable = true ∧ (fields .Progress = true ∨ fields .DownloadDir = true) then
            (match file.destination with
              | some sv => if sv ≠ "" then sv else tor.download_dir
              | none => tor.download_dir)
           else tor.download_dir)
      ∧ (loadFromFile tor fields file).2 .Run
        = (file.readable && (fields .Run && file.paused.isSome))
      ∧ (loadFromFile tor fields file).2 .MaxPeers
        = (file.readable && (fields .MaxPeers && file.max_peers.isSome))
      ∧ (loadFromFile tor fields file).2 .DownloadDir
        = (file.readable && ((fields .Progress || fields .DownloadDir)
            && (match file.destination with
                | some sv => decide (sv ≠ "")
                | none => false))) := by
  unfold loadFromFile
  cases hread : file.readable
  · simp [fields_none]
  · have h1 := loadFromFile_destination_spec fields file (tor, fields_none)
    have h2 := loadFromFile_incomplete_dir_spec fields file
      (loadFromFile_destination fields file (tor, fields_none))
    have h3 := loadFromFile_max_peers_spec fields file
      (loadFromFile_incomplete_dir fields file
        (loadFromFile_destination fields file (tor, fields_none)))
    have h4 := loadFromFile_paused_spec fields file
      (loadFromFile_max_peers fields file (loadFromFile_incomplete_dir fields file
        (loadFromFile_destination fields file (tor, fields_none))))
    obtain ⟨a1, a2, a3, a4, a5, a6⟩ := h1
    obtain ⟨b1, b2, b3, b4, b5, b6⟩ := h2
    obtain ⟨c1, c2, c3, c4, c5, c6⟩ := h3
    obtain ⟨d1, d2, d3, d4, d5, d6⟩ := h4
    simp only [Bool.not_true, Bool.false_eq_true, if_false, true_and, Bool.true_and,
      fields_or]
    refine ⟨?_, ?_, ?_, ?_, ?_, ?_⟩
    · rw [d1, c1, b1, a1]
    · rw [d2, c2, b2, a2]
    · rw [d3, c3, b3, a3]
    · rw [d4, c4, b4, a4]; simp [fields_none]
    · rw [d5, c5, b5, a5]; simp [fields_none]
    · rw [d6, c6, b6, a6]; simp [fields_none]

/-- The field `isRunning` after `tr_resume::load` when `Run` is requested. -/
theorem tr_resume_load_isRunning (tor : tr_torrent) (fields : fields_t) (ctor : tr_ctor)
    (file : ResumeFile) (hreq : fields .Run = true) :
    (tr_resume.load tor fields ctor file).1.isRunning
      = (match tr_ctorGetPaused ctor .TR_FORCE with
          | some p => !p
          | none =>
            match (if file.readable then file.paused else none) with
            | some b => !b
            | none =>
              match tr_ctorGetPaused ctor .TR_FALLBACK with
              | some p => !p
              | none => tor.isRunning) := by
  unfold tr_resume.load useManditoryFields useFallbackFields
  dsimp only
  rw [(setFromCtor_spec _ _ ctor .TR_FALLBACK).1, (loadFromFile_spec _ _ file).1,
    (setFromCtor_spec tor fields ctor .TR_FORCE).1]
  simp only [fields_without, fields_or, fields_none, Bool.false_or,
    (loadFromFile_spec _ _ file).2.2.2.1, (setFromCtor_spec tor fields ctor .TR_FORCE).2.2.2.2.2.1,
    hreq]
  cases tr_ctorGetPaused ctor .TR_FORCE <;> cases file.readable <;> cases file.paused <;>
    cases tr_ctorGetPaused ctor .TR_FALLBACK <;> simp [fields_without, fields_or, fields_none]

/-- The field `maxConnectedPeers` after `tr_resume::load` when `MaxPeers` is requested. -/
theorem tr_resume_load_maxConnectedPeers (tor : tr_torrent) (fields : fields_t)
    (ctor : tr_ctor) (file : ResumeFile) (hreq : fields .MaxPeers = true) :
    (tr_resume.load tor fields ctor file).1.maxConnectedPeers
      = (match tr_ctorGetPeerLimit ctor .TR_FORCE with
          | some n => n % 2 ^ 16
          | none =>
            match (if file.readable then file.max_peers else none) with
            | some i => (i % 2 ^ 16).toNat
            | none =>
              match tr_ctorGetPeerLimit ctor .TR_FALLBACK with
              | some n => n % 2 ^ 16
              | none => tor.maxConnectedPeers) := by
  unfold tr_resume.load useManditoryFields useFallbackFields
  dsimp only
  rw [(setFromCtor_spec _ _ ctor .TR_FALLBACK).2.1, (loadFromFile_spec _ _ file).2.1,
    (setFromCtor_spec tor fields ctor .TR_FORCE).2.1]
  simp only [fields_without, fields_or, fields_none, Bool.false_or,
    (loadFromFile_spec _ _ file).2.2.2.2.1,
    (setFromCtor_spec tor fields ctor .TR_FORCE).2.2.2.2.2.2.1, hreq]
  cases tr_ctorGetPeerLimit ctor .TR_FORCE <;> cases file.readable <;> cases file.max_peers <;>
    cases tr_ctorGetPeerLimit ctor .TR_FALLBACK <;> simp [fields_without, fields_or, fields_none]

/-- The field `download_dir` after `tr_resume::load` when `DownloadDir` is requested. -/
theorem tr_resume_load_download_dir (tor : tr_torrent) (fields : fields_t)
    (ctor : tr_ctor) (file : ResumeFile) (hreq : fields .DownloadDir = true) :
    (tr_resume.load tor fields ctor file).1.download_dir
      = (match tr_ctorGetDownloadDir ctor .TR_FORCE with
          | some d =>
            (match (if fields .Progress then file.destinationValue else none) with
              | some sv => sv
              | none => d)
          | none =>
            match file.destinationValue with
            | some sv => sv
            | none =>
              match tr_ctorGetDownloadDir ctor .TR_FALLBACK with
              | some d => d
              | none => tor.download_dir) := by
  unfold tr_resume.load useManditoryFields useFallbackFields
  dsimp only
  rw [(setFromCtor_spec _ _ ctor .TR_FALLBACK).2.2.1, (loadFromFile_spec _ _ file).2.2.1,
    (setFromCtor_spec tor fields ctor .TR_FORCE).2.2.1]
  simp only [fields_without, fields_or, fields_none, Bool.false_or,
    (loadFromFile_spec _ _ file).2.2.2.2.2,
    (setFromCtor_spec tor fields ctor .TR_FORCE).2.2.2.2.2.2.2.1,
    (setFromCtor_spec tor fields ctor .TR_FORCE).2.2.2.2.2.2.2.2.1, hreq,
    ResumeFile.destinationValue]
  cases tr_ctorGetDownloadDir ctor .TR_FORCE <;> cases file.readable <;>
    cases hdst : file.destination <;>
    cases tr_ctorGetDownloadDir ctor .TR_FALLBACK <;> cases fields .Progress <;>
    simp [fields_without, fields_or, fields_none] <;> split <;> simp_all

/-- Claim C23, amended. After `tr_resume::load`, for each requested field: `isRunning`
and `maxConnectedPeers` take the constructor's `TR_FORCE` value when it supplies one,
else the value of a readable resume file holding the key, else the constructor's
`TR_FALLBACK` value, else they are unchanged; `download_dir` follows the same order,
except that a readable file's non-empty `destination` also replaces a `TR_FORCE`
directory when `Progress` is requested too. -/
theorem tr_resume_load_precedence (tor : tr_torrent) (fields : fields_t) (ctor : tr_ctor)
    (file : ResumeFile) :
    (fields .Run = true →
        (tr_resume.load tor fields ctor file).1.isRunning
          = (match tr_ctorGetPaused ctor .TR_FORCE with
              | some p => !p
              | none =>
                match (if file.readable then file.paused else none) with
                | some b => !b
                | none =>
                  match tr_ctorGetPaused ctor .TR_FALLBACK with
                  | some p => !p
                  | none => tor.isRunning))
      ∧ (fields .MaxPeers = true →
        (tr_resume.load tor fields ctor file).1.maxConnectedPeers
          = (match tr_ctorGetPeerLimit ctor .TR_FORCE with
              | some n => n % 2 ^ 16
              | none =>
                match (if file.readable then file.max_peers else none) with
                | some i => (i % 2 ^ 16).toNat
                | none =>
                  match tr_ctorGetPeerLimit ctor .TR_FALLBACK with
                  | some n => n % 2 ^ 16
                  | none => tor.maxConnectedPeers))
      ∧ (fields .DownloadDir = true →
        (tr_resume.load tor fields ctor file).1.download_dir
          = (match tr_ctorGetDownloadDir ctor .TR_FORCE with
              | some d =>
                (match (if fields .Progress then file.destinationValue else none) with
                  | some sv => sv
                  | none => d)
              | none =>
                match file.destinationValue with
                | some sv => sv
                | none =>
                  match tr_ctorGetDownloadDir ctor .TR_FALLBACK with
                  | some d => d
                  | none => tor.download_dir)) :=
  ⟨tr_resume_load_isRunning tor fields ctor file,
    tr_resume_load_maxConnectedPeers tor fields ctor file,
    tr_resume_load_download_dir tor fields ctor file⟩

theorem tr_resume_load_precedence_witness :
    (fields_one .DownloadDir) .DownloadDir = true
      ∧ (tr_resume.load { } (fields_one .DownloadDir) forcedDirCtor
          fileWithDestination).1.download_dir = "/forced" :=
  ⟨by decide,
    ((tr_resume_load_precedence { } (fields_one .DownloadDir) forcedDirCtor
      fileWithDestination).2.2 (by decide)).trans (by decide)⟩

/-! ## Session: the turtle schedule and the peer id -/

theorem tr_bitfield_set_size (b : tr_bitfield) (i : Nat) : (b.set i).size = b.size := by
  simp [tr_bitfield.set, tr_bitfield.size]

theorem tr_bitfield_set_test (b : tr_bitfield) (i m : Nat) (hi : i < b.size) :
    (b.set i).test m = (b.test m || decide (m = i)) := by
  unfold tr_bitfield.set tr_bitfield.test tr_bitfield.size at *
  by_cases h : m = i
  · subst h
    simp [List.getD_eq_getElem?_getD, hi]
  · have h2 : i ≠ m := fun e => h e.symm
    simp [List.getD_eq_getElem?_getD, List.getElem?_set_ne h2, h]

/-- Setting the images of a list of indices, all within the bitfield: an index is set
afterwards when it was before or is one of the images. -/
theorem foldl_set_test (f : Nat → Nat) (l : List Nat) :
    ∀ (b : tr_bitfield), (∀ i ∈ l, f i < b.size) → ∀ m : Nat,
      ((l.foldl (fun m i => m.set (f i)) b).size = b.size)
        ∧ ((l.foldl (fun m i => m.set (f i)) b).test m = true
            ↔ (b.test m = true ∨ ∃ i ∈ l, f i = m)) := by
  induction l with
  | nil => intro b _ m; simp
  | cons a l ih =>
    intro b hb m
    have ha : f a < b.size := hb a (List.mem_cons_self _ _)
    have hl : ∀ i ∈ l, f i < (b.set (f a)).size := by
      intro i hi
      rw [tr_bitfield_set_size]
      exact hb i (List.mem_cons_of_mem _ hi)
    obtain ⟨h1, h2⟩ := ih (b.set (f a)) hl m
    rw [List.foldl_cons]
    refine ⟨by rw [h1, tr_bitfield_set_size], ?_⟩
    rw [h2, tr_bitfield_set_test b (f a) m ha]
    simp only [Bool.or_eq_true, decide_eq_true_eq, List.mem_cons, exists_eq_or_imp]
    constructor
    · rintro ((h | h) | h)
      · exact Or.inl h
      · exact Or.inr (Or.inl h.symm)
      · exact Or.inr (Or.inr h)
    · rintro (h | h | h)
      · exact Or.inl (Or.inl h)
      · exact Or.inl (Or.inr h.symm)
      · exact Or.inr h

theorem turtleSetDay_spec (b : tr_bitfield) (begin_ end_ day : Nat)
    (hb : b.size = MinutesPerWeek) (m : Nat) :
    (turtleSetDay b begin_ end_ day).size = MinutesPerWeek
      ∧ ((turtleSetDay b begin_ end_ day).test m = true
          ↔ (b.test m = true
              ∨ ∃ i, begin_ ≤ i ∧ i < end_ ∧ (i + day * MinutesPerDay) % MinutesPerWeek = m)) := by
  have hlt : ∀ i ∈ List.range' begin_ (end_ - begin_),
      (i + day * MinutesPerDay) % MinutesPerWeek < b.size := by
    intro i _
    rw [hb]
    exact Nat.mod_lt _ (by decide)
  obtain ⟨h1, h2⟩ := foldl_set_test (fun i => (i + day * MinutesPerDay) % MinutesPerWeek)
    (List.range' begin_ (end_ - begin_)) b hlt m
  refine ⟨by unfold turtleSetDay; rw [h1, hb], ?_⟩
  unfold turtleSetDay
  rw [h2]
  constructor
  · rintro (h | ⟨i, hi, hm⟩)
    · exact Or.inl h
    · rw [List.mem_range'_1] at hi
      exact Or.inr ⟨i, hi.1, by omega, hm⟩
  · rintro (h | ⟨i, h1, h2, hm⟩)
    · exact Or.inl h
    · exact Or.inr ⟨i, by rw [List.mem_range'_1]; omega, hm⟩

/-- The loop over the days of `turtleUpdateTable`, for any list of days. -/
theorem turtleDays_spec (days begin_ end_ : Nat) (ds : List Nat) :
    ∀ (b : tr_bitfield), b.size = MinutesPerWeek → ∀ m : Nat,
      (ds.foldl (fun m day => if turtleDayIsSet days day then turtleSetDay m begin_ end_ day
          else m) b).test m = true
        ↔ (b.test m = true
            ∨ ∃ day ∈ ds, turtleDayIsSet days day = true
                ∧ ∃ i, begin_ ≤ i ∧ i < end_
                    ∧ (i + day * MinutesPerDay) % MinutesPerWeek = m) := by
  induction ds with
  | nil => intro b _ m; simp
  | cons d ds ih =>
    intro b hb m
    rw [List.foldl_cons]
    by_cases hd : turtleDayIsSet days d = true
    · rw [if_pos hd, ih _ (turtleSetDay_spec b begin_ end_ d hb m).1 m,
        (turtleSetDay_spec b begin_ end_ d hb m).2]
      simp only [List.mem_cons, exists_eq_or_imp, hd, true_and]
      exact or_assoc
    · rw [if_neg hd, ih _ hb m]
      simp only [List.mem_cons, exists_eq_or_imp, hd, false_and, false_or]
      simp

theorem tr_bitfield_setHasNone_spec (b : tr_bitfield) (m : Nat) :
    b.setHasNone.size = b.size ∧ b.setHasNone.test m = false := by
  unfold tr_bitfield.setHasNone tr_bitfield.size tr_bitfield.test
  refine ⟨by simp, ?_⟩
  rw [List.getD_eq_getElem?_getD]
  by_cases h : m < b.flags.length
  · simp [List.getElem?_replicate, h]
  · simp [List.getElem?_replicate, h]

/-- Claim C24. For `beginMinute` and `endMinute` in `[0, 1440)`, any day mask and the
week's bitfield of 10080 bits: after `turtleUpdateTable` the bit of minute `m` in
`[0, 10080)`, with `d = m / 1440` and `k = m mod 1440`, is set exactly when, for
`endMinute > beginMinute`, day `d` is in the mask and `beginMinute <= k < endMinute`,
and otherwise when day `d` is in the mask and `k >= beginMinute`, or day
`(d + 6) mod 7` is in the mask and `k < endMinute`. -/
theorem turtleUpdateTable_minutes (t : tr_turtle_info) (m : Nat)
    (hsize : t.minutes.size = MinutesPerWeek)
    (hb : t.beginMinute < 1440) (he : t.endMinute < 1440) (hm : m < 10080) :
    (turtleUpdateTable t).minutes.test m = true
      ↔ (if t.endMinute > t.beginMinute then
          turtleDayIsSet t.days (m / 1440) = true
            ∧ t.beginMinute ≤ m % 1440 ∧ m % 1440 < t.endMinute
         else
          (turtleDayIsSet t.days (m / 1440) = true ∧ m % 1440 ≥ t.beginMinute)
            ∨ (turtleDayIsSet t.days ((m / 1440 + 6) % 7) = true ∧ m % 1440 < t.endMinute)) := by
  have hD : MinutesPerDay = 1440 := rfl
  have hW : MinutesPerWeek = 10080 := rfl
  have hnone := tr_bitfield_setHasNone_spec t.minutes m
  unfold turtleUpdateTable
  dsimp only
  rw [turtleDays_spec t.days t.beginMinute _ (List.range 7) _ (by rw [hnone.1, hsize]) m,
    hnone.2, hD, hW]
  simp only [Bool.false_eq_true, false_or, List.mem_range]
  by_cases hlt : t.endMinute > t.beginMinute
  · have hle : ¬ t.endMinute ≤ t.beginMinute := by omega
    rw [if_pos hlt, if_neg hle]
    constructor
    · rintro ⟨day, hday, hset, i, h1, h2, h3⟩
      have hd : m / 1440 = day := by omega
      rw [hd]
      exact ⟨hset, by omega, by omega⟩
    · rintro ⟨hset, h1, h2⟩
      exact ⟨m / 1440, by omega, hset, m % 1440, h1, h2, by omega⟩
  · have hle : t.endMinute ≤ t.beginMinute := by omega
    rw [if_neg hlt, if_pos hle]
    constructor
    · rintro ⟨day, hday, hset, i, h1, h2, h3⟩
      rcases Nat.lt_or_ge i 1440 with hi | hi
      · have hd : m / 1440 = day := by omega
        rw [hd]
        exact Or.inl ⟨hset, by omega⟩
      · have hd : (m / 1440 + 6) % 7 = day := by omega
        rw [hd]
        exact Or.inr ⟨hset, by omega⟩
    · rintro (⟨hset, h1⟩ | ⟨hset, h1⟩)
      · exact ⟨m / 1440, by omega, hset, m % 1440, h1, by omega, by omega⟩
      · exact ⟨(m / 1440 + 6) % 7, by omega, hset, m % 1440 + 1440, by omega, by omega,
          by omega⟩

theorem turtleUpdateTable_minutes_witness :
    nightTurtle.minutes.size = MinutesPerWeek
      ∧ (turtleUpdateTable nightTurtle).minutes.test 3000 = true
      ∧ ¬ (turtleUpdateTable nightTurtle).minutes.test 3300 = true :=
  ⟨by simp [nightTurtle, tr_bitfield.size, tr_bitfield.ofSize],
    (turtleUpdateTable_minutes nightTurtle 3000
      (by simp [nightTurtle, tr_bitfield.size, tr_bitfield.ofSize]) (by decide) (by decide)
      (by decide)).mpr (by decide),
    fun h => absurd ((turtleUpdateTable_minutes nightTurtle 3300
      (by simp [nightTurtle, tr_bitfield.size, tr_bitfield.ofSize]) (by decide) (by decide)
      (by decide)).mp h) (by decide)⟩

theorem pool_index_get : ∀ v, v < 36 → Pool.getD v '0' ∈ Pool ∧ poolIndex (Pool.getD v '0') = v := by
  decide

theorem peerIdLoop_foldl (sg : Bool) (bytes : List Nat) :
    ∀ acc : Nat × List Char,
      bytes.foldl
          (fun acc b =>
            let val := charAsSizeT sg b % Pool.length
            (acc.1 + val, acc.2 ++ [Pool.getD val '0']))
          acc
        = (acc.1 + (bytes.map (fun b => charAsSizeT sg b % 36)).sum,
            acc.2 ++ bytes.map (fun b => Pool.getD (charAsSizeT sg b % 36) '0')) := by
  have hlen : Pool.length = 36 := rfl
  induction bytes with
  | nil => intro acc; simp
  | cons b bs ih =>
    intro acc
    rw [List.foldl_cons, ih]
    simp only [hlen, List.map_cons, List.sum_cons, List.append_assoc, List.singleton_append]
    rw [Nat.add_assoc]

theorem peerIdLoop_spec (sg : Bool) (bytes : List Nat) :
    (peerIdLoop sg bytes).2.length = bytes.length
      ∧ (∀ c ∈ (peerIdLoop sg bytes).2, c ∈ Pool)
      ∧ ((peerIdLoop sg bytes).2.map poolIndex).sum = (peerIdLoop sg bytes).1 := by
  unfold peerIdLoop
  rw [peerIdLoop_foldl]
  refine ⟨by simp, ?_, ?_⟩
  · intro c hc
    simp only [List.nil_append, List.mem_map] at hc
    obtain ⟨b, _, rfl⟩ := hc
    exact (pool_index_get _ (Nat.mod_lt _ (by decide))).1
  · simp only [List.nil_append, List.map_map, Nat.zero_add]
    congr 1
    apply List.map_congr_left
    intro b _
    exact (pool_index_get _ (Nat.mod_lt _ (by decide))).2

/-- Claim C25. Whatever bytes the random source gives (and whether `char` is signed or
not), with the 8 characters of `PEERID_PREFIX`: `tr_peerIdInit` returns 20 characters,
the first 8 being the prefix, the last 12 all from the pool
"0123456789abcdefghijklmnopqrstuvwxyz", the sum of whose pool indices is divisible
by 36. -/
theorem tr_peerIdInit_checksum (sg : Bool) (pfx : List Char) (rand : Nat → Nat)
    (hpfx : pfx.length = 8) :
    (tr_peerIdInit sg pfx rand).length = 20
      ∧ (tr_peerIdInit sg pfx rand).take 8 = pfx
      ∧ ((tr_peerIdInit sg pfx rand).drop 8).length = 12
      ∧ (∀ c ∈ (tr_peerIdInit sg pfx rand).drop 8, c ∈ Pool)
      ∧ (((tr_peerIdInit sg pfx rand).drop 8).map poolIndex).sum % 36 = 0 := by
  have hlen : Pool.length = 36 := rfl
  obtain ⟨h1, h2, h3⟩ := peerIdLoop_spec sg (((List.range (PEER_ID_LEN - pfx.length)).map rand).take
    (PEER_ID_LEN - pfx.length - 1))
  have hn : (((List.range (PEER_ID_LEN - pfx.length)).map rand).take
      (PEER_ID_LEN - pfx.length - 1)).length = 11 := by
    simp [PEER_ID_LEN, hpfx]
  rw [hn] at h1
  unfold tr_peerIdInit
  dsimp only
  generalize peerIdLoop sg (((List.range (PEER_ID_LEN - pfx.length)).map rand).take
    (PEER_ID_LEN - pfx.length - 1)) = r at h1 h2 h3
  have hv : (if r.1 % Pool.length ≠ 0 then Pool.length - r.1 % Pool.length else 0) < 36 := by
    rw [hlen]
    split <;> omega
  have hdrop : (pfx ++ r.2 ++ [Pool.getD (if r.1 % Pool.length ≠ 0 then
      Pool.length - r.1 % Pool.length else 0) '0']).drop 8
      = r.2 ++ [Pool.getD (if r.1 % Pool.length ≠ 0 then
        Pool.length - r.1 % Pool.length else 0) '0'] := by
    rw [List.append_assoc, List.drop_append_of_le_length (by omega), ← hpfx, List.drop_length,
      List.nil_append]
  refine ⟨by simp [hpfx, h1], ?_, ?_, ?_, ?_⟩
  · rw [List.append_assoc, List.take_append_of_le_length (by omega), ← hpfx, List.take_length]
  · rw [hdrop]; simp [h1]
  · rw [hdrop]
    intro c hc
    rcases List.mem_append.mp hc with h | h
    · exact h2 c h
    · rw [List.mem_singleton] at h
      rw [h]
      exact (pool_index_get _ hv).1
  · rw [hdrop, List.map_append, List.sum_append, h3, List.map_singleton, List.sum_singleton,
      (pool_index_get _ hv).2, hlen]
    split <;> omega

theorem tr_peerIdInit_checksum_witness :
    "-TR3000-".data.length = 8
      ∧ (((tr_peerIdInit true "-TR3000-".data (fun i => 200 + i)).drop 8).map
          poolIndex).sum % 36 = 0 :=
  ⟨by decide, (tr_peerIdInit_checksum true "-TR3000-".data (fun i => 200 + i) (by decide)).2.2.2.2⟩

/-! ## Completion: the cached size under the mutators -/

theorem sumBelow_succ (f : Nat → Nat) (n : Nat) : sumBelow f (n + 1) = sumBelow f n + f n := by
  simp [sumBelow, List.range_succ]

theorem sumBelow_congr (f g : Nat → Nat) (n : Nat) (h : ∀ i, i < n → f i = g i) :
    sumBelow f n = sumBelow g n := by
  induction n with
  | zero => rfl
  | succ n ih =>
    rw [sumBelow_succ, sumBelow_succ, ih (fun i hi => h i (by omega)), h n (by omega)]

theorem filter_map_sum_range (p : Nat → Bool) (f : Nat → Nat) (n : Nat) :
    (((List.range n).filter p).map f).sum = sumBelow (fun i => if p i then f i else 0) n := by
  induction n with
  | zero => rfl
  | succ n ih =>
    rw [sumBelow_succ, List.range_succ, List.filter_append, List.map_append, List.sum_append, ih]
    by_cases h : p n = true <;> simp [h]

theorem ownedBlockBytes_eq (bi : tr_block_info) (blocks : tr_bitfield) :
    ownedBlockBytes bi blocks = sumBelow (blockBytesIfSet bi blocks) blocks.size :=
  filter_map_sum_range blocks.test bi.blockSize blocks.size

/-- The bytes of the set blocks below `k`, in the form `countHasBytesInBlocks` computes:
the number of set blocks times the block size, less the shortfall of the final block
when it is among them. -/
theorem sumBelow_blockBytes (bi : tr_block_info) (blocks : tr_bitfield)
    (hfinal : bi.final_block_size ≤ bi.block_size) (k : Nat) (hk : k ≤ bi.n_blocks) :
    sumBelow (blockBytesIfSet bi blocks) k + (if k = bi.n_blocks ∧ 1 ≤ k
        ∧ blocks.test (k - 1) = true then bi.block_size - bi.final_block_size else 0)
      = countBelow blocks.test k * bi.block_size := by
  induction k with
  | zero => simp [sumBelow, countBelow]
  | succ k ih =>
    have ih' := ih (by omega)
    have hkn : ¬ (k = bi.n_blocks ∧ 1 ≤ k ∧ blocks.test (k - 1) = true) := fun h => by omega
    rw [if_neg hkn, Nat.add_zero] at ih'
    rw [sumBelow_succ, countBelow_succ, ih', Nat.add_sub_cancel, Nat.add_mul]
    unfold blockBytesIfSet tr_block_info.blockSize
    by_cases ht : blocks.test k = true
    · by_cases hl : k + 1 = bi.n_blocks
      · rw [if_pos ht, if_pos hl, if_pos ht, if_pos ⟨hl, by omega, ht⟩]
        omega
      · have hc : ¬ (k + 1 = bi.n_blocks ∧ 1 ≤ k + 1 ∧ blocks.test k = true) := fun h => hl h.1
        rw [if_pos ht, if_neg hl, if_pos ht, if_neg hc]
        omega
    · have hc : ¬ (k + 1 = bi.n_blocks ∧ 1 ≤ k + 1 ∧ blocks.test k = true) := fun h => ht h.2.2
      rw [if_neg ht, if_neg ht, if_neg hc]
      omega

theorem tr_bitfield_test_size (b : tr_bitfield) (i : Nat) (hi : b.size ≤ i) :
    b.test i = false := by
  unfold tr_bitfield.test tr_bitfield.size at *
  rw [List.getD_eq_getElem?_getD, List.getElem?_eq_none hi]
  rfl

theorem tr_bitfield_unsetSpan_spec (b : tr_bitfield) (begin_ end_ i : Nat) :
    (b.unsetSpan begin_ end_).size = b.size
      ∧ (b.unsetSpan begin_ end_).test i
          = (!(decide (begin_ ≤ i) && decide (i < end_)) && b.test i) := by
  refine ⟨by simp [tr_bitfield.unsetSpan, tr_bitfield.size], ?_⟩
  by_cases hi : i < b.size
  · have hi2 : i < b.flags.length := hi
    simp [tr_bitfield.unsetSpan, tr_bitfield.test, List.getD_eq_getElem?_getD, hi2]
  · have h1 := tr_bitfield_test_size b i (by omega)
    have h2 := tr_bitfield_test_size (b.unsetSpan begin_ end_) i
      (by simp [tr_bitfield.unsetSpan, tr_bitfield.size] at hi ⊢; omega)
    rw [h1, h2]
    simp

theorem tr_bitfield_setHasAll_spec (b : tr_bitfield) (i : Nat) :
    b.setHasAll.size = b.size ∧ b.setHasAll.test i = decide (i < b.size) := by
  refine ⟨by simp [tr_bitfield.setHasAll, tr_bitfield.size], ?_⟩
  unfold tr_bitfield.setHasAll tr_bitfield.test tr_bitfield.size
  rw [List.getD_eq_getElem?_getD]
  by_cases h : i < b.flags.length
  · simp [List.getElem?_replicate, h]
  · simp [List.getElem?_replicate, h]

/-- The value `countHasBytesInBlocks` returns for a span within the blocks that is not
empty (or on a torrent without blocks): the bytes of the set blocks below its end less
those below its begin. -/
theorem countHasBytesInBlocks_eq (bi : tr_block_info) (c : tr_completion)
    (hl : BlockLayout bi) (hsize : c.blocks_.size = bi.n_blocks) (begin_ end_ : Nat)
    (hbe : begin_ ≤ end_) (hen : end_ ≤ bi.n_blocks) (hne : begin_ < end_ ∨ bi.n_blocks = 0) :
    tr_completion.countHasBytesInBlocks bi c ⟨begin_, end_⟩
        = sumBelow (blockBytesIfSet bi c.blocks_) end_
          - sumBelow (blockBytesIfSet bi c.blocks_) begin_
      ∧ sumBelow (blockBytesIfSet bi c.blocks_) begin_
          ≤ sumBelow (blockBytesIfSet bi c.blocks_) end_ := by
  have hE := sumBelow_blockBytes bi c.blocks_ hl.final_le end_ hen
  have hB := sumBelow_blockBytes bi c.blocks_ hl.final_le begin_ (by omega)
  have hmono := countBelow_mono c.blocks_.test hbe
  have hcount := count_eq_countBelow c.blocks_ begin_ end_
  have hcle := count_le c.blocks_ begin_ end_
  have h32 := hl.block_size_u32
  have hn32 := hl.n_blocks_u32
  have h64 := hl.blocks_u64
  have hfin := hl.final_le
  have hmul : c.blocks_.count begin_ end_ * bi.block_size < 2 ^ 64 := by
    have : c.blocks_.count begin_ end_ * bi.block_size ≤ bi.n_blocks * bi.block_size :=
      Nat.mul_le_mul_right _ (by omega)
    omega
  have hdelta : u32_sub bi.block_size bi.final_block_size
      = bi.block_size - bi.final_block_size := by
    unfold u32_sub U32; omega
  have hBadj : ¬ (begin_ = bi.n_blocks ∧ 1 ≤ begin_ ∧ c.blocks_.test (begin_ - 1) = true) := by
    rintro ⟨h1, h2, _⟩
    rcases hne with h | h <;> omega
  rw [if_neg hBadj, Nat.add_zero] at hB
  have hmulE : countBelow c.blocks_.test end_ * bi.block_size
      = countBelow c.blocks_.test begin_ * bi.block_size
        + c.blocks_.count begin_ end_ * bi.block_size := by
    rw [hcount, ← Nat.add_mul]
    congr 1
    omega
  unfold tr_completion.countHasBytesInBlocks
  dsimp only
  rw [u64_mul_eq hmul, hdelta]
  by_cases hcond : end_ = bi.n_blocks ∧ c.blocks_.test (u32_sub end_ 1) = true
  · have hpos : 1 ≤ end_ := by
      by_contra h0
      have he0 : end_ = 0 := by omega
      have ht := hcond.2
      rw [tr_bitfield_test_size c.blocks_ _ (by rw [hsize, ← hcond.1, he0]; exact Nat.zero_le _)] at ht
      cases ht
    have hu : u32_sub end_ 1 = end_ - 1 := by unfold u32_sub U32; omega
    have hadj : end_ = bi.n_blocks ∧ 1 ≤ end_ ∧ c.blocks_.test (end_ - 1) = true :=
      ⟨hcond.1, hpos, by rw [← hu]; exact hcond.2⟩
    rw [if_pos hadj] at hE
    have hc1 : 1 ≤ c.blocks_.count begin_ end_ := by
      rw [hcount]
      have hs := countBelow_succ c.blocks_.test (end_ - 1)
      rw [Nat.sub_add_cancel hpos, hadj.2.2] at hs
      have hm2 := countBelow_mono c.blocks_.test (show begin_ ≤ end_ - 1 by
        rcases hne with h | h <;> omega)
      simp only [if_true] at hs
      omega
    have hge : bi.block_size - bi.final_block_size ≤ c.blocks_.count begin_ end_ * bi.block_size := by
      have : bi.block_size ≤ c.blocks_.count begin_ end_ * bi.block_size :=
        Nat.le_mul_of_pos_left _ hc1
      omega
    rw [if_pos hcond, u64_sub_eq hge hmul]
    constructor <;> omega
  · have hadj : ¬ (end_ = bi.n_blocks ∧ 1 ≤ end_ ∧ c.blocks_.test (end_ - 1) = true) := by
      rintro ⟨h1, h2, h3⟩
      have hu : u32_sub end_ 1 = end_ - 1 := by unfold u32_sub U32; omega
      exact hcond ⟨h1, by rw [hu]; exact h3⟩
    rw [if_neg hadj, Nat.add_zero] at hE
    rw [if_neg hcond]
    constructor <;> omega

theorem sumBelow_add_range (f : Nat → Nat) (a len : Nat) :
    sumBelow f (a + len) = sumBelow f a + sumRange f a len := by
  unfold sumBelow sumRange
  rw [List.range_eq_range', List.range_eq_range', ← List.sum_append, ← List.map_append]
  have := List.range'_append_1 0 a len
  rw [Nat.zero_add] at this
  rw [this, Nat.add_comm]

theorem sumRange_congr (f g : Nat → Nat) (a len : Nat)
    (h : ∀ i, a ≤ i → i < a + len → f i = g i) : sumRange f a len = sumRange g a len := by
  unfold sumRange
  congr 1
  apply List.map_congr_left
  intro i hi
  rw [List.mem_range'_1] at hi
  exact h i hi.1 hi.2

theorem sumRange_zero (a len : Nat) : sumRange (fun _ => 0) a len = 0 := by
  simp [sumRange]

/-- The bytes of the set blocks never exceed `n_blocks * block_size`. -/
theorem sumBelow_blockBytes_le (bi : tr_block_info) (blocks : tr_bitfield)
    (hfinal : bi.final_block_size ≤ bi.block_size) :
    sumBelow (blockBytesIfSet bi blocks) bi.n_blocks ≤ bi.n_blocks * bi.block_size := by
  have h := sumBelow_blockBytes bi blocks hfinal bi.n_blocks (Nat.le_refl _)
  have hc : countBelow blocks.test bi.n_blocks ≤ bi.n_blocks := by
    have h1 := count_le blocks 0 bi.n_blocks
    rw [count_eq_countBelow] at h1
    have h0 : countBelow blocks.test 0 = 0 := rfl
    omega
  have := Nat.mul_le_mul_right bi.block_size hc
  omega

theorem sumBelow_set (bi : tr_block_info) (b : tr_bitfield) (j : Nat) (hj : j < b.size)
    (hnot : b.test j = false) (n : Nat) :
    sumBelow (blockBytesIfSet bi (b.set j)) n
      = sumBelow (blockBytesIfSet bi b) n + (if j < n then bi.blockSize j else 0) := by
  induction n with
  | zero => simp [sumBelow]
  | succ n ih =>
    rw [sumBelow_succ, sumBelow_succ, ih]
    unfold blockBytesIfSet
    rw [tr_bitfield_set_test b j n hj]
    by_cases hn : n = j
    · subst hn
      simp [hnot]
    · have h1 : ¬ j < n + 1 ↔ ¬ j < n := by omega
      by_cases hlt : j < n
      · have : j < n + 1 := by omega
        simp [hn, hlt, this]
        omega
      · have : ¬ j < n + 1 := by omega
        simp [hn, hlt, this]

theorem addBlock_inv (bi : tr_block_info) (hl : BlockLayout bi) (c : tr_completion)
    (block : Nat) (hb : block < bi.n_blocks) (h : SizeNowInv bi c) :
    SizeNowInv bi (tr_completion.addBlock bi c block) := by
  unfold tr_completion.addBlock
  by_cases hhas : c.hasBlock block = true
  · rw [if_pos hhas]; exact h
  · rw [if_neg hhas]
    obtain ⟨hs, hn⟩ := h
    have hnot : c.blocks_.test block = false := by
      simpa [tr_completion.hasBlock] using hhas
    refine ⟨by show (c.blocks_.set block).size = _; rw [tr_bitfield_set_size, hs], ?_⟩
    show u64_add c.size_now_ (bi.blockSize block) = ownedBlockBytes bi (c.blocks_.set block)
    have hset := sumBelow_set bi c.blocks_ block (by omega) hnot bi.n_blocks
    rw [if_pos hb] at hset
    have hle := sumBelow_blockBytes_le bi (c.blocks_.set block) hl.final_le
    rw [ownedBlockBytes_eq, tr_bitfield_set_size, hs, hset, hn, ownedBlockBytes_eq, hs]
    rw [hset] at hle
    have := hl.blocks_u64
    unfold u64_add U64
    exact Nat.mod_eq_of_lt (by omega)

theorem foldl_addBlock_inv (bi : tr_block_info) (hl : BlockLayout bi) (l : List Nat) :
    ∀ c : tr_completion, (∀ b ∈ l, b < bi.n_blocks) → SizeNowInv bi c →
      SizeNowInv bi (l.foldl (fun c block => tr_completion.addBlock bi c block) c) := by
  induction l with
  | nil => intro c _ h; exact h
  | cons b l ih =>
    intro c hb h
    rw [List.foldl_cons]
    exact ih _ (fun x hx => hb x (List.mem_cons_of_mem _ hx))
      (addBlock_inv bi hl c b (hb b (List.mem_cons_self _ _)) h)

theorem addPiece_inv (bi : tr_block_info) (hl : BlockLayout bi) (c : tr_completion)
    (piece : Nat) (hp : (bi.blockSpanForPiece piece).end_ ≤ bi.n_blocks)
    (h : SizeNowInv bi c) : SizeNowInv bi (tr_completion.addPiece bi c piece) := by
  unfold tr_completion.addPiece
  apply foldl_addBlock_inv bi hl _ c _ h
  intro b hb
  rw [List.mem_range'_1] at hb
  omega

theorem setBlocks_inv (bi : tr_block_info) (hl : BlockLayout bi) (c : tr_completion)
    (blocks : tr_bitfield) (hb : blocks.size = bi.n_blocks) :
    SizeNowInv bi (tr_completion.setBlocks bi c blocks) := by
  unfold tr_completion.setBlocks
  refine ⟨hb, ?_⟩
  show tr_completion.countHasBytesInBlocks bi { c with blocks_ := blocks }
      ⟨0, blocks.size % U32⟩ = ownedBlockBytes bi blocks
  have hmod : blocks.size % U32 = bi.n_blocks := by
    rw [hb]
    exact Nat.mod_eq_of_lt hl.n_blocks_u32
  rw [hmod, (countHasBytesInBlocks_eq bi { c with blocks_ := blocks } hl hb 0 bi.n_blocks
    (Nat.zero_le _) (Nat.le_refl _) (by omega)).1, ownedBlockBytes_eq, hb]
  show _ - sumBelow _ 0 = _
  simp [sumBelow]

theorem countBelow_all (p : Nat → Bool) (n : Nat) (h : ∀ i, i < n → p i = true) :
    countBelow p n = n := by
  induction n with
  | zero => rfl
  | succ n ih =>
    rw [countBelow_succ, ih (fun i hi => h i (by omega)), h n (by omega)]
    rfl

theorem setHasAll_inv (bi : tr_block_info) (hl : BlockLayout bi) (c : tr_completion)
    (hs : c.blocks_.size = bi.n_blocks) :
    SizeNowInv bi (tr_completion.setHasAll bi c) := by
  unfold tr_completion.setHasAll
  have hsz : c.blocks_.setHasAll.size = bi.n_blocks := by
    rw [(tr_bitfield_setHasAll_spec c.blocks_ 0).1, hs]
  refine ⟨hsz, ?_⟩
  show bi.totalSize = ownedBlockBytes bi c.blocks_.setHasAll
  rw [ownedBlockBytes_eq, hsz]
  have hsum := sumBelow_blockBytes bi c.blocks_.setHasAll hl.final_le bi.n_blocks (Nat.le_refl _)
  have hall : countBelow c.blocks_.setHasAll.test bi.n_blocks = bi.n_blocks :=
    countBelow_all _ _ (fun i hi => by
      rw [(tr_bitfield_setHasAll_spec c.blocks_ i).2, hs]
      exact decide_eq_true hi)
  rw [hall] at hsum
  have htot := hl.total
  have hfin := hl.final_le
  have hring : ((bi.n_blocks : Int) - 1) * bi.block_size
      = (bi.n_blocks : Int) * bi.block_size - bi.block_size := by ring
  rw [hring] at htot
  unfold tr_block_info.totalSize
  rcases Nat.eq_zero_or_pos bi.n_blocks with h0 | hpos
  · rw [h0] at hsum htot ⊢
    simp only [sumBelow, List.range_zero, List.map_nil, List.sum_nil] at hsum ⊢
    push_cast at htot
    omega
  · have hadj : bi.n_blocks = bi.n_blocks ∧ 1 ≤ bi.n_blocks
        ∧ c.blocks_.setHasAll.test (bi.n_blocks - 1) = true :=
      ⟨rfl, hpos, by
        rw [(tr_bitfield_setHasAll_spec c.blocks_ _).2, hs]
        exact decide_eq_true (by omega)⟩
    rw [if_pos hadj] at hsum
    have hcast : ((bi.n_blocks * bi.block_size : Nat) : Int)
        = (bi.n_blocks : Int) * bi.block_size := by push_cast; rfl
    omega

theorem removePiece_inv (bi : tr_block_info) (hl : BlockLayout bi) (c : tr_completion)
    (piece : Nat)
    (hne : (bi.blockSpanForPiece piece).begin_ < (bi.blockSpanForPiece piece).end_)
    (hen : (bi.blockSpanForPiece piece).end_ ≤ bi.n_blocks)
    (h : SizeNowInv bi c) : SizeNowInv bi (tr_completion.removePiece bi c piece) := by
  obtain ⟨hs, hn⟩ := h
  unfold tr_completion.removePiece
  generalize bi.blockSpanForPiece piece = span at hne hen
  obtain ⟨begin_, end_⟩ := span
  simp only at hne hen
  have hsz : (c.blocks_.unsetSpan begin_ end_).size = bi.n_blocks := by
    rw [(tr_bitfield_unsetSpan_spec c.blocks_ begin_ end_ 0).1, hs]
  refine ⟨hsz, ?_⟩
  show u64_sub c.size_now_ (tr_completion.countHasBytesInBlocks bi c ⟨begin_, end_⟩)
      = ownedBlockBytes bi (c.blocks_.unsetSpan begin_ end_)
  obtain ⟨hcnt, hmono⟩ := countHasBytesInBlocks_eq bi c hl hs begin_ end_ (by omega) hen
    (Or.inl hne)
  have hE : sumBelow (blockBytesIfSet bi c.blocks_) (begin_ + (end_ - begin_))
      = sumBelow (blockBytesIfSet bi c.blocks_) begin_
        + sumRange (blockBytesIfSet bi c.blocks_) begin_ (end_ - begin_) :=
    sumBelow_add_range _ _ _
  have hN : sumBelow (blockBytesIfSet bi c.blocks_) (end_ + (bi.n_blocks - end_))
      = sumBelow (blockBytesIfSet bi c.blocks_) end_
        + sumRange (blockBytesIfSet bi c.blocks_) end_ (bi.n_blocks - end_) :=
    sumBelow_add_range _ _ _
  have hE2 : sumBelow (blockBytesIfSet bi (c.blocks_.unsetSpan begin_ end_))
        (begin_ + (end_ - begin_))
      = sumBelow (blockBytesIfSet bi (c.blocks_.unsetSpan begin_ end_)) begin_
        + sumRange (blockBytesIfSet bi (c.blocks_.unsetSpan begin_ end_)) begin_
            (end_ - begin_) :=
    sumBelow_add_range _ _ _
  have hN2 : sumBelow (blockBytesIfSet bi (c.blocks_.unsetSpan begin_ end_))
        (end_ + (bi.n_blocks - end_))
      = sumBelow (blockBytesIfSet bi (c.blocks_.unsetSpan begin_ end_)) end_
        + sumRange (blockBytesIfSet bi (c.blocks_.unsetSpan begin_ end_)) end_
            (bi.n_blocks - end_) :=
    sumBelow_add_range _ _ _
  have h1 : begin_ + (end_ - begin_) = end_ := by omega
  have h2 : end_ + (bi.n_blocks - end_) = bi.n_blocks := by omega
  rw [h1] at hE hE2
  rw [h2] at hN hN2
  have hA : sumBelow (blockBytesIfSet bi (c.blocks_.unsetSpan begin_ end_)) begin_
      = sumBelow (blockBytesIfSet bi c.blocks_) begin_ :=
    sumBelow_congr _ _ _ (fun i hi => by
      unfold blockBytesIfSet
      rw [(tr_bitfield_unsetSpan_spec c.blocks_ begin_ end_ i).2]
      have : ¬ begin_ ≤ i := by omega
      simp [this])
  have hM : sumRange (blockBytesIfSet bi (c.blocks_.unsetSpan begin_ end_)) begin_
      (end_ - begin_) = 0 := by
    rw [sumRange_congr _ (fun _ => 0) _ _ (fun i hi1 hi2 => by
      unfold blockBytesIfSet
      rw [(tr_bitfield_unsetSpan_spec c.blocks_ begin_ end_ i).2]
      have : i < end_ := by omega
      simp [hi1, this]), sumRange_zero]
  have hC : sumRange (blockBytesIfSet bi (c.blocks_.unsetSpan begin_ end_)) end_
      (bi.n_blocks - end_)
      = sumRange (blockBytesIfSet bi c.blocks_) end_ (bi.n_blocks - end_) :=
    sumRange_congr _ _ _ _ (fun i hi1 _ => by
      unfold blockBytesIfSet
      rw [(tr_bitfield_unsetSpan_spec c.blocks_ begin_ end_ i).2]
      have : ¬ i < end_ := by omega
      simp [this])
  have hle := sumBelow_blockBytes_le bi c.blocks_ hl.final_le
  have h64 := hl.blocks_u64
  rw [ownedBlockBytes_eq, hs] at hn
  rw [ownedBlockBytes_eq, hsz, hcnt, hn, u64_sub_eq (by omega) (by omega)]
  omega

theorem init_inv (bi : tr_block_info) : SizeNowInv bi (tr_completion.init bi) := by
  refine ⟨by simp [tr_completion.init, tr_bitfield.ofSize, tr_bitfield.size], ?_⟩
  show 0 = ownedBlockBytes bi (tr_bitfield.ofSize bi.n_blocks)
  rw [ownedBlockBytes_eq]
  have hz : ∀ n, sumBelow (blockBytesIfSet bi (tr_bitfield.ofSize bi.n_blocks)) n = 0 := by
    intro n
    induction n with
    | zero => rfl
    | succ n ih =>
      rw [sumBelow_succ, ih]
      unfold blockBytesIfSet
      have h := (tr_bitfield_setHasNone_spec (tr_bitfield.ofSize bi.n_blocks) n).2
      have he : (tr_bitfield.ofSize bi.n_blocks).setHasNone = tr_bitfield.ofSize bi.n_blocks := by
        simp [tr_bitfield.setHasNone, tr_bitfield.ofSize]
      rw [he] at h
      rw [h]
      rfl
  rw [hz]

theorem sizeWhenDone_inv (bi : tr_block_info) (pw : Nat → Bool) (c : tr_completion)
    (h : SizeNowInv bi c) : SizeNowInv bi (tr_completion.sizeWhenDone bi pw c).1 := by
  unfold tr_completion.sizeWhenDone
  split
  · exact h
  · exact h

theorem step_inv (bi : tr_block_info) (pw : Nat → Bool) (hl : BlockLayout bi)
    (c : tr_completion) (op : tr_completion.CompletionOp) (hv : CompletionOp.valid bi op)
    (h : SizeNowInv bi c) : SizeNowInv bi (tr_completion.step bi pw c op) := by
  cases op with
  | addBlock block => exact addBlock_inv bi hl c block hv h
  | addPiece piece => exact addPiece_inv bi hl c piece hv h
  | removePiece piece => exact removePiece_inv bi hl c piece hv.1 hv.2 h
  | setBlocks blocks => exact setBlocks_inv bi hl c blocks hv
  | setHasAll => exact setHasAll_inv bi hl c h.1
  | hasTotal => exact h
  | sizeWhenDone => exact sizeWhenDone_inv bi pw c h
  | leftUntilDone =>
    show SizeNowInv bi (tr_completion.leftUntilDone bi pw c).1
    have he : (tr_completion.leftUntilDone bi pw c).1 = (tr_completion.sizeWhenDone bi pw c).1 := by
      unfold tr_completion.leftUntilDone
      rfl
    rw [he]
    exact sizeWhenDone_inv bi pw c h

theorem run_inv (bi : tr_block_info) (pw : Nat → Bool) (hl : BlockLayout bi)
    (ops : List tr_completion.CompletionOp) :
    ∀ c : tr_completion, (∀ op ∈ ops, CompletionOp.valid bi op) → SizeNowInv bi c →
      SizeNowInv bi (tr_completion.run bi pw c ops) := by
  induction ops with
  | nil => intro c _ h; exact h
  | cons op ops ih =>
    intro c hv h
    show SizeNowInv bi (tr_completion.run bi pw (tr_completion.step bi pw c op) ops)
    exact ih _ (fun o ho => hv o (List.mem_cons_of_mem _ ho))
      (step_inv bi pw hl c op (hv op (List.mem_cons_self _ _)) h)

/-- Claim C27. On a block layout with
`total_size = (n_blocks - 1) * block_size + final_block_size`, after every sequence of
`addBlock`, `addPiece`, `removePiece`, `setBlocks` and `setHasAll` (and of the queries)
on a fresh completion, each called with arguments within the torrent, the cached
`hasTotal()` is the sum of `blockSize(b)` over the blocks `b` set in the bitfield. -/
theorem completion_size_now_invariant (bi : tr_block_info) (pw : Nat → Bool)
    (hl : BlockLayout bi) (ops : List tr_completion.CompletionOp)
    (hv : ∀ op ∈ ops, CompletionOp.valid bi op) :
    (tr_completion.run bi pw (tr_completion.init bi) ops).hasTotal
      = ownedBlockBytes bi (tr_completion.run bi pw (tr_completion.init bi) ops).blocks_ :=
  (run_inv bi pw hl ops _ hv (init_inv bi)).2

theorem completion_size_now_invariant_witness :
    (tr_completion.run tenByteInfo wantFirstOnly (tr_completion.init tenByteInfo)
        [.addPiece 0, .addBlock 2, .removePiece 0, .addBlock 1]).hasTotal
      = ownedBlockBytes tenByteInfo
          (tr_completion.run tenByteInfo wantFirstOnly (tr_completion.init tenByteInfo)
            [.addPiece 0, .addBlock 2, .removePiece 0, .addBlock 1]).blocks_ :=
  completion_size_now_invariant tenByteInfo wantFirstOnly
    ⟨by decide, by decide, by decide, by decide, by decide⟩
    [.addPiece 0, .addBlock 2, .removePiece 0, .addBlock 1]
    (by
      intro op hop
      simp only [List.mem_cons, List.mem_singleton, List.not_mem_nil, or_false] at hop
      rcases hop with h | h | h | h <;> subst h <;> simp [CompletionOp.valid] <;> decide)

/-- Claim C26, evaluated on the code. With `multiscrape_max = 20`, two responses to
requests built under that limit, of 20 rows and of 10 rows, both failing with
"Request-URI Too Long": the first lowers the limit to 15, the second, whose 10 rows do
not exceed 15, lowers it again to 10, not `max(1, 20 - 5) = 15`. -/
theorem checkMultiscrapeMax_lowers_twice :
    announcerWithMax20.scrape_info "http://t/scrape" = some ⟨"http://t/scrape", 20⟩
      ∧ multiscrape_too_big tooLongResponse.errmsg = true
      ∧ multiscrape_too_big tooLongResponse10.errmsg = true
      ∧ (checkMultiscrapeMax 64 announcerWithMax20 tooLongResponse).scrape_info
          "http://t/scrape" = some ⟨"http://t/scrape", 15⟩
      ∧ (checkMultiscrapeMax 64 (checkMultiscrapeMax 64 announcerWithMax20 tooLongResponse)
          tooLongResponse10).scrape_info "http://t/scrape" = some ⟨"http://t/scrape", 10⟩ := by
  have hfirst : (checkMultiscrapeMax 64 announcerWithMax20
      tooLongResponse).scrape_info "http://t/scrape" = some ⟨"http://t/scrape", 15⟩ := by
    have h := checkMultiscrapeMax_at_url 64 announcerWithMax20 tooLongResponse 20
      (by decide) (by decide)
    have hv : (if multiscrape_too_big tooLongResponse.errmsg = true
        ∧ (20 : Int) ≥ tooLongResponse.row_count then max 1 ((20 : Int) - 5) else 20) = 15 := by
      decide
    rw [hv] at h
    exact h
  have hsecond : (checkMultiscrapeMax 64
      (checkMultiscrapeMax 64 announcerWithMax20 tooLongResponse)
      tooLongResponse10).scrape_info "http://t/scrape" = some ⟨"http://t/scrape", 10⟩ := by
    have h := checkMultiscrapeMax_at_url 64
      (checkMultiscrapeMax 64 announcerWithMax20 tooLongResponse)
      tooLongResponse10 15 (by decide) hfirst
    have hv : (if multiscrape_too_big tooLongResponse10.errmsg = true
        ∧ (15 : Int) ≥ tooLongResponse10.row_count then max 1 ((15 : Int) - 5) else 15) = 10 := by
      decide
    rw [hv] at h
    exact h
  exact ⟨by decide, by decide, by decide, hfirst, hsecond⟩

/-! ## Announcer: reachable announce queues -/

theorem foldl_max_spec (l : List tr_announce_event) :
    ∀ init : Int,
      init ≤ l.foldl (fun priority event => max priority event.toInt) init
        ∧ (∀ e ∈ l, e.toInt ≤ l.foldl (fun priority event => max priority event.toInt) init)
        ∧ (l.foldl (fun priority event => max priority event.toInt) init = init
            ∨ ∃ e ∈ l, e.toInt = l.foldl (fun priority event => max priority event.toInt) init) := by
  induction l with
  | nil => intro init; simp
  | cons x l ih =>
    intro init
    obtain ⟨h1, h2, h3⟩ := ih (max init x.toInt)
    rw [List.foldl_cons]
    refine ⟨le_trans (le_max_left _ _) h1, ?_, ?_⟩
    · intro e he
      rcases List.mem_cons.mp he with h | h
      · rw [h]; exact le_trans (le_max_right _ _) h1
      · exact h2 e h
    · rcases h3 with h | ⟨e, he, h⟩
      · rcases le_total init x.toInt with hle | hle
        · right
          exact ⟨x, List.mem_cons_self _ _, by rw [h, max_eq_right hle]⟩
        · left
          rw [h, max_eq_left hle]
      · right
        exact ⟨e, List.mem_cons_of_mem _ he, h⟩

theorem toInt_nonneg (e : tr_announce_event) : 0 ≤ e.toInt := by
  cases e <;> decide

theorem tier_update_announce_priority_isMax (tier : tr_tier) :
    PriorityIsMax (tier_update_announce_priority tier) := by
  unfold PriorityIsMax
  obtain ⟨h1, h2, h3⟩ := foldl_max_spec tier.announce_events (-1)
  constructor
  · intro h
    have h' : tier.announce_events = [] := h
    show List.foldl _ (-1) tier.announce_events = -1
    rw [h']
    rfl
  · intro _
    refine ⟨?_, h2⟩
    rcases h3 with h | h
    · exfalso
      rcases List.exists_mem_of_ne_nil tier.announce_events (by assumption) with ⟨e, he⟩
      have := h2 e he
      have := toInt_nonneg e
      rw [h] at *
      omega
    · exact h

theorem tier_announce_event_push_isMax (tier : tr_tier) (e : tr_announce_event)
    (announceAt : Int) : PriorityIsMax (tier_announce_event_push tier e announceAt) := by
  unfold tier_announce_event_push
  exact tier_update_announce_priority_isMax _

theorem tier_announce_event_pull_spec (tier next : tr_tier) (e : tr_announce_event)
    (h : tier_announce_event_pull tier = some (next, e)) :
    tier.announce_events = e :: next.announce_events ∧ PriorityIsMax next := by
  unfold tier_announce_event_pull at h
  split at h
  · cases h
  · rename_i x rest hq
    simp only [Option.some.injEq, Prod.mk.injEq] at h
    obtain ⟨h1, h2⟩ := h
    subst h1 h2
    exact ⟨hq, tier_update_announce_priority_isMax _⟩

/-- A push keeps a queue free of equal neighbours and of `None` before its last place. -/
theorem pushedQueue_compact (q : List tr_announce_event) (e : tr_announce_event)
    (hdup : q.Chain' (fun a b => a ≠ b)) (hnone : tr_announce_event.NONE ∉ q.dropLast) :
    (pushedQueue q e).Chain' (fun a b => a ≠ b)
      ∧ tr_announce_event.NONE ∉ (pushedQueue q e).dropLast := by
  unfold pushedQueue
  by_cases hq : q = []
  · simp [hq]
  · rw [if_neg hq]
    by_cases he : e = .STOPPED
    · subst he
      by_cases hc : tr_announce_event.COMPLETED ∈ q <;> simp [hc]
    · rw [if_neg he]
      obtain ⟨t1, ht1⟩ :=
        rdropWhile_append_rest (fun x => decide (x = tr_announce_event.NONE)) q
      have hl1 := rdropWhile_getLast (fun x => decide (x = tr_announce_event.NONE)) q
      obtain ⟨t2, ht2⟩ := rdropWhile_append_rest (fun x => decide (x = e))
        (q.rdropWhile (fun x => decide (x = tr_announce_event.NONE)))
      have hl2 := rdropWhile_getLast (fun x => decide (x = e))
        (q.rdropWhile (fun x => decide (x = tr_announce_event.NONE)))
      generalize (q.rdropWhile
        (fun x => decide (x = tr_announce_event.NONE))).rdropWhile (fun x => decide (x = e))
        = l2 at ht2 hl2 ⊢
      generalize q.rdropWhile (fun x => decide (x = tr_announce_event.NONE))
        = l1 at ht1 hl1 ht2 ⊢
      constructor
      · rw [ht1, ht2] at hdup
        refine List.Chain'.append hdup.left_of_append.left_of_append (List.chain'_singleton e) ?_
        intro x hx y hy
        have hye : y = e := by simpa using hy.symm
        subst hye
        simpa using hl2 x hx
      · rw [ht1] at hnone
        have hnone1 : tr_announce_event.NONE ∉ l1 :=
          not_mem_of_append_of_not_last hnone (fun hc => by simpa using hl1 _ hc)
        rw [List.dropLast_concat]
        intro hc
        apply hnone1
        rw [ht2]
        exact List.mem_append_left _ hc

theorem queueReachable_compact (tier : tr_tier) (h : QueueReachable tier) :
    tier.announce_events.Chain' (fun a b => a ≠ b)
      ∧ tr_announce_event.NONE ∉ tier.announce_events.dropLast := by
  induction h with
  | fresh tier h => rw [h]; exact ⟨List.chain'_nil, by simp⟩
  | push tier e a _ ih =>
    rw [tier_announce_event_push_queue]
    exact pushedQueue_compact _ e ih.1 ih.2
  | pull tier next e _ hp ih =>
    have hq := (tier_announce_event_pull_spec tier next e hp).1
    rw [hq] at ih
    refine ⟨ih.1.tail, fun hmem => ih.2 ?_⟩
    cases hn : next.announce_events with
    | nil => rw [hn] at hmem; simp at hmem
    | cons y ys =>
      rw [hn] at hmem
      rw [List.dropLast_cons₂]
      exact List.mem_cons_of_mem _ hmem

/-- Claim C4. For every announce event queue that a tier can hold, one reached from an
empty queue by pushes and pulls, and every event `e`: the queue after
`tier_announce_event_push(q, e)` ends with `e`, contains no two equal adjacent events, and
the event immediately before the final `e`, if any, is not `None`. -/
theorem tier_announce_event_push_reachable (tier src : tr_tier) (hsrc : QueueReachable src)
    (hq : tier.announce_events = src.announce_events) (e : tr_announce_event)
    (announceAt : Int) :
    (tier_announce_event_push tier e announceAt).announce_events.getLast? = some e
      ∧ (tier_announce_event_push tier e announceAt).announce_events.Chain' (fun a b => a ≠ b)
      ∧ (tier_announce_event_push tier e announceAt).announce_events.dropLast.getLast?
          ≠ some .NONE :=
  ⟨(tier_announce_event_push_compact tier e announceAt).1,
    (tier_announce_event_push_compact tier e announceAt).2.1
      (hq ▸ (queueReachable_compact src hsrc).1),
    (tier_announce_event_push_compact tier e announceAt).2.2
      (hq ▸ (queueReachable_compact src hsrc).2)⟩

/-- Claim C4 at the queue `[Completed, None]`, reached by two pushes, and the event
`Started`. -/
theorem tier_announce_event_push_reachable_witness :
    QueueReachable (tier_announce_event_push (tier_announce_event_push freshTier .COMPLETED 5)
        .NONE 9)
      ∧ (tier_announce_event_push (tier_announce_event_push
          (tier_announce_event_push freshTier .COMPLETED 5) .NONE 9) .STARTED
            12).announce_events.getLast? = some .STARTED
      ∧ (tier_announce_event_push (tier_announce_event_push
          (tier_announce_event_push freshTier .COMPLETED 5) .NONE 9) .STARTED
            12).announce_events.Chain' (fun a b => a ≠ b)
      ∧ (tier_announce_event_push (tier_announce_event_push
          (tier_announce_event_push freshTier .COMPLETED 5) .NONE 9) .STARTED
            12).announce_events.dropLast.getLast? ≠ some .NONE :=
  ⟨QueueReachable.push _ .NONE 9
      (QueueReachable.push _ .COMPLETED 5 (QueueReachable.fresh freshTier rfl)),
    tier_announce_event_push_reachable _ _
      (QueueReachable.push _ .NONE 9
        (QueueReachable.push _ .COMPLETED 5 (QueueReachable.fresh freshTier rfl)))
      rfl .STARTED 12⟩

/-- Claim C28. Every tier reached from an empty announce queue by pushes and by pulls on
a non-empty queue has a queue without two equal adjacent events, in which `None`
occurs at most as the last element; and after each push and each pull
`announce_event_priority` is the largest event value in the queue, -1 when it is
empty. -/
theorem reachable_queue_invariants (tier : tr_tier) (h : QueueReachable tier) :
    tier.announce_events.Chain' (fun a b => a ≠ b)
      ∧ tr_announce_event.NONE ∉ tier.announce_events.dropLast
      ∧ (∀ (e : tr_announce_event) (announceAt : Int),
          PriorityIsMax (tier_announce_event_push tier e announceAt))
      ∧ (∀ (next : tr_tier) (e : tr_announce_event),
          tier_announce_event_pull tier = some (next, e) → PriorityIsMax next) :=
  ⟨(queueReachable_compact tier h).1, (queueReachable_compact tier h).2,
    fun e a => tier_announce_event_push_isMax tier e a,
    fun next e hp => (tier_announce_event_pull_spec tier next e hp).2⟩

theorem reachable_queue_invariants_witness :
    (tier_announce_event_push (tier_announce_event_push freshTier .STARTED 10) .NONE
        20).announce_events.Chain' (fun a b => a ≠ b)
      ∧ tr_announce_event.NONE ∉ (tier_announce_event_push
          (tier_announce_event_push freshTier .STARTED 10) .NONE 20).announce_events.dropLast :=
  ⟨(reachable_queue_invariants _
      (QueueReachable.push _ .NONE 20
        (QueueReachable.push _ .STARTED 10 (QueueReachable.fresh freshTier rfl)))).1,
    (reachable_queue_invariants _
      (QueueReachable.push _ .NONE 20
        (QueueReachable.push _ .STARTED 10 (QueueReachable.fresh freshTier rfl)))).2.1⟩

/-! ## Resume: the bitfield encoding -/

/-- Claim C30, evaluated on the code. A bitfield of 32 bits, 20 of them set, whose
`raw()` bytes are the ASCII text "none": `bitfieldToRaw` writes those four bytes, and
`rawToBitfield` reads them back as the empty bitfield. -/
theorem bitfield_round_trip_none_collision :
    noneSpellingBitfield.size = 32
      ∧ noneSpellingBitfield.count 0 32 = 20
      ∧ bitfieldToRaw noneSpellingBitfield = [0x6e, 0x6f, 0x6e, 0x65]
      ∧ (rawToBitfield (tr_bitfield.ofSize 32) (some (bitfieldToRaw noneSpellingBitfield))).count
          0 32 = 0
      ∧ rawToBitfield (tr_bitfield.ofSize 32) (some (bitfieldToRaw noneSpellingBitfield))
          ≠ noneSpellingBitfield := by
  refine ⟨by decide, by decide, by decide, by decide, by decide⟩

/-! ## Announcer: the response handler at sample responses -/

theorem on_announce_done_byte_counts_witness :
    (∃ (tier' : tr_tier) (log : List PublishCall),
        on_announce_done (fun _ => 7) 200 { } loadedTier peersResponse stoppedData
            = some (tier', log)
          ∧ tier'.byteCounts = (0, 0, 0)
          ∧ tier'.announce_events = loadedTier.announce_events)
      ∧ ∃ (tier' : tr_tier) (log : List PublishCall),
          on_announce_done (fun _ => 7) 200 { } loadedTier noConnectResponse stoppedData
              = some (tier', log)
            ∧ tier'.byteCounts = loadedTier.byteCounts :=
  ⟨(on_announce_done_byte_counts (fun _ => 7) 200 { } loadedTier peersResponse stoppedData).1
      rfl rfl rfl rfl,
    (on_announce_done_byte_counts (fun _ => 7) 200 { } loadedTier noConnectResponse
      stoppedData).2 (Or.inl rfl) (by decide)⟩

/-- Claim C12, amended, at a successful response with two peers and at a response of a
tracker that could not be reached. -/
theorem on_announce_done_publishes_witness :
    (∃ (tier' : tr_tier) (log : List PublishCall),
        on_announce_done (fun _ => 7) 200 { } loadedTier peersResponse stoppedData
            = some (tier', log)
          ∧ log.filter PublishCall.isResponseData
            = [PublishCall.publishPeersPex 5 7 [1, 2], PublishCall.publishPeerCounts 5 7])
      ∧ ∃ tier' : tr_tier,
          on_announce_done (fun _ => 7) 200 { } loadedTier noConnectResponse stoppedData
            = some (tier', []) :=
  ⟨(on_announce_done_publishes (fun _ => 7) 200 { } loadedTier peersResponse stoppedData).1
      rfl rfl rfl,
    (on_announce_done_publishes (fun _ => 7) 200 { } loadedTier noConnectResponse
      stoppedData).2.2 (Or.inl rfl) (by decide)⟩

/-! ## Further facts: piece spans and transient socket errors -/

/-- Every piece of a torrent has a block span as the mutators need it: for a layout
whose pieces tile `total_size` and whose blocks cover it, the span of a piece below
`n_pieces` is not empty and ends within `n_blocks`. -/
theorem blockSpanForPiece_within (bi : tr_block_info) (piece : Nat)
    (hbs : 0 < bi.block_size) (hfp : 0 < bi.final_piece_size)
    (hfple : bi.final_piece_size ≤ bi.piece_size)
    (htotal : bi.total_size = (bi.n_pieces - 1) * bi.piece_size + bi.final_piece_size)
    (hcover : bi.total_size ≤ bi.n_blocks * bi.block_size)
    (hp : piece < bi.n_pieces) :
    (bi.blockSpanForPiece piece).begin_ < (bi.blockSpanForPiece piece).end_
      ∧ (bi.blockSpanForPiece piece).end_ ≤ bi.n_blocks := by
  have hne : bi.block_size ≠ 0 := by omega
  unfold tr_block_info.blockSpanForPiece tr_block_info.byteLocBlock
  rw [if_neg hne]
  dsimp only
  have hps : 1 ≤ bi.pieceSize piece := by
    unfold tr_block_info.pieceSize
    split <;> omega
  have hlast : piece * bi.piece_size + bi.pieceSize piece ≤ bi.total_size := by
    unfold tr_block_info.pieceSize
    split
    · rename_i h
      have : piece = bi.n_pieces - 1 := by omega
      rw [htotal, this]
    · rename_i h
      have h1 : (piece + 1) * bi.piece_size ≤ (bi.n_pieces - 1) * bi.piece_size :=
        Nat.mul_le_mul_right _ (by omega)
      rw [Nat.add_mul, Nat.one_mul] at h1
      omega
  constructor
  · have : piece * bi.piece_size / bi.block_size
        ≤ (piece * bi.piece_size + bi.pieceSize piece - 1) / bi.block_size :=
      Nat.div_le_div_right (by omega)
    omega
  · have : (piece * bi.piece_size + bi.pieceSize piece - 1) / bi.block_size < bi.n_blocks := by
      rw [Nat.div_lt_iff_lt_mul hbs]
      omega
    omega

theorem tr_peerIoSetEnabled_no_gotError (io : tr_peerIo) (dir : tr_direction) (b : Bool) :
    invokesGotError (tr_peerIoSetEnabled io dir b).2 = false := by
  unfold tr_peerIoSetEnabled event_enable event_disable invokesGotError
  cases b <;> cases dir <;> simp <;> split <;> simp

theorem reschedule_no_gotError (io : tr_peerIo) :
    invokesGotError
      (if io.outbuf.length ≠ 0 then tr_peerIoSetEnabled io .TR_UP true else (io, [])).2
      = false := by
  by_cases h : io.outbuf.length ≠ 0
  · rw [if_pos h]
    exact tr_peerIoSetEnabled_no_gotError _ _ _
  · rw [if_neg h]
    rfl

/-- A failed read or write (`res = -1`) with `EAGAIN`, `EINTR` or `EINPROGRESS`:
`tr_peerIoTryRead`, `event_write_cb` and `tr_peerIoTryWrite` never invoke `gotError`,
and `event_read_cb` does not for `EAGAIN` and `EINTR`. -/
theorem transient_errors_not_surfaced (guess : Nat → Nat) (clamp : tr_direction → Nat → Nat)
    (io : tr_peerIo) (howmuch : Nat) (sock : SocketResult) (hres : sock.res = -1)
    (he : sock.e = EAGAIN ∨ sock.e = EINTR ∨ sock.e = EINPROGRESS) :
    invokesGotError (tr_peerIoTryRead clamp io howmuch sock).2.1 = false
      ∧ invokesGotError (event_write_cb guess clamp io sock).2 = false
      ∧ invokesGotError (tr_peerIoTryWrite guess clamp io howmuch sock).2.1 = false
      ∧ (sock.e ≠ EINPROGRESS → invokesGotError (event_read_cb clamp io sock).2 = false) := by
  have hneg : ¬ sock.res > 0 := by omega
  refine ⟨?_, ?_, ?_, ?_⟩
  · unfold tr_peerIoTryRead
    dsimp only
    have hc : ¬ (sock.res ≤ 0 ∧ io.hasGotError = true ∧ sock.e ≠ EAGAIN ∧ sock.e ≠ EINTR
        ∧ sock.e ≠ EINPROGRESS) := by
      rintro ⟨_, _, h1, h2, h3⟩
      rcases he with h | h | h
      · exact h1 h
      · exact h2 h
      · exact h3 h
    by_cases h0 : clamp tr_direction.TR_DOWN howmuch ≠ 0
    · rw [if_pos h0]
      split
      · split <;> simp [invokesGotError]
      · simp only [hneg, if_false, hc]
        split <;> simp [invokesGotError]
      · simp [invokesGotError]
    · rw [if_neg h0]
      simp [invokesGotError]
  · unfold event_write_cb
    dsimp only
    by_cases h1 : clamp tr_direction.TR_UP io.outbuf.length < 1
    · rw [if_pos h1]
      exact tr_peerIoSetEnabled_no_gotError _ _ _
    · have hc : sock.res = -1 ∧ (sock.e = 0 ∨ sock.e = EAGAIN ∨ sock.e = EINTR
          ∨ sock.e = EINPROGRESS) := ⟨hres, Or.inr he⟩
      rw [if_neg h1, if_pos hc]
      exact reschedule_no_gotError _
  · unfold tr_peerIoTryWrite
    dsimp only
    have hc : ¬ (sock.res < 0 ∧ io.hasGotError = true ∧ sock.e ≠ 0 ∧ sock.e ≠ EPIPE
        ∧ sock.e ≠ EAGAIN ∧ sock.e ≠ EINTR ∧ sock.e ≠ EINPROGRESS) := by
      rintro ⟨_, _, _, _, h1, h2, h3⟩
      rcases he with h | h | h
      · exact h1 h
      · exact h2 h
      · exact h3 h
    generalize clamp tr_direction.TR_UP
      (if howmuch > io.outbuf.length then io.outbuf.length else howmuch) = hm
    by_cases h0 : hm ≠ 0
    · rw [if_pos h0]
      split
      · simp [invokesGotError]
      · simp only [hneg, if_false, hc]
        simp [invokesGotError]
      · simp [invokesGotError]
    · rw [if_neg h0]
      simp [invokesGotError]
  · intro hnp
    have he2 : sock.e = EAGAIN ∨ sock.e = EINTR := by
      rcases he with h | h | h
      · exact Or.inl h
      · exact Or.inr h
      · exact absurd h hnp
    unfold event_read_cb
    dsimp only
    generalize clamp tr_direction.TR_DOWN
      (if io.inbuf.length % 2 ^ 32 ≥ 256 * 1024 then 0
        else 256 * 1024 - io.inbuf.length % 2 ^ 32) % 2 ^ 32 = hm
    by_cases h1 : hm < 1
    · rw [if_pos h1]
      exact tr_peerIoSetEnabled_no_gotError _ _ _
    · have h0 : ¬ sock.res = 0 := by omega
      rw [if_neg h1, if_neg hneg, if_neg h0, if_pos hres, if_pos he2]
      exact tr_peerIoSetEnabled_no_gotError _ _ _

end Transmission
